import Mathlib

/-!
The aws-smtp-relay address filter and relay dispatcher.

A shallow embedding of `internal/relay/filter/filter_address.go`,
`internal/relay/ses/relay.go`, `internal/relay/pinpoint/relay.go`,
`internal/relay/config/config.go` and `internal/relay/factory/factory.go`.

Modelling conventions

* A Go `string` is a `String`; the only byte the code inspects itself is the
  ASCII character `@`, so splitting on characters and on bytes agree.
* A `*regexp.Regexp` is an `Option Regexp`: `none` is the nil pointer and a
  compiled expression is known only through its `MatchString` method.
* A Go `error` is an `Option GoError`, `none` being `nil`.
* A `[]string` is a `List String`; `len(x) == 0` holds for `[]` only.
-/

/-- Values of the Go `error` interface that reach the relay: the three
sentinel errors of package `filter` and errors produced by collaborators
(the body reader and the backend API), identified by their message. -/
inductive GoError where
  | ErrDeniedSender
  | ErrDeniedRecipients
  | ErrDeniedRecipientsNotAllowed
  | external (msg : String)
  deriving DecidableEq, Repr

/-- A compiled regular expression, seen through `MatchString`. -/
structure Regexp where
  MatchString : String → Bool

namespace filter

/-- Cut a character list at its first `@`: `some (a, b)` when the input is
`a ++ '@' :: b` with no `@` in `a`, `none` when there is no `@`. This is the
leftmost match of the literal pattern `@`. -/
def findAt : List Char → Option (List Char × List Char)
  | [] => none
  | c :: cs =>
    if c = '@' then some ([], cs)
    else match findAt cs with
      | none => none
      | some (a, b) => some (c :: a, b)

/-- The library call `regexp.MustCompile("@").Split(s, n)` for `n ≥ 0`: no
pieces for `n = 0`, otherwise at most `n` pieces, the last one being the
unsplit remainder. -/
def splitAtSign : List Char → Nat → List (List Char)
  | _, 0 => []
  | s, 1 => [s]
  | s, n + 2 =>
    match findAt s with
    | none => [s]
    | some (a, b) => a :: splitAtSign b (n + 1)

/-- Go `extractDomain`: `parts[1]` when the split has exactly two parts,
the empty string otherwise. -/
def extractDomain (email : String) : String :=
  let parts := splitAtSign email.data 2
  if parts.length = 2 then String.mk (parts.getD 1 []) else ""

/-- The `for … range allowedDomains` loop of `isAllowedDomain`: return true
at the first entry equal to `domain`, false when the list is exhausted. -/
def domainLoop (domain : String) : List String → Bool
  | [] => false
  | allowedDomain :: rest =>
    if domain = allowedDomain then true else domainLoop domain rest

/-- Go `isAllowedDomain`. -/
def isAllowedDomain (email : String) (allowedDomains : List String) : Bool :=
  if allowedDomains.length = 0 then true
  else domainLoop (extractDomain email) allowedDomains

/-- The sender check at the top of `FilterAddresses`: the pending error. -/
def senderCheck (from_ : String) (allowFromRegExp : Option Regexp) : Option GoError :=
  match allowFromRegExp with
  | some re => if !re.MatchString from_ then some GoError.ErrDeniedSender else none
  | none => none

/-- One iteration of the recipient loop of `FilterAddresses`, acting on the
pair (allowedRecipients, deniedRecipients). `err` is the pending error of
the sender check, which the loop never changes. -/
def filterStep (err : Option GoError) (denyToRegExp allowToRegExp : Option Regexp)
    (allowedDomains : List String) (acc : List String × List String)
    (recipient : String) : List String × List String :=
  if err ≠ none then (acc.1, acc.2 ++ [recipient])
  else if (match denyToRegExp with
      | some re => re.MatchString recipient
      | none => false) then (acc.1, acc.2 ++ [recipient])
  else if (match allowToRegExp with
      | some re => !re.MatchString recipient
      | none => false) then (acc.1, acc.2 ++ [recipient])
  else if !isAllowedDomain recipient allowedDomains then (acc.1, acc.2 ++ [recipient])
  else (acc.1 ++ [recipient], acc.2)

/-- Go `FilterAddresses`: returns (allowedRecipients, deniedRecipients, err). -/
def FilterAddresses (from_ : String) (to_ : List String)
    (allowFromRegExp denyToRegExp allowToRegExp : Option Regexp)
    (allowedDomains : List String) :
    List String × List String × Option GoError :=
  let err := senderCheck from_ allowFromRegExp
  let lists := to_.foldl (filterStep err denyToRegExp allowToRegExp allowedDomains) ([], [])
  let err :=
    if err = none ∧ lists.2.length > 0 then
      if allowToRegExp.isSome ∨ allowedDomains.length > 0 then
        some GoError.ErrDeniedRecipientsNotAllowed
      else some GoError.ErrDeniedRecipients
    else err
  (lists.1, lists.2, err)

end filter

namespace relay

/-- Go `relay.ARNs`: three optional identifiers (`*string`). -/
structure ARNs where
  SourceArn : Option String
  FromArn : Option String
  ReturnPathArn : Option String
  deriving DecidableEq, Repr

end relay

/-- What a `Send` call does to its collaborators, in program order: a call
of `internal.Log` with its four arguments, a call of `relay.ConsumeToBytes`
on the body stream with the size cap, a call of the backend `SendEmail`
with the request. -/
inductive Effect (Input : Type) where
  | Log (origin : String) (from_ : String) (recipients : List String) (err : Option GoError)
  | ConsumeToBytes (maxSize : Nat)
  | SendEmail (input : Input)
  deriving DecidableEq, Repr

namespace ses

/-- Type `sesv2types.Destination`; a field left out of a composite literal
is nil. -/
structure Destination where
  ToAddresses : List String
  CcAddresses : List String := []
  BccAddresses : List String := []
  deriving DecidableEq, Repr

/-- Type `sesv2types.RawMessage`. -/
structure RawMessage where
  Data : List UInt8
  deriving DecidableEq, Repr

/-- Part of `sesv2types.EmailContent` used by `Send`. -/
structure EmailContent where
  Raw : Option RawMessage
  deriving DecidableEq, Repr

/-- The fields of `sesv2.SendEmailInput` that `Send` can set, followed by
the other fields of the type that hold addresses; a field left out of the
composite literal is nil. -/
structure SendEmailInput where
  ConfigurationSetName : Option String
  FromEmailAddress : Option String
  Destination : Option Destination
  Content : Option EmailContent
  FromEmailAddressIdentityArn : Option String
  FeedbackForwardingEmailAddressIdentityArn : Option String
  ReplyToAddresses : List String := []
  FeedbackForwardingEmailAddress : Option String := none
  deriving DecidableEq, Repr

/-- Interface `SESEmailClient`: `Send` discards the output value of
`SendEmail` and keeps its error. -/
structure SESEmailClient where
  SendEmail : SendEmailInput → Option GoError

/-- Go `ses.Client`. -/
structure Client where
  SesClient : SESEmailClient
  setName : Option String
  allowFromRegExp : Option Regexp
  denyToRegExp : Option Regexp
  allowToRegExp : Option Regexp
  allowedDomains : List String
  maxMessageSize : Nat
  arns : Option relay.ARNs

/-- The request `Send` builds: the composite literal followed by the
"Map ARNs to SESv2 format" block. -/
def buildInput (c : Client) (from_ : String) (allowedRecipients : List String)
    (data : List UInt8) : SendEmailInput :=
  let input : SendEmailInput :=
    { ConfigurationSetName := c.setName
      FromEmailAddress := some from_
      Destination := some { ToAddresses := allowedRecipients }
      Content := some { Raw := some { Data := data } }
      FromEmailAddressIdentityArn := none
      FeedbackForwardingEmailAddressIdentityArn := none }
  match c.arns with
  | none => input
  | some arns =>
    let input :=
      if arns.FromArn ≠ none then
        { input with FromEmailAddressIdentityArn := arns.FromArn }
      else if arns.SourceArn ≠ none then
        { input with FromEmailAddressIdentityArn := arns.SourceArn }
      else input
    if arns.ReturnPathArn ≠ none then
      { input with FeedbackForwardingEmailAddressIdentityArn := arns.ReturnPathArn }
    else input

/-- Go `ses.Client.Send`. `ConsumeToBytes` is `relay.ConsumeToBytes`, a
function of the body stream and the size cap. The result is the returned
error and the effects of the call in program order. -/
def Send {Reader : Type} (ConsumeToBytes : Reader → Nat → Except GoError (List UInt8))
    (c : Client) (origin : String) (from_ : String) (to_ : List String) (dr : Reader) :
    Option GoError × List (Effect SendEmailInput) :=
  let r := filter.FilterAddresses from_ to_ c.allowFromRegExp c.denyToRegExp
    c.allowToRegExp c.allowedDomains
  let allowedRecipients := r.1
  let deniedRecipients := r.2.1
  let err := r.2.2
  let log : List (Effect SendEmailInput) :=
    if err ≠ none then [Effect.Log origin from_ deniedRecipients err] else []
  if allowedRecipients.length > 0 then
    match ConsumeToBytes dr c.maxMessageSize with
    | Except.error sendErr => (some sendErr, log ++ [Effect.ConsumeToBytes c.maxMessageSize])
    | Except.ok data =>
      let input := buildInput c from_ allowedRecipients data
      let sendErr := c.SesClient.SendEmail input
      let err := if sendErr ≠ none then sendErr else err
      (err, log ++ [Effect.ConsumeToBytes c.maxMessageSize, Effect.SendEmail input,
        Effect.Log origin from_ allowedRecipients err])
  else (err, log)

end ses

namespace pinpoint

/-- Type `pinpointemailtypes.Destination`; a field left out of a composite
literal is nil. -/
structure Destination where
  ToAddresses : List String
  CcAddresses : List String := []
  BccAddresses : List String := []
  deriving DecidableEq, Repr

/-- Type `pinpointemailtypes.RawMessage`. -/
structure RawMessage where
  Data : List UInt8
  deriving DecidableEq, Repr

/-- Part of `pinpointemailtypes.EmailContent` used by `Send`. -/
structure EmailContent where
  Raw : Option RawMessage
  deriving DecidableEq, Repr

/-- Type `pinpointemailtypes.MessageTag`. -/
structure MessageTag where
  Name : Option String
  Value : Option String
  deriving DecidableEq, Repr

/-- Fields of `pinpointemail.SendEmailInput`. -/
structure SendEmailInput where
  Content : Option EmailContent
  Destination : Option Destination
  ConfigurationSetName : Option String
  EmailTags : List MessageTag
  FeedbackForwardingEmailAddress : Option String
  FromEmailAddress : Option String
  ReplyToAddresses : List String
  deriving DecidableEq, Repr

/-- Interface `PinpointEmailClient`: `Send` discards the output value of
`SendEmail` and keeps its error. -/
structure PinpointEmailClient where
  SendEmail : SendEmailInput → Option GoError

/-- Go `pinpoint.Client`. -/
structure Client where
  PinpointClient : PinpointEmailClient
  setName : Option String
  allowFromRegExp : Option Regexp
  denyToRegExp : Option Regexp
  allowToRegExp : Option Regexp
  allowedDomains : List String
  maxMessageSize : Nat

/-- The composite literal passed to `SendEmail` by `Send`; `new(string)` is
a pointer to the empty string. -/
def buildInput (c : Client) (from_ : String) (to_ allowedRecipients : List String)
    (data : List UInt8) : SendEmailInput :=
  { Content := some { Raw := some { Data := data } }
    Destination := some { ToAddresses := allowedRecipients }
    ConfigurationSetName := c.setName
    EmailTags := []
    FeedbackForwardingEmailAddress := some ""
    FromEmailAddress := some from_
    ReplyToAddresses := to_ }

/-- Go `pinpoint.Client.Send`, with `relay.ConsumeToBytes` as for the SES
client. -/
def Send {Reader : Type} (ConsumeToBytes : Reader → Nat → Except GoError (List UInt8))
    (c : Client) (origin : String) (from_ : String) (to_ : List String) (dr : Reader) :
    Option GoError × List (Effect SendEmailInput) :=
  let r := filter.FilterAddresses from_ to_ c.allowFromRegExp c.denyToRegExp
    c.allowToRegExp c.allowedDomains
  let allowedRecipients := r.1
  let deniedRecipients := r.2.1
  let err := r.2.2
  let log : List (Effect SendEmailInput) :=
    if err ≠ none then [Effect.Log origin from_ deniedRecipients err] else []
  if allowedRecipients.length > 0 then
    match ConsumeToBytes dr c.maxMessageSize with
    | Except.error sendErr => (some sendErr, log ++ [Effect.ConsumeToBytes c.maxMessageSize])
    | Except.ok data =>
      let input := buildInput c from_ to_ allowedRecipients data
      let sendErr := c.PinpointClient.SendEmail input
      let err := if sendErr ≠ none then sendErr else err
      (err, log ++ [Effect.ConsumeToBytes c.maxMessageSize, Effect.SendEmail input,
        Effect.Log origin from_ allowedRecipients err])
  else (err, log)

end pinpoint

/-! Section: Configuration and client construction -/

namespace config

/-- Go `config.Config`. `int64` and `uint32` fields are integers and
naturals (the code only compares them with 0 and copies them), a
`map[string]bool` is `none` when it is nil and otherwise a list of
key/value pairs with distinct keys, a `[]byte` is a list of bytes. -/
structure Config where
  Addr : String
  Name : String
  Host : String
  ReadTimeout : Int
  WriteTimeout : Int
  MaxMessageBytes : Nat
  CertFile : String
  KeyFile : String
  StartTLSStr : String
  OnlyTLSStr : String
  RelayAPI : String
  SetName : String
  Ips : String
  User : String
  Debug : String
  IpMap : Option (List (String × Bool))
  BcryptHash : List UInt8
  Password : List UInt8
  AllowFrom : String
  AllowFromRegExp : Option Regexp
  DenyTo : String
  DenyToRegExp : Option Regexp
  AllowTo : String
  AllowToRegExp : Option Regexp
  AllowToDomains : String
  AllowToDomainsSlice : List String
  SourceArn : String
  FromArn : String
  ReturnPathArn : String

/-- Go `merge`: the nineteen `if` statements in source order, each acting
on the local copy `dominator`. -/
def merge (dominator defaults : Config) : Config :=
  let dominator := if dominator.Addr = "" then
    { dominator with Addr := defaults.Addr } else dominator
  let dominator := if dominator.Name = "" then
    { dominator with Name := defaults.Name } else dominator
  let dominator := if dominator.Host = "" then
    { dominator with Host := defaults.Host } else dominator
  let dominator := if dominator.CertFile = "" then
    { dominator with CertFile := defaults.CertFile } else dominator
  let dominator := if dominator.KeyFile = "" then
    { dominator with KeyFile := defaults.KeyFile } else dominator
  let dominator := if dominator.RelayAPI = "" then
    { dominator with RelayAPI := defaults.RelayAPI } else dominator
  let dominator := if dominator.SetName = "" then
    { dominator with SetName := defaults.SetName } else dominator
  let dominator := if dominator.Ips = "" then
    { dominator with Ips := defaults.Ips } else dominator
  let dominator := if dominator.User = "" then
    { dominator with User := defaults.User } else dominator
  let dominator := if dominator.AllowFrom = "" then
    { dominator with AllowFrom := defaults.AllowFrom } else dominator
  let dominator := if dominator.DenyTo = "" then
    { dominator with DenyTo := defaults.DenyTo } else dominator
  let dominator := if dominator.AllowTo = "" then
    { dominator with AllowTo := defaults.AllowTo } else dominator
  let dominator := if dominator.AllowToDomains = "" then
    { dominator with AllowToDomains := defaults.AllowToDomains } else dominator
  let dominator := if dominator.ReadTimeout = 0 then
    { dominator with ReadTimeout := defaults.ReadTimeout } else dominator
  let dominator := if dominator.WriteTimeout = 0 then
    { dominator with WriteTimeout := defaults.WriteTimeout } else dominator
  let dominator := if dominator.MaxMessageBytes = 0 then
    { dominator with MaxMessageBytes := defaults.MaxMessageBytes } else dominator
  let dominator := if dominator.Debug = "" then
    { dominator with Debug := defaults.Debug } else dominator
  let dominator := if dominator.Password.length = 0 then
    { dominator with Password := defaults.Password } else dominator
  let dominator := if dominator.BcryptHash.length = 0 then
    { dominator with BcryptHash := defaults.BcryptHash } else dominator
  dominator

end config

namespace strings

/-- Go `unicode.IsSpace`: the Latin-1 cases of the function followed by
the ranges of the `White_Space` table. -/
def isSpace (c : Char) : Bool :=
  c.toNat = 0x09 || c.toNat = 0x0A || c.toNat = 0x0B || c.toNat = 0x0C || c.toNat = 0x0D ||
  c.toNat = 0x20 || c.toNat = 0x85 || c.toNat = 0xA0 || c.toNat = 0x1680 ||
  (0x2000 ≤ c.toNat && c.toNat ≤ 0x200A) || c.toNat = 0x2028 || c.toNat = 0x2029 ||
  c.toNat = 0x202F || c.toNat = 0x205F || c.toNat = 0x3000

/-- Go `strings.TrimSpace`: the string without its leading and trailing
white space. -/
def TrimSpace (s : String) : String :=
  String.mk ((s.data.dropWhile isSpace).reverse.dropWhile isSpace).reverse

/-- The pieces of a character list between the occurrences of `sep`; there
is one piece more than there are separators. -/
def splitChars (sep : Char) : List Char → List (List Char)
  | [] => [[]]
  | c :: cs =>
    if c = sep then [] :: splitChars sep cs
    else match splitChars sep cs with
      | [] => [[c]]
      | piece :: pieces => (c :: piece) :: pieces

/-- Go `strings.Split(s, sep)` for a separator of one character. -/
def Split (s : String) (sep : Char) : List String :=
  (splitChars sep s.data).map String.mk

end strings

namespace config

/-- The conversion `[]byte(s)` of a string to its bytes. -/
def bytes (s : String) : List UInt8 :=
  s.data.flatMap String.utf8EncodeChar

/-- The statement `m[k] = v` on a map held as a list of pairs. -/
def mapSet (m : List (String × Bool)) (k : String) (v : Bool) : List (String × Bool) :=
  match m with
  | [] => [(k, v)]
  | (k', v') :: rest => if k' = k then (k, v) :: rest else (k', v') :: mapSet rest k v

/-- The block of `Configure` that compiles one pattern field: when the
pattern is not empty the matcher field is assigned the compiled pattern,
and a compilation error ends `Configure` with the tagged message; when it
is empty the matcher field keeps its value. -/
def compilePattern (Compile : String → Except String Regexp) (tag : String)
    (pattern : String) (matcher : Option Regexp) : Except GoError (Option Regexp) :=
  if pattern ≠ "" then
    match Compile pattern with
    | Except.ok re => Except.ok (some re)
    | Except.error msg => Except.error (GoError.external (tag ++ msg))
  else Except.ok matcher

/-- The loop of `Configure` that fills `AllowToDomainsSlice`, starting from
`[]string{}`: each piece between commas is trimmed and appended when it is
not empty. The loop occurs twice, for the configured string and for the
environment value. -/
def domainsLoop (allowToDomains : String) : List String :=
  (strings.Split allowToDomains ',').foldl
    (fun slice domain =>
      let domain := strings.TrimSpace domain
      if domain ≠ "" then slice ++ [domain] else slice)
    []

/-- Lines 173 to 188 of `Configure`: the domain list and the IP map.
`make(map[string]bool)` is the empty map `some []`, and the loop writes
into the map that was just made. -/
def deriveLists (cli : Config) : Config :=
  let cli := if cli.AllowToDomains ≠ "" then
    { cli with AllowToDomainsSlice := domainsLoop cli.AllowToDomains } else cli
  let cli := { cli with IpMap := some [] }
  if cli.Ips ≠ "" then
    let ipMap := (strings.Split cli.Ips ',').foldl (fun m ip => mapSet m ip true)
      (cli.IpMap.getD [])
    { cli with IpMap := some ipMap }
  else cli

/-- Lines 190 to 198 of `Configure`: credentials from the environment. -/
def envCredentials (LookupEnv : String → Option String) (cli : Config) : Config :=
  let cli := match LookupEnv "BCRYPT_HASH" with
    | some bh => { cli with BcryptHash := bytes bh }
    | none => cli
  match LookupEnv "PASSWORD" with
  | some pw => { cli with Password := bytes pw }
  | none => cli

/-- Lines 201 to 207 of `Configure`: the `ALLOW_TO` environment variable. -/
def envAllowTo (Compile : String → Except String Regexp)
    (LookupEnv : String → Option String) (cli : Config) : Except GoError Config :=
  match LookupEnv "ALLOW_TO" with
  | some allowTo =>
    if allowTo ≠ "" then
      match Compile allowTo with
      | Except.ok re => Except.ok { cli with AllowTo := allowTo, AllowToRegExp := some re }
      | Except.error msg =>
        Except.error (GoError.external ("ALLOW_TO environment variable: " ++ msg))
    else Except.ok cli
  | none => Except.ok cli

/-- Lines 208 to 217 of `Configure`: the `ALLOW_TO_DOMAINS` environment
variable. -/
def envAllowToDomains (LookupEnv : String → Option String) (cli : Config) : Config :=
  match LookupEnv "ALLOW_TO_DOMAINS" with
  | some allowToDomains =>
    if allowToDomains ≠ "" then
      { cli with AllowToDomains := allowToDomains,
                 AllowToDomainsSlice := domainsLoop allowToDomains }
    else cli
  | none => cli

/-- Go `Configure`. The package variable `FlagCliArgs`, the library
function `regexp.Compile` and `os.LookupEnv` are parameters; `clis` is the
variadic argument. The result is `(nil, err)` or `(&cli, nil)`. -/
def Configure (FlagCliArgs : Config) (Compile : String → Except String Regexp)
    (LookupEnv : String → Option String) (clis : List Config) : Except GoError Config :=
  let incli := match clis with
    | [] => FlagCliArgs
    | c :: _ => c
  let cli := merge incli FlagCliArgs
  match compilePattern Compile "Allowed sender emails: " cli.AllowFrom cli.AllowFromRegExp with
  | Except.error err => Except.error err
  | Except.ok re =>
    let cli := { cli with AllowFromRegExp := re }
    match compilePattern Compile "Denied recipient emails: " cli.DenyTo cli.DenyToRegExp with
    | Except.error err => Except.error err
    | Except.ok re =>
      let cli := { cli with DenyToRegExp := re }
      match compilePattern Compile "Allowed recipient emails: " cli.AllowTo
          cli.AllowToRegExp with
      | Except.error err => Except.error err
      | Except.ok re =>
        let cli := { cli with AllowToRegExp := re }
        let cli := deriveLists cli
        let cli := envCredentials LookupEnv cli
        match envAllowTo Compile LookupEnv cli with
        | Except.error err => Except.error err
        | Except.ok cli => Except.ok (envAllowToDomains LookupEnv cli)

end config

namespace ses

/-- Go `ses.New`, with the SDK handle `sesv2.NewFromConfig(cfg)` as a
parameter (the function panics when the SDK configuration cannot be
loaded, which has no counterpart here). -/
def New (api : SESEmailClient) (configurationSetName : Option String)
    (allowFromRegExp denyToRegExp allowToRegExp : Option Regexp)
    (allowedDomains : List String) (maxMessageSize : Nat) (arns : Option relay.ARNs) :
    Client :=
  { SesClient := api
    setName := configurationSetName
    allowFromRegExp := allowFromRegExp
    denyToRegExp := denyToRegExp
    allowToRegExp := allowToRegExp
    allowedDomains := allowedDomains
    maxMessageSize := maxMessageSize
    arns := arns }

end ses

namespace pinpoint

/-- Go `pinpoint.New`, with the SDK handle `pinpointemail.NewFromConfig(cfg)`
as a parameter. -/
def New (api : PinpointEmailClient) (configurationSetName : Option String)
    (allowFromRegExp denyToRegExp allowToRegExp : Option Regexp)
    (allowedDomains : List String) (maxMessageSize : Nat) : Client :=
  { PinpointClient := api
    setName := configurationSetName
    allowFromRegExp := allowFromRegExp
    denyToRegExp := denyToRegExp
    allowToRegExp := allowToRegExp
    allowedDomains := allowedDomains
    maxMessageSize := maxMessageSize }

end pinpoint

namespace relay

/-- The interface `relay.Client` with its two implementations. -/
inductive Client where
  | pinpoint (c : pinpoint.Client)
  | ses (c : ses.Client)

end relay

namespace factory

/-- Go `toStringPtr`. -/
def toStringPtr (s : String) : Option String :=
  if s = "" then none else some s

/-- The `case "ses"` block of `NewClient` that builds `arns`. -/
def resolveARNs (cfg : config.Config) : Option relay.ARNs :=
  if cfg.SourceArn ≠ "" ∨ cfg.FromArn ≠ "" ∨ cfg.ReturnPathArn ≠ "" then
    let arns : relay.ARNs :=
      { SourceArn := toStringPtr cfg.SourceArn
        FromArn := toStringPtr cfg.FromArn
        ReturnPathArn := toStringPtr cfg.ReturnPathArn }
    if cfg.SourceArn ≠ "" then
      let arns := if arns.FromArn = none then
        { arns with FromArn := arns.SourceArn } else arns
      let arns := if arns.ReturnPathArn = none then
        { arns with ReturnPathArn := arns.SourceArn } else arns
      some arns
    else some arns
  else none

/-- Go `NewClient`, with the two SDK handles as parameters. `&cfg.SetName`
is a pointer that is never nil. -/
def NewClient (sesApi : ses.SESEmailClient) (pinpointApi : pinpoint.PinpointEmailClient)
    (cfg : config.Config) : Except GoError relay.Client :=
  if cfg.RelayAPI = "pinpoint" then
    Except.ok (relay.Client.pinpoint (pinpoint.New pinpointApi (some cfg.SetName)
      cfg.AllowFromRegExp cfg.DenyToRegExp cfg.AllowToRegExp cfg.AllowToDomainsSlice
      cfg.MaxMessageBytes))
  else if cfg.RelayAPI = "ses" then
    Except.ok (relay.Client.ses (ses.New sesApi (some cfg.SetName)
      cfg.AllowFromRegExp cfg.DenyToRegExp cfg.AllowToRegExp cfg.AllowToDomainsSlice
      cfg.MaxMessageBytes (resolveARNs cfg)))
  else Except.error (GoError.external ("Invalid relay API: " ++ cfg.RelayAPI))

end factory

/-! Section: Auxiliary notions for the statements -/

namespace filter

/-- Whether a pattern that may be nil matches `s` (nil matches nothing). -/
def matchesOpt (re : Option Regexp) (s : String) : Bool :=
  match re with
  | some re => re.MatchString s
  | none => false

/-- The decision of one loop iteration as a boolean: the recipient goes to
`allowedRecipients` exactly when this is true. -/
def keeps (err : Option GoError) (denyToRegExp allowToRegExp : Option Regexp)
    (allowedDomains : List String) (recipient : String) : Bool :=
  decide (err = none) && !matchesOpt denyToRegExp recipient
    && (allowToRegExp.isNone || matchesOpt allowToRegExp recipient)
    && isAllowedDomain recipient allowedDomains

end filter

/-- The matcher of an anchored literal pattern such as
`^allowed@sender\.com$`: it matches exactly the string `lit`. -/
def exactly (lit : String) : Regexp :=
  ⟨fun s => decide (s = lit)⟩

/-- The matcher of a left-anchored literal pattern such as `^admin@`: it
matches the strings that start with `lit`. -/
def startingWith (lit : String) : Regexp :=
  ⟨fun s => lit.data.isPrefixOf s.data⟩

namespace relay

/-- Modelled from the spec: `relay.ConsumeToBytes`, whose source file is not
among the sources. It reads the full body stream into memory, enforcing
the maximum message byte size; exceeding it is an error. The stream is
given by the bytes it yields. `Send` itself is stated for an arbitrary
reader function; this one serves in the examples. -/
def ConsumeToBytes (dr : List UInt8) (maxSize : Nat) : Except GoError (List UInt8) :=
  if dr.length > maxSize then Except.error (GoError.external "message too large")
  else Except.ok dr

end relay

/-- The `FilterAddresses` call at the top of `ses.Client.Send`. -/
def ses.Client.filtered (c : ses.Client) (from_ : String) (to_ : List String) :
    List String × List String × Option GoError :=
  filter.FilterAddresses from_ to_ c.allowFromRegExp c.denyToRegExp c.allowToRegExp
    c.allowedDomains

/-- The `FilterAddresses` call at the top of `pinpoint.Client.Send`. -/
def pinpoint.Client.filtered (c : pinpoint.Client) (from_ : String) (to_ : List String) :
    List String × List String × Option GoError :=
  filter.FilterAddresses from_ to_ c.allowFromRegExp c.denyToRegExp c.allowToRegExp
    c.allowedDomains

/-- An SES client for the examples: the backend stub answers every request
with `result`. -/
def ses.stubClient (result : Option GoError) (denyToRegExp allowToRegExp : Option Regexp)
    (allowedDomains : List String) (maxMessageSize : Nat) : ses.Client :=
  { SesClient := ⟨fun _ => result⟩
    setName := some "set"
    allowFromRegExp := none
    denyToRegExp := denyToRegExp
    allowToRegExp := allowToRegExp
    allowedDomains := allowedDomains
    maxMessageSize := maxMessageSize
    arns := none }

/-- A Pinpoint client for the examples: the backend stub answers every
request with `result`. -/
def pinpoint.stubClient (result : Option GoError) (denyToRegExp allowToRegExp : Option Regexp)
    (allowedDomains : List String) (maxMessageSize : Nat) : pinpoint.Client :=
  { PinpointClient := ⟨fun _ => result⟩
    setName := some "set"
    allowFromRegExp := none
    denyToRegExp := denyToRegExp
    allowToRegExp := allowToRegExp
    allowedDomains := allowedDomains
    maxMessageSize := maxMessageSize }

/-- An SES client for the examples that holds an identifier triple. -/
def ses.stubClientWithArns (arns : relay.ARNs) : ses.Client :=
  { ses.stubClient none none none [] 10 with arns := some arns }

namespace config

/-- The zero value `Config{}`. -/
def emptyConfig : Config :=
  { Addr := "", Name := "", Host := "", ReadTimeout := 0, WriteTimeout := 0,
    MaxMessageBytes := 0, CertFile := "", KeyFile := "", StartTLSStr := "",
    OnlyTLSStr := "", RelayAPI := "", SetName := "", Ips := "", User := "", Debug := "",
    IpMap := none, BcryptHash := [], Password := [], AllowFrom := "", AllowFromRegExp := none,
    DenyTo := "", DenyToRegExp := none, AllowTo := "", AllowToRegExp := none,
    AllowToDomains := "", AllowToDomainsSlice := [], SourceArn := "", FromArn := "",
    ReturnPathArn := "" }

/-- The value of `FlagCliArgs` when no flag is given on the command line:
the defaults that `initCliArgs` registers. The time-outs are
`int64(1*time.Minute)`, a number of nanoseconds. -/
def initCliArgs : Config :=
  { emptyConfig with
    Addr := ":1025", Name := "AWS SMTP Relay", StartTLSStr := "false",
    OnlyTLSStr := "false", RelayAPI := "ses", ReadTimeout := 60000000000,
    WriteTimeout := 60000000000, MaxMessageBytes := 10 * 1024 * 1024 }

end config

namespace config

/-- The configuration `cli` that `Configure` works on: the first variadic
argument, or `FlagCliArgs` when there is none, merged over `FlagCliArgs`. -/
def merged (FlagCliArgs : Config) (clis : List Config) : Config :=
  merge (match clis with
    | [] => FlagCliArgs
    | c :: _ => c) FlagCliArgs

/-- The part of `Configure` that follows the merge, as a function of the
merged configuration `cli`. -/
def afterMerge (Compile : String → Except String Regexp)
    (LookupEnv : String → Option String) (cli : Config) : Except GoError Config :=
  match compilePattern Compile "Allowed sender emails: " cli.AllowFrom cli.AllowFromRegExp with
  | Except.error err => Except.error err
  | Except.ok r1 =>
    match compilePattern Compile "Denied recipient emails: " cli.DenyTo cli.DenyToRegExp with
    | Except.error err => Except.error err
    | Except.ok r2 =>
      match compilePattern Compile "Allowed recipient emails: " cli.AllowTo
          cli.AllowToRegExp with
      | Except.error err => Except.error err
      | Except.ok r3 =>
        match envAllowTo Compile LookupEnv (envCredentials LookupEnv (deriveLists
            { cli with AllowFromRegExp := r1, DenyToRegExp := r2, AllowToRegExp := r3 })) with
        | Except.error err => Except.error err
        | Except.ok cli => Except.ok (envAllowToDomains LookupEnv cli)

/-- The pattern is not empty and `regexp.Compile` rejects it. -/
def fails (Compile : String → Except String Regexp) (pattern : String) : Prop :=
  pattern ≠ "" ∧ ∃ msg, Compile pattern = Except.error msg

/-- The domain list in the words of the specification: split the string on
commas, trim the white space around each piece, drop the pieces that are
empty after trimming. -/
def domainList (allowToDomains : String) : List String :=
  ((strings.Split allowToDomains ',').map strings.TrimSpace).filter (fun d => d ≠ "")

/-- The matcher of a pattern without metacharacters: it matches the strings
that contain `lit`. -/
def containing (lit : String) : Regexp :=
  ⟨fun s => s.data.tails.any (fun t => lit.data.isPrefixOf t)⟩

/-- A stand-in for `regexp.Compile` in the examples: like the library it
rejects the unbalanced pattern `(`; every other pattern is taken as a
literal, which is what the library does for patterns without
metacharacters. -/
def sampleCompile (pattern : String) : Except String Regexp :=
  if pattern = "(" then Except.error "error parsing regexp: missing closing )"
  else Except.ok (containing pattern)

/-- An environment for the examples with a recipient pattern, a domain
list and a password hash. -/
def sampleEnv : String → Option String :=
  fun key =>
    if key = "ALLOW_TO" then some "example"
    else if key = "ALLOW_TO_DOMAINS" then some "example.org,example.com"
    else if key = "BCRYPT_HASH" then some "$2y$10$85/eICRuwBwutrou64G5He"
    else none

/-- An environment for the examples in which only `name` is set. -/
def envWith (name value : String) : String → Option String :=
  fun key => if key = name then some value else none

end config

/-- The keys of a map held as a list of pairs. -/
def config.mapKeys (m : List (String × Bool)) : List String :=
  m.map Prod.fst

/-- The arguments of the `internal.Log` calls in a sequence of effects, in
order. -/
def logCalls {Input : Type} :
    List (Effect Input) → List (String × String × List String × Option GoError)
  | [] => []
  | Effect.Log origin from_ recipients err :: rest =>
    (origin, from_, recipients, err) :: logCalls rest
  | _ :: rest => logCalls rest

/-- The requests passed to the backend `SendEmail` in a sequence of
effects, in order. -/
def sentRequests {Input : Type} : List (Effect Input) → List Input
  | [] => []
  | Effect.SendEmail input :: rest => input :: sentRequests rest
  | _ :: rest => sentRequests rest

/-- Destination list, sender and raw bytes of an SES request. -/
def ses.requestCore (input : ses.SendEmailInput) :
    Option (List String) × Option String × Option (List UInt8) :=
  (input.Destination.map (fun d => d.ToAddresses), input.FromEmailAddress,
    (input.Content.bind (fun c => c.Raw)).map (fun r => r.Data))

/-- Destination list, sender and raw bytes of a Pinpoint request. -/
def pinpoint.requestCore (input : pinpoint.SendEmailInput) :
    Option (List String) × Option String × Option (List UInt8) :=
  (input.Destination.map (fun d => d.ToAddresses), input.FromEmailAddress,
    (input.Content.bind (fun c => c.Raw)).map (fun r => r.Data))

/-- All the addresses in the recipient fields of an SES request: the three
destination lists and the reply-to list. -/
def ses.recipientFields (input : ses.SendEmailInput) : List String :=
  (match input.Destination with
    | some d => d.ToAddresses ++ d.CcAddresses ++ d.BccAddresses
    | none => []) ++ input.ReplyToAddresses

/-- Number of backend `SendEmail` calls in a sequence of effects. -/
def sendEmailCalls {Input : Type} (t : List (Effect Input)) : Nat :=
  t.countP (fun e => match e with
    | Effect.SendEmail _ => true
    | _ => false)

/-- Number of reads of the body stream in a sequence of effects. -/
def bodyReads {Input : Type} (t : List (Effect Input)) : Nat :=
  t.countP (fun e => match e with
    | Effect.ConsumeToBytes _ => true
    | _ => false)

/-- The `internal.Log` call `Send` makes right after filtering: present
exactly when the filter returned an error. -/
def filterLog {Input : Type} (origin from_ : String) (deniedRecipients : List String)
    (err : Option GoError) : List (Effect Input) :=
  if err ≠ none then [Effect.Log origin from_ deniedRecipients err] else []

/-! Section: The address filter -/

namespace filter

theorem findAt_no_at (s : List Char) (h : '@' ∉ s) : findAt s = none := by
  induction s with
  | nil => rfl
  | cons c cs ih =>
    have hc : c ≠ '@' := fun e => h (e ▸ List.mem_cons_self _ _)
    have hcs : '@' ∉ cs := fun m => h (List.mem_cons_of_mem _ m)
    simp [findAt, hc, ih hcs]

theorem findAt_first (a b : List Char) (h : '@' ∉ a) :
    findAt (a ++ '@' :: b) = some (a, b) := by
  induction a with
  | nil => simp [findAt]
  | cons c cs ih =>
    have hc : c ≠ '@' := fun e => h (e ▸ List.mem_cons_self _ _)
    have hcs : '@' ∉ cs := fun m => h (List.mem_cons_of_mem _ m)
    simp [findAt, hc, ih hcs]

theorem exists_first_at (s : List Char) (h : '@' ∈ s) :
    ∃ a b : List Char, s = a ++ '@' :: b ∧ '@' ∉ a := by
  induction s with
  | nil => simp at h
  | cons c cs ih =>
    by_cases hc : c = '@'
    · exact ⟨[], cs, by simp [hc], by simp⟩
    · have hcs : '@' ∈ cs := by
        rcases List.mem_cons.1 h with h1 | h1
        · exact absurd h1.symm hc
        · exact h1
      obtain ⟨a, b, hab, ha⟩ := ih hcs
      refine ⟨c :: a, b, by simp [hab], ?_⟩
      intro hm
      rcases List.mem_cons.1 hm with h1 | h1
      · exact hc h1.symm
      · exact ha h1

theorem extractDomain_no_at (email : String) (h : '@' ∉ email.data) :
    extractDomain email = "" := by
  simp [extractDomain, splitAtSign, findAt_no_at _ h]

theorem extractDomain_split (a b : String) (h : '@' ∉ a.data) :
    extractDomain (a ++ "@" ++ b) = b := by
  have hd : (a ++ "@" ++ b).data = a.data ++ '@' :: b.data := by
    simp [String.data_append]
  simp [extractDomain, splitAtSign, hd, findAt_first _ _ h]

theorem domainLoop_eq_true_iff (domain : String) (l : List String) :
    domainLoop domain l = true ↔ domain ∈ l := by
  induction l with
  | nil => simp [domainLoop]
  | cons x xs ih =>
    by_cases hx : domain = x
    · simp [domainLoop, hx]
    · simp [domainLoop, hx, ih]

theorem isAllowedDomain_eq_true_iff (email : String) (l : List String) :
    isAllowedDomain email l = true ↔ (l = [] ∨ extractDomain email ∈ l) := by
  cases l with
  | nil => simp [isAllowedDomain]
  | cons x xs => simp [isAllowedDomain, domainLoop_eq_true_iff]

theorem filterStep_eq (err : Option GoError) (d a : Option Regexp) (doms : List String)
    (acc : List String × List String) (r : String) :
    filterStep err d a doms acc r =
      if keeps err d a doms r then (acc.1 ++ [r], acc.2) else (acc.1, acc.2 ++ [r]) := by
  unfold filterStep keeps matchesOpt
  by_cases he : err = none
  · cases d <;> cases a <;> simp [he] <;> split_ifs <;> simp_all
  · simp [he]

theorem foldl_filterStep (err : Option GoError) (d a : Option Regexp) (doms : List String)
    (l : List String) (acc : List String × List String) :
    l.foldl (filterStep err d a doms) acc =
      (acc.1 ++ l.filter (keeps err d a doms),
       acc.2 ++ l.filter (fun r => !keeps err d a doms r)) := by
  induction l generalizing acc with
  | nil => simp
  | cons r rs ih =>
    rw [List.foldl_cons, ih, filterStep_eq]
    by_cases hk : keeps err d a doms r = true
    · simp [hk, List.filter_cons]
    · simp [hk, List.filter_cons]

/-- The two lists returned by `FilterAddresses` as filters of the input. -/
theorem FilterAddresses_lists (from_ : String) (to_ : List String)
    (af d a : Option Regexp) (doms : List String) :
    (FilterAddresses from_ to_ af d a doms).1 =
        to_.filter (keeps (senderCheck from_ af) d a doms) ∧
    (FilterAddresses from_ to_ af d a doms).2.1 =
        to_.filter (fun r => !keeps (senderCheck from_ af) d a doms r) := by
  simp [FilterAddresses, foldl_filterStep]

end filter

namespace filter

theorem senderCheck_eq_none_iff (from_ : String) (af : Option Regexp) :
    senderCheck from_ af = none ↔ ∀ re, af = some re → re.MatchString from_ = true := by
  cases af with
  | none => simp [senderCheck]
  | some re => cases h : re.MatchString from_ <;> simp [senderCheck, h]

theorem keeps_iff (err : Option GoError) (d a : Option Regexp) (doms : List String)
    (r : String) :
    keeps err d a doms r = true ↔
      (err = none ∧ (∀ re, d = some re → re.MatchString r = false) ∧
        (∀ re, a = some re → re.MatchString r = true) ∧
        (doms = [] ∨ extractDomain r ∈ doms)) := by
  cases d <;> cases a <;>
    simp [keeps, matchesOpt, isAllowedDomain_eq_true_iff, and_assoc]

/-- Claim C1: for every sender, recipient list and combination of the four
predicates, the lists `allowed` and `denied` returned by `FilterAddresses`
partition `to`: each is an order-preserving subsequence of `to`, their
lengths add up to the length of `to`, `allowed ++ denied` is a permutation
of `to`, and no address occurs in both lists. -/
theorem FilterAddresses_partition (from_ : String) (to_ : List String)
    (allowFromRegExp denyToRegExp allowToRegExp : Option Regexp)
    (allowedDomains : List String) :
    List.Sublist (FilterAddresses from_ to_ allowFromRegExp denyToRegExp allowToRegExp
        allowedDomains).1 to_ ∧
    List.Sublist (FilterAddresses from_ to_ allowFromRegExp denyToRegExp allowToRegExp
        allowedDomains).2.1 to_ ∧
    (FilterAddresses from_ to_ allowFromRegExp denyToRegExp allowToRegExp
        allowedDomains).1.length +
      (FilterAddresses from_ to_ allowFromRegExp denyToRegExp allowToRegExp
        allowedDomains).2.1.length = to_.length ∧
    List.Perm
      ((FilterAddresses from_ to_ allowFromRegExp denyToRegExp allowToRegExp
        allowedDomains).1 ++
       (FilterAddresses from_ to_ allowFromRegExp denyToRegExp allowToRegExp
        allowedDomains).2.1) to_ ∧
    ∀ r : String,
      ¬ (r ∈ (FilterAddresses from_ to_ allowFromRegExp denyToRegExp allowToRegExp
            allowedDomains).1 ∧
         r ∈ (FilterAddresses from_ to_ allowFromRegExp denyToRegExp allowToRegExp
            allowedDomains).2.1) := by
  obtain ⟨h1, h2⟩ := FilterAddresses_lists from_ to_ allowFromRegExp denyToRegExp
    allowToRegExp allowedDomains
  rw [h1, h2]
  refine ⟨List.filter_sublist _, List.filter_sublist _, ?_, ?_, ?_⟩
  · have := (List.filter_append_perm
      (keeps (senderCheck from_ allowFromRegExp) denyToRegExp allowToRegExp allowedDomains)
      to_).length_eq
    simpa [List.length_append] using this
  · exact List.filter_append_perm _ _
  · intro r ⟨ha, hd⟩
    simp only [List.mem_filter] at ha hd
    simp [ha.2] at hd

end filter

namespace filter

/-- Claim C2: when the sender is allowed (the sender pattern is nil or
matches the sender), a recipient `r` of the input is in `allowed` if and
only if the deny pattern is nil or does not match `r`, the allow pattern is
nil or matches `r`, and the domain list is empty or contains the text after
the first `@` of `r`; otherwise `r` is in `denied`. In particular a
recipient matching the deny pattern is denied whatever the allow pattern
and the domain list say. -/
theorem FilterAddresses_sender_allowed (from_ : String) (to_ : List String)
    (allowFromRegExp denyToRegExp allowToRegExp : Option Regexp)
    (allowedDomains : List String)
    (hs : ∀ re, allowFromRegExp = some re → re.MatchString from_ = true) :
    (∀ r : String,
      r ∈ (FilterAddresses from_ to_ allowFromRegExp denyToRegExp allowToRegExp
            allowedDomains).1 ↔
        r ∈ to_ ∧ ((∀ re, denyToRegExp = some re → re.MatchString r = false) ∧
          (∀ re, allowToRegExp = some re → re.MatchString r = true) ∧
          (allowedDomains = [] ∨ extractDomain r ∈ allowedDomains))) ∧
    (∀ r : String,
      r ∈ (FilterAddresses from_ to_ allowFromRegExp denyToRegExp allowToRegExp
            allowedDomains).2.1 ↔
        r ∈ to_ ∧ ¬ ((∀ re, denyToRegExp = some re → re.MatchString r = false) ∧
          (∀ re, allowToRegExp = some re → re.MatchString r = true) ∧
          (allowedDomains = [] ∨ extractDomain r ∈ allowedDomains))) ∧
    (∀ (r : String) (re : Regexp), r ∈ to_ → denyToRegExp = some re →
      re.MatchString r = true →
        r ∈ (FilterAddresses from_ to_ allowFromRegExp denyToRegExp allowToRegExp
              allowedDomains).2.1 ∧
        r ∉ (FilterAddresses from_ to_ allowFromRegExp denyToRegExp allowToRegExp
              allowedDomains).1) := by
  obtain ⟨h1, h2⟩ := FilterAddresses_lists from_ to_ allowFromRegExp denyToRegExp
    allowToRegExp allowedDomains
  have he : senderCheck from_ allowFromRegExp = none :=
    (senderCheck_eq_none_iff _ _).2 hs
  rw [h1, h2, he]
  have hA : ∀ r : String,
      r ∈ to_.filter (keeps none denyToRegExp allowToRegExp allowedDomains) ↔
        r ∈ to_ ∧ ((∀ re, denyToRegExp = some re → re.MatchString r = false) ∧
          (∀ re, allowToRegExp = some re → re.MatchString r = true) ∧
          (allowedDomains = [] ∨ extractDomain r ∈ allowedDomains)) := by
    intro r
    rw [List.mem_filter, keeps_iff]
    simp
  have hD : ∀ r : String,
      r ∈ to_.filter (fun r => !keeps none denyToRegExp allowToRegExp allowedDomains r) ↔
        r ∈ to_ ∧ ¬ ((∀ re, denyToRegExp = some re → re.MatchString r = false) ∧
          (∀ re, allowToRegExp = some re → re.MatchString r = true) ∧
          (allowedDomains = [] ∨ extractDomain r ∈ allowedDomains)) := by
    intro r
    rw [List.mem_filter, Bool.not_eq_true', ← Bool.not_eq_true, keeps_iff]
    simp
  refine ⟨hA, hD, ?_⟩
  intro r re hr hre hm
  have hn : ¬ ((∀ re, denyToRegExp = some re → re.MatchString r = false) ∧
      (∀ re, allowToRegExp = some re → re.MatchString r = true) ∧
      (allowedDomains = [] ∨ extractDomain r ∈ allowedDomains)) := by
    intro h
    have := h.1 re hre
    rw [hm] at this
    exact Bool.noConfusion this
  exact ⟨(hD r).2 ⟨hr, hn⟩, fun h => hn ((hA r).1 h).2⟩

/-- Claim C3: if the sender pattern is set and does not match the sender,
then for every recipient list and every deny pattern, allow pattern and
domain list, `FilterAddresses` returns no allowed recipient, all input
recipients in input order as denied, and `ErrDeniedSender`. -/
theorem FilterAddresses_denied_sender (from_ : String) (to_ : List String)
    (re : Regexp) (denyToRegExp allowToRegExp : Option Regexp)
    (allowedDomains : List String) (h : re.MatchString from_ = false) :
    FilterAddresses from_ to_ (some re) denyToRegExp allowToRegExp allowedDomains =
      ([], to_, some GoError.ErrDeniedSender) := by
  have he : senderCheck from_ (some re) = some GoError.ErrDeniedSender := by
    simp [senderCheck, h]
  simp [FilterAddresses, foldl_filterStep, he, keeps]

end filter

namespace filter

theorem FilterAddresses_sender_allowed_witness :
    (∀ re, some (exactly "sender@example.com") = some re →
        re.MatchString "sender@example.com" = true) ∧
    "admin@example.org" ∈ (FilterAddresses "sender@example.com"
        ["admin@example.org", "admin@denied.org", "user@example.org"]
        (some (exactly "sender@example.com")) (some (exactly "admin@denied.org"))
        (some (startingWith "admin@")) ["example.org"]).1 ∧
    "admin@denied.org" ∈ (FilterAddresses "sender@example.com"
        ["admin@example.org", "admin@denied.org", "user@example.org"]
        (some (exactly "sender@example.com")) (some (exactly "admin@denied.org"))
        (some (startingWith "admin@")) ["example.org"]).2.1 :=
  have hs : ∀ re, some (exactly "sender@example.com") = some re →
      re.MatchString "sender@example.com" = true := by
    intro re h
    cases h
    decide
  have h := FilterAddresses_sender_allowed "sender@example.com"
    ["admin@example.org", "admin@denied.org", "user@example.org"]
    (some (exactly "sender@example.com")) (some (exactly "admin@denied.org"))
    (some (startingWith "admin@")) ["example.org"] hs
  ⟨hs, (h.1 "admin@example.org").2 (by decide),
    (h.2.2 "admin@denied.org" (exactly "admin@denied.org") (by decide) rfl (by decide)).1⟩

theorem FilterAddresses_denied_sender_witness :
    (exactly "allowed@sender.com").MatchString "notallowed@sender.com" = false ∧
    FilterAddresses "notallowed@sender.com" ["admin@example.org", "user@example.org"]
      (some (exactly "allowed@sender.com")) none (some (startingWith "admin@")) [] =
      ([], ["admin@example.org", "user@example.org"], some GoError.ErrDeniedSender) :=
  ⟨by decide, FilterAddresses_denied_sender "notallowed@sender.com"
    ["admin@example.org", "user@example.org"] (exactly "allowed@sender.com") none
    (some (startingWith "admin@")) [] (by decide)⟩

/-- Claim C4: when the sender is allowed and at least one recipient is
denied, the error is `ErrDeniedRecipientsNotAllowed` if the allow pattern
is set or the domain list is non-empty, and `ErrDeniedRecipients`
otherwise; the choice depends on which predicates are configured, not on
the rule that denied the recipient. -/
theorem FilterAddresses_error_kind (from_ : String) (to_ : List String)
    (allowFromRegExp denyToRegExp allowToRegExp : Option Regexp)
    (allowedDomains : List String)
    (hs : ∀ re, allowFromRegExp = some re → re.MatchString from_ = true)
    (hd : (FilterAddresses from_ to_ allowFromRegExp denyToRegExp allowToRegExp
            allowedDomains).2.1 ≠ []) :
    ((allowToRegExp ≠ none ∨ allowedDomains ≠ []) →
      (FilterAddresses from_ to_ allowFromRegExp denyToRegExp allowToRegExp
        allowedDomains).2.2 = some GoError.ErrDeniedRecipientsNotAllowed) ∧
    ((allowToRegExp = none ∧ allowedDomains = []) →
      (FilterAddresses from_ to_ allowFromRegExp denyToRegExp allowToRegExp
        allowedDomains).2.2 = some GoError.ErrDeniedRecipients) := by
  have he : senderCheck from_ allowFromRegExp = none :=
    (senderCheck_eq_none_iff _ _).2 hs
  have hlen : 0 < (to_.foldl (filterStep (senderCheck from_ allowFromRegExp) denyToRegExp
      allowToRegExp allowedDomains) ([], [])).2.length :=
    List.length_pos.2 hd
  constructor
  · intro hc
    have hc2 : allowToRegExp.isSome = true ∨ 0 < allowedDomains.length := by
      rcases hc with h | h
      · exact Or.inl (Option.isSome_iff_ne_none.2 h)
      · exact Or.inr (List.length_pos.2 h)
    simp only [FilterAddresses]
    rw [if_pos ⟨he, hlen⟩, if_pos hc2]
  · rintro ⟨ha, hdom⟩
    have hc2 : ¬ (allowToRegExp.isSome = true ∨ 0 < allowedDomains.length) := by
      simp [ha, hdom]
    simp only [FilterAddresses]
    rw [if_pos ⟨he, hlen⟩, if_neg hc2]

theorem FilterAddresses_error_kind_witness :
    (FilterAddresses "sender@example.com" ["blocked@example.org", "allowed@example.org"]
      none (some (startingWith "blocked@")) none ["example.org"]).2.1
      = ["blocked@example.org"] ∧
    (FilterAddresses "sender@example.com" ["blocked@example.org", "allowed@example.org"]
      none (some (startingWith "blocked@")) none ["example.org"]).2.2
      = some GoError.ErrDeniedRecipientsNotAllowed :=
  ⟨by decide,
    (FilterAddresses_error_kind "sender@example.com"
      ["blocked@example.org", "allowed@example.org"]
      none (some (startingWith "blocked@")) none ["example.org"]
      (by intro re h; cases h) (by decide)).1 (Or.inr (by decide))⟩

/-- Claim C5: with no predicates configured (the three patterns nil and the
domain list empty), for every sender and recipient list `FilterAddresses`
returns `allowed = to` in the same order, `denied = []` and a nil error. -/
theorem FilterAddresses_no_filters (from_ : String) (to_ : List String) :
    FilterAddresses from_ to_ none none none [] = (to_, [], none) := by
  have hk : keeps none none none [] = fun _ => true := by
    funext r
    simp [keeps, matchesOpt, isAllowedDomain]
  simp [FilterAddresses, foldl_filterStep, senderCheck, hk]

end filter

namespace filter

/-- The statement of claim C6 fails for a domain list that holds the empty
string: the recipient `invalid-email` has no `@`, the list `[""]` is not
empty, and `isAllowedDomain` returns true, so `FilterAddresses` allows the
recipient. -/
theorem isAllowedDomain_empty_entry_counterexample :
    '@' ∉ "invalid-email".data ∧ [""] ≠ ([] : List String) ∧
    isAllowedDomain "invalid-email" [""] = true ∧
    FilterAddresses "sender@example.com" ["invalid-email"] none none none [""] =
      (["invalid-email"], [], none) := by
  decide

/-- Claim C6, amended: for every recipient that contains no `@` and every
non-empty domain list that does not contain the empty string,
`isAllowedDomain` returns false and `FilterAddresses` places the recipient
in `denied` and not in `allowed`; for the empty domain list
`isAllowedDomain` returns true for every recipient. -/
theorem isAllowedDomain_no_at (email : String) (allowedDomains : List String)
    (hat : '@' ∉ email.data) (hne : allowedDomains ≠ [])
    (hempty : "" ∉ allowedDomains) :
    isAllowedDomain email allowedDomains = false ∧
    (∀ (from_ : String) (to_ : List String)
        (allowFromRegExp denyToRegExp allowToRegExp : Option Regexp), email ∈ to_ →
      email ∈ (FilterAddresses from_ to_ allowFromRegExp denyToRegExp allowToRegExp
                allowedDomains).2.1 ∧
      email ∉ (FilterAddresses from_ to_ allowFromRegExp denyToRegExp allowToRegExp
                allowedDomains).1) ∧
    (∀ e : String, isAllowedDomain e [] = true) := by
  have hfalse : isAllowedDomain email allowedDomains = false := by
    rw [← Bool.not_eq_true, isAllowedDomain_eq_true_iff, extractDomain_no_at email hat]
    rintro (h | h)
    · exact hne h
    · exact hempty h
  refine ⟨hfalse, ?_, fun e => by simp [isAllowedDomain]⟩
  intro from_ to_ af d a hmem
  obtain ⟨h1, h2⟩ := FilterAddresses_lists from_ to_ af d a allowedDomains
  have hk : keeps (senderCheck from_ af) d a allowedDomains email = false := by
    simp [keeps, hfalse]
  rw [h1, h2]
  constructor
  · exact List.mem_filter.2 ⟨hmem, by simp [hk]⟩
  · intro h
    have := (List.mem_filter.1 h).2
    rw [hk] at this
    exact Bool.noConfusion this

theorem isAllowedDomain_no_at_witness :
    isAllowedDomain "invalid-email" ["example.org"] = false ∧
    "invalid-email" ∈ (FilterAddresses "sender@example.com"
      ["user@example.org", "invalid-email"] none none none ["example.org"]).2.1 :=
  have h := isAllowedDomain_no_at "invalid-email" ["example.org"]
    (by decide) (by decide) (by decide)
  ⟨h.1, (h.2.1 "sender@example.com" ["user@example.org", "invalid-email"] none none none
    (by decide)).1⟩

/-- Claim C7: `extractDomain` splits on the first `@` only: for an email
without `@` the result is the empty string, and for an email of the form
`a ++ "@" ++ b` with no `@` in `a` the result is exactly `b`, whatever `b`
is (later `@` characters stay in the domain, and `b` may be empty). -/
theorem extractDomain_first_at :
    (∀ email : String, '@' ∉ email.data → extractDomain email = "") ∧
    (∀ a b : String, '@' ∉ a.data → extractDomain (a ++ "@" ++ b) = b) ∧
    (∀ email : String, '@' ∈ email.data →
      ∃ a b : String, email = a ++ "@" ++ b ∧ '@' ∉ a.data ∧ extractDomain email = b) := by
  refine ⟨extractDomain_no_at, extractDomain_split, ?_⟩
  intro email h
  obtain ⟨a, b, hab, ha⟩ := exists_first_at email.data h
  have he : email = String.mk a ++ "@" ++ String.mk b := by
    apply String.ext
    simp [String.data_append, hab]
  exact ⟨String.mk a, String.mk b, he, ha, he ▸ extractDomain_split _ _ ha⟩

theorem extractDomain_first_at_witness :
    extractDomain "invalid-email" = "" ∧ extractDomain ("a" ++ "@" ++ "b@c") = "b@c" ∧
    extractDomain ("user" ++ "@" ++ "") = "" :=
  ⟨extractDomain_first_at.1 "invalid-email" (by decide),
    extractDomain_first_at.2.1 "a" "b@c" (by decide),
    extractDomain_first_at.2.1 "user" "" (by decide)⟩

end filter

/-! Section: The relay dispatcher -/

namespace filter

theorem senderCheck_of_allowed_ne_nil (from_ : String) (to_ : List String)
    (af d a : Option Regexp) (doms : List String)
    (h : (FilterAddresses from_ to_ af d a doms).1 ≠ []) :
    senderCheck from_ af = none := by
  by_contra hne
  apply h
  rw [(FilterAddresses_lists from_ to_ af d a doms).1]
  simp [keeps, hne]

theorem FilterAddresses_err_of_allowed_ne_nil (from_ : String) (to_ : List String)
    (af d a : Option Regexp) (doms : List String)
    (h : (FilterAddresses from_ to_ af d a doms).1 ≠ []) :
    ((FilterAddresses from_ to_ af d a doms).2.1 = [] →
      (FilterAddresses from_ to_ af d a doms).2.2 = none) ∧
    ((FilterAddresses from_ to_ af d a doms).2.1 ≠ [] →
      (FilterAddresses from_ to_ af d a doms).2.2 = some GoError.ErrDeniedRecipients ∨
      (FilterAddresses from_ to_ af d a doms).2.2 =
        some GoError.ErrDeniedRecipientsNotAllowed) := by
  have he := senderCheck_of_allowed_ne_nil from_ to_ af d a doms h
  constructor
  · intro hd
    have hd2 : (to_.foldl (filterStep (senderCheck from_ af) d a doms) ([], [])).2 = [] := hd
    simp [FilterAddresses, he, hd2]
    rw [he] at hd2
    simp [hd2]
  · intro hd
    have hlen : 0 < (to_.foldl (filterStep (senderCheck from_ af) d a doms)
        ([], [])).2.length := List.length_pos.2 hd
    simp only [FilterAddresses]
    rw [if_pos ⟨he, hlen⟩]
    split_ifs
    · exact Or.inr rfl
    · exact Or.inl rfl

theorem FilterAddresses_allowed_ne_denied (from_ : String) (to_ : List String)
    (af d a : Option Regexp) (doms : List String)
    (h : (FilterAddresses from_ to_ af d a doms).1 ≠ []) :
    (FilterAddresses from_ to_ af d a doms).1 ≠ (FilterAddresses from_ to_ af d a doms).2.1 := by
  intro heq
  obtain ⟨r, hr⟩ := List.exists_mem_of_ne_nil _ h
  have hr2 := hr
  rw [heq] at hr2
  rw [(FilterAddresses_lists from_ to_ af d a doms).1] at hr
  rw [(FilterAddresses_lists from_ to_ af d a doms).2] at hr2
  have h1 := (List.mem_filter.1 hr).2
  have h2 := (List.mem_filter.1 hr2).2
  simp [h1] at h2

end filter

theorem sendEmailCalls_filterLog {Input : Type} (origin from_ : String) (l : List String)
    (err : Option GoError) :
    sendEmailCalls (filterLog origin from_ l err : List (Effect Input)) = 0 := by
  unfold filterLog sendEmailCalls
  split_ifs <;> simp

theorem bodyReads_filterLog {Input : Type} (origin from_ : String) (l : List String)
    (err : Option GoError) :
    bodyReads (filterLog origin from_ l err : List (Effect Input)) = 0 := by
  unfold filterLog bodyReads
  split_ifs <;> simp

theorem ses.sesSend_read_ok {Reader : Type}
    (ConsumeToBytes : Reader → Nat → Except GoError (List UInt8))
    (c : ses.Client) (origin from_ : String) (to_ : List String) (dr : Reader)
    (data : List UInt8) (h : (c.filtered from_ to_).1 ≠ [])
    (hr : ConsumeToBytes dr c.maxMessageSize = Except.ok data) :
    ses.Send ConsumeToBytes c origin from_ to_ dr =
      (if c.SesClient.SendEmail (ses.buildInput c from_ (c.filtered from_ to_).1 data) ≠ none
        then c.SesClient.SendEmail (ses.buildInput c from_ (c.filtered from_ to_).1 data)
        else (c.filtered from_ to_).2.2,
       filterLog origin from_ (c.filtered from_ to_).2.1 (c.filtered from_ to_).2.2 ++
        [Effect.ConsumeToBytes c.maxMessageSize,
         Effect.SendEmail (ses.buildInput c from_ (c.filtered from_ to_).1 data),
         Effect.Log origin from_ (c.filtered from_ to_).1
          (if c.SesClient.SendEmail (ses.buildInput c from_ (c.filtered from_ to_).1 data)
              ≠ none
            then c.SesClient.SendEmail (ses.buildInput c from_ (c.filtered from_ to_).1 data)
            else (c.filtered from_ to_).2.2)]) := by
  have hlen : 0 < (c.filtered from_ to_).1.length := List.length_pos.2 h
  unfold ses.Client.filtered at hlen
  simp only [ses.Send, ses.Client.filtered, filterLog, hr, gt_iff_lt, hlen, if_true]

theorem ses.sesSend_read_error {Reader : Type}
    (ConsumeToBytes : Reader → Nat → Except GoError (List UInt8))
    (c : ses.Client) (origin from_ : String) (to_ : List String) (dr : Reader)
    (e : GoError) (h : (c.filtered from_ to_).1 ≠ [])
    (hr : ConsumeToBytes dr c.maxMessageSize = Except.error e) :
    ses.Send ConsumeToBytes c origin from_ to_ dr =
      (some e,
       filterLog origin from_ (c.filtered from_ to_).2.1 (c.filtered from_ to_).2.2 ++
        [Effect.ConsumeToBytes c.maxMessageSize]) := by
  have hlen : 0 < (c.filtered from_ to_).1.length := List.length_pos.2 h
  unfold ses.Client.filtered at hlen
  simp only [ses.Send, ses.Client.filtered, filterLog, hr, gt_iff_lt, hlen, if_true]

theorem ses.sesSend_none_allowed {Reader : Type}
    (ConsumeToBytes : Reader → Nat → Except GoError (List UInt8))
    (c : ses.Client) (origin from_ : String) (to_ : List String) (dr : Reader)
    (h : (c.filtered from_ to_).1 = []) :
    ses.Send ConsumeToBytes c origin from_ to_ dr =
      ((c.filtered from_ to_).2.2,
       filterLog origin from_ (c.filtered from_ to_).2.1 (c.filtered from_ to_).2.2) := by
  unfold ses.Client.filtered at h
  simp [ses.Send, ses.Client.filtered, filterLog, h]

theorem pinpoint.pinpointSend_read_ok {Reader : Type}
    (ConsumeToBytes : Reader → Nat → Except GoError (List UInt8))
    (c : pinpoint.Client) (origin from_ : String) (to_ : List String) (dr : Reader)
    (data : List UInt8) (h : (c.filtered from_ to_).1 ≠ [])
    (hr : ConsumeToBytes dr c.maxMessageSize = Except.ok data) :
    pinpoint.Send ConsumeToBytes c origin from_ to_ dr =
      (if c.PinpointClient.SendEmail
            (pinpoint.buildInput c from_ to_ (c.filtered from_ to_).1 data) ≠ none
        then c.PinpointClient.SendEmail
            (pinpoint.buildInput c from_ to_ (c.filtered from_ to_).1 data)
        else (c.filtered from_ to_).2.2,
       filterLog origin from_ (c.filtered from_ to_).2.1 (c.filtered from_ to_).2.2 ++
        [Effect.ConsumeToBytes c.maxMessageSize,
         Effect.SendEmail (pinpoint.buildInput c from_ to_ (c.filtered from_ to_).1 data),
         Effect.Log origin from_ (c.filtered from_ to_).1
          (if c.PinpointClient.SendEmail
                (pinpoint.buildInput c from_ to_ (c.filtered from_ to_).1 data) ≠ none
            then c.PinpointClient.SendEmail
                (pinpoint.buildInput c from_ to_ (c.filtered from_ to_).1 data)
            else (c.filtered from_ to_).2.2)]) := by
  have hlen : 0 < (c.filtered from_ to_).1.length := List.length_pos.2 h
  unfold pinpoint.Client.filtered at hlen
  simp only [pinpoint.Send, pinpoint.Client.filtered, filterLog, hr, gt_iff_lt, hlen, if_true]

theorem pinpoint.pinpointSend_read_error {Reader : Type}
    (ConsumeToBytes : Reader → Nat → Except GoError (List UInt8))
    (c : pinpoint.Client) (origin from_ : String) (to_ : List String) (dr : Reader)
    (e : GoError) (h : (c.filtered from_ to_).1 ≠ [])
    (hr : ConsumeToBytes dr c.maxMessageSize = Except.error e) :
    pinpoint.Send ConsumeToBytes c origin from_ to_ dr =
      (some e,
       filterLog origin from_ (c.filtered from_ to_).2.1 (c.filtered from_ to_).2.2 ++
        [Effect.ConsumeToBytes c.maxMessageSize]) := by
  have hlen : 0 < (c.filtered from_ to_).1.length := List.length_pos.2 h
  unfold pinpoint.Client.filtered at hlen
  simp only [pinpoint.Send, pinpoint.Client.filtered, filterLog, hr, gt_iff_lt, hlen, if_true]

theorem pinpoint.pinpointSend_none_allowed {Reader : Type}
    (ConsumeToBytes : Reader → Nat → Except GoError (List UInt8))
    (c : pinpoint.Client) (origin from_ : String) (to_ : List String) (dr : Reader)
    (h : (c.filtered from_ to_).1 = []) :
    pinpoint.Send ConsumeToBytes c origin from_ to_ dr =
      ((c.filtered from_ to_).2.2,
       filterLog origin from_ (c.filtered from_ to_).2.1 (c.filtered from_ to_).2.2) := by
  unfold pinpoint.Client.filtered at h
  simp [pinpoint.Send, pinpoint.Client.filtered, filterLog, h]

/-- The statement of claim C8 fails when a recipient of the same message
was denied: one recipient is allowed, the body is read within the cap and
the backend call succeeds, and yet both `Send` functions return
`ErrDeniedRecipients` and log the allowed list with that error, not nil. -/
theorem Send_success_counterexample :
    (ses.stubClient none (some (startingWith "blocked@")) none [] 10).filtered
      "sender@example.com" ["blocked@example.org", "allowed@example.org"] =
      (["allowed@example.org"], ["blocked@example.org"],
        some GoError.ErrDeniedRecipients) ∧
    relay.ConsumeToBytes [1, 2, 3] 10 = Except.ok [1, 2, 3] ∧
    (ses.Send relay.ConsumeToBytes
      (ses.stubClient none (some (startingWith "blocked@")) none [] 10) "10.0.0.1:25"
      "sender@example.com" ["blocked@example.org", "allowed@example.org"] [1, 2, 3]).1 =
      some GoError.ErrDeniedRecipients ∧
    Effect.Log "10.0.0.1:25" "sender@example.com" ["allowed@example.org"] none ∉
      (ses.Send relay.ConsumeToBytes
        (ses.stubClient none (some (startingWith "blocked@")) none [] 10) "10.0.0.1:25"
        "sender@example.com" ["blocked@example.org", "allowed@example.org"] [1, 2, 3]).2 ∧
    (pinpoint.Send relay.ConsumeToBytes
      (pinpoint.stubClient none (some (startingWith "blocked@")) none [] 10) "10.0.0.1:25"
      "sender@example.com" ["blocked@example.org", "allowed@example.org"] [1, 2, 3]).1 =
      some GoError.ErrDeniedRecipients ∧
    Effect.Log "10.0.0.1:25" "sender@example.com" ["allowed@example.org"] none ∉
      (pinpoint.Send relay.ConsumeToBytes
        (pinpoint.stubClient none (some (startingWith "blocked@")) none [] 10) "10.0.0.1:25"
        "sender@example.com" ["blocked@example.org", "allowed@example.org"] [1, 2, 3]).2 := by
  refine ⟨by decide, rfl, by decide, by decide, by decide, by decide⟩

/-- Claim C8, amended: for every `Send` call (SES and Pinpoint) in which at
least one recipient is allowed, the body is read within the size cap and
the backend `SendEmail` call succeeds, `Send` logs (origin, sender,
allowed list, e) and returns e, where e is the error `FilterAddresses`
returned: nil when no recipient was denied, and the denial error
(`ErrDeniedRecipients` or `ErrDeniedRecipientsNotAllowed`) when other
recipients of the same message were denied. -/
theorem Send_success {Reader : Type}
    (ConsumeToBytes : Reader → Nat → Except GoError (List UInt8))
    (origin from_ : String) (to_ : List String) (dr : Reader) (data : List UInt8) :
    (∀ c : ses.Client, (c.filtered from_ to_).1 ≠ [] →
      ConsumeToBytes dr c.maxMessageSize = Except.ok data →
      c.SesClient.SendEmail (ses.buildInput c from_ (c.filtered from_ to_).1 data) = none →
        (ses.Send ConsumeToBytes c origin from_ to_ dr).1 = (c.filtered from_ to_).2.2 ∧
        (ses.Send ConsumeToBytes c origin from_ to_ dr).2 =
          filterLog origin from_ (c.filtered from_ to_).2.1 (c.filtered from_ to_).2.2 ++
            [Effect.ConsumeToBytes c.maxMessageSize,
             Effect.SendEmail (ses.buildInput c from_ (c.filtered from_ to_).1 data),
             Effect.Log origin from_ (c.filtered from_ to_).1 (c.filtered from_ to_).2.2] ∧
        ((c.filtered from_ to_).2.1 = [] → (c.filtered from_ to_).2.2 = none) ∧
        ((c.filtered from_ to_).2.1 ≠ [] →
          (c.filtered from_ to_).2.2 = some GoError.ErrDeniedRecipients ∨
          (c.filtered from_ to_).2.2 = some GoError.ErrDeniedRecipientsNotAllowed)) ∧
    (∀ c : pinpoint.Client, (c.filtered from_ to_).1 ≠ [] →
      ConsumeToBytes dr c.maxMessageSize = Except.ok data →
      c.PinpointClient.SendEmail
          (pinpoint.buildInput c from_ to_ (c.filtered from_ to_).1 data) = none →
        (pinpoint.Send ConsumeToBytes c origin from_ to_ dr).1 = (c.filtered from_ to_).2.2 ∧
        (pinpoint.Send ConsumeToBytes c origin from_ to_ dr).2 =
          filterLog origin from_ (c.filtered from_ to_).2.1 (c.filtered from_ to_).2.2 ++
            [Effect.ConsumeToBytes c.maxMessageSize,
             Effect.SendEmail
              (pinpoint.buildInput c from_ to_ (c.filtered from_ to_).1 data),
             Effect.Log origin from_ (c.filtered from_ to_).1 (c.filtered from_ to_).2.2] ∧
        ((c.filtered from_ to_).2.1 = [] → (c.filtered from_ to_).2.2 = none) ∧
        ((c.filtered from_ to_).2.1 ≠ [] →
          (c.filtered from_ to_).2.2 = some GoError.ErrDeniedRecipients ∨
          (c.filtered from_ to_).2.2 = some GoError.ErrDeniedRecipientsNotAllowed)) := by
  constructor
  · intro c h hr hs
    have herr := filter.FilterAddresses_err_of_allowed_ne_nil from_ to_ c.allowFromRegExp
      c.denyToRegExp c.allowToRegExp c.allowedDomains h
    rw [ses.sesSend_read_ok ConsumeToBytes c origin from_ to_ dr data h hr, hs]
    exact ⟨by simp, by simp, herr.1, herr.2⟩
  · intro c h hr hs
    have herr := filter.FilterAddresses_err_of_allowed_ne_nil from_ to_ c.allowFromRegExp
      c.denyToRegExp c.allowToRegExp c.allowedDomains h
    rw [pinpoint.pinpointSend_read_ok ConsumeToBytes c origin from_ to_ dr data h hr, hs]
    exact ⟨by simp, by simp, herr.1, herr.2⟩

theorem Send_success_witness :
    (ses.Send relay.ConsumeToBytes (ses.stubClient none none none [] 10) "10.0.0.1:25"
      "sender@example.com" ["user1@example.org", "user2@example.org"] [1, 2, 3]).1 = none ∧
    (pinpoint.Send relay.ConsumeToBytes
      (pinpoint.stubClient none (some (startingWith "blocked@")) none [] 10) "10.0.0.1:25"
      "sender@example.com" ["blocked@example.org", "allowed@example.org"] [1, 2, 3]).1 =
      some GoError.ErrDeniedRecipients :=
  have h := Send_success relay.ConsumeToBytes "10.0.0.1:25" "sender@example.com"
    ["user1@example.org", "user2@example.org"] [1, 2, 3] [1, 2, 3]
  have h2 := Send_success relay.ConsumeToBytes "10.0.0.1:25" "sender@example.com"
    ["blocked@example.org", "allowed@example.org"] [1, 2, 3] [1, 2, 3]
  ⟨(h.1 (ses.stubClient none none none [] 10) (by decide) rfl rfl).1.trans (by decide),
   (h2.2 (pinpoint.stubClient none (some (startingWith "blocked@")) none [] 10)
      (by decide) rfl rfl).1.trans (by decide)⟩

theorem log_not_mem_read_error {Input : Type} (origin from_ : String)
    (allowed denied : List String) (ferr err : Option GoError) (maxSize : Nat)
    (h : allowed ≠ denied) :
    Effect.Log origin from_ allowed err ∉
      (filterLog origin from_ denied ferr ++ [Effect.ConsumeToBytes maxSize] :
        List (Effect Input)) := by
  unfold filterLog
  split_ifs <;> simp [h]

theorem sendEmailCalls_read_error {Input : Type} (origin from_ : String)
    (denied : List String) (ferr : Option GoError) (maxSize : Nat) :
    sendEmailCalls (filterLog origin from_ denied ferr ++ [Effect.ConsumeToBytes maxSize] :
        List (Effect Input)) = 0 := by
  unfold filterLog sendEmailCalls
  split_ifs <;> simp

/-- Claim C9: for both backends, if at least one recipient is allowed and
reading the body with the configured `maxMessageSize` fails (as it does
when the size cap is exceeded), `Send` returns the error of the read, the
backend `SendEmail` is invoked zero times and no log entry for the allowed
recipients is emitted: the effects are the log of the filter error, if
any, followed by the read. The read error is returned whether or not the
filter produced a denial error. -/
theorem Send_body_read_error {Reader : Type}
    (ConsumeToBytes : Reader → Nat → Except GoError (List UInt8))
    (origin from_ : String) (to_ : List String) (dr : Reader) (e : GoError) :
    (∀ c : ses.Client, (c.filtered from_ to_).1 ≠ [] →
      ConsumeToBytes dr c.maxMessageSize = Except.error e →
        (ses.Send ConsumeToBytes c origin from_ to_ dr).1 = some e ∧
        sendEmailCalls (ses.Send ConsumeToBytes c origin from_ to_ dr).2 = 0 ∧
        (∀ err : Option GoError, Effect.Log origin from_ (c.filtered from_ to_).1 err ∉
          (ses.Send ConsumeToBytes c origin from_ to_ dr).2) ∧
        (ses.Send ConsumeToBytes c origin from_ to_ dr).2 =
          filterLog origin from_ (c.filtered from_ to_).2.1 (c.filtered from_ to_).2.2 ++
            [Effect.ConsumeToBytes c.maxMessageSize]) ∧
    (∀ c : pinpoint.Client, (c.filtered from_ to_).1 ≠ [] →
      ConsumeToBytes dr c.maxMessageSize = Except.error e →
        (pinpoint.Send ConsumeToBytes c origin from_ to_ dr).1 = some e ∧
        sendEmailCalls (pinpoint.Send ConsumeToBytes c origin from_ to_ dr).2 = 0 ∧
        (∀ err : Option GoError, Effect.Log origin from_ (c.filtered from_ to_).1 err ∉
          (pinpoint.Send ConsumeToBytes c origin from_ to_ dr).2) ∧
        (pinpoint.Send ConsumeToBytes c origin from_ to_ dr).2 =
          filterLog origin from_ (c.filtered from_ to_).2.1 (c.filtered from_ to_).2.2 ++
            [Effect.ConsumeToBytes c.maxMessageSize]) := by
  constructor
  · intro c h hr
    have hne := filter.FilterAddresses_allowed_ne_denied from_ to_ c.allowFromRegExp
      c.denyToRegExp c.allowToRegExp c.allowedDomains h
    rw [ses.sesSend_read_error ConsumeToBytes c origin from_ to_ dr e h hr]
    exact ⟨rfl, sendEmailCalls_read_error _ _ _ _ _,
      fun err => log_not_mem_read_error _ _ _ _ _ _ _ hne, rfl⟩
  · intro c h hr
    have hne := filter.FilterAddresses_allowed_ne_denied from_ to_ c.allowFromRegExp
      c.denyToRegExp c.allowToRegExp c.allowedDomains h
    rw [pinpoint.pinpointSend_read_error ConsumeToBytes c origin from_ to_ dr e h hr]
    exact ⟨rfl, sendEmailCalls_read_error _ _ _ _ _,
      fun err => log_not_mem_read_error _ _ _ _ _ _ _ hne, rfl⟩

theorem Send_body_read_error_witness :
    relay.ConsumeToBytes [1, 2, 3] 2 = Except.error (GoError.external "message too large") ∧
    ses.Send relay.ConsumeToBytes
      (ses.stubClient none (some (startingWith "blocked@")) none [] 2) "10.0.0.1:25"
      "sender@example.com" ["blocked@example.org", "allowed@example.org"] [1, 2, 3] =
      (some (GoError.external "message too large"),
        [Effect.Log "10.0.0.1:25" "sender@example.com" ["blocked@example.org"]
          (some GoError.ErrDeniedRecipients), Effect.ConsumeToBytes 2]) ∧
    sendEmailCalls (pinpoint.Send relay.ConsumeToBytes
      (pinpoint.stubClient none none none [] 2) "10.0.0.1:25"
      "sender@example.com" ["allowed@example.org"] [1, 2, 3]).2 = 0 :=
  have h := Send_body_read_error relay.ConsumeToBytes "10.0.0.1:25" "sender@example.com"
    ["blocked@example.org", "allowed@example.org"] [1, 2, 3]
    (GoError.external "message too large")
  have h2 := Send_body_read_error relay.ConsumeToBytes "10.0.0.1:25" "sender@example.com"
    ["allowed@example.org"] [1, 2, 3] (GoError.external "message too large")
  have hs := h.1 (ses.stubClient none (some (startingWith "blocked@")) none [] 2)
    (by decide) rfl
  ⟨rfl, Prod.ext hs.1 (hs.2.2.2.trans (by decide)),
    (h2.2 (pinpoint.stubClient none none none [] 2) (by decide) rfl).2.1⟩

/-- Claim C10: for both backends, whenever `FilterAddresses` yields an empty
allowed list, `Send` does not read the body stream, invokes the backend
`SendEmail` zero times, and returns exactly the error value that
`FilterAddresses` returned. -/
theorem Send_none_allowed {Reader : Type}
    (ConsumeToBytes : Reader → Nat → Except GoError (List UInt8))
    (origin from_ : String) (to_ : List String) (dr : Reader) :
    (∀ c : ses.Client, (c.filtered from_ to_).1 = [] →
        bodyReads (ses.Send ConsumeToBytes c origin from_ to_ dr).2 = 0 ∧
        sendEmailCalls (ses.Send ConsumeToBytes c origin from_ to_ dr).2 = 0 ∧
        (ses.Send ConsumeToBytes c origin from_ to_ dr).1 = (c.filtered from_ to_).2.2) ∧
    (∀ c : pinpoint.Client, (c.filtered from_ to_).1 = [] →
        bodyReads (pinpoint.Send ConsumeToBytes c origin from_ to_ dr).2 = 0 ∧
        sendEmailCalls (pinpoint.Send ConsumeToBytes c origin from_ to_ dr).2 = 0 ∧
        (pinpoint.Send ConsumeToBytes c origin from_ to_ dr).1 =
          (c.filtered from_ to_).2.2) := by
  constructor
  · intro c h
    rw [ses.sesSend_none_allowed ConsumeToBytes c origin from_ to_ dr h]
    exact ⟨bodyReads_filterLog _ _ _ _, sendEmailCalls_filterLog _ _ _ _, rfl⟩
  · intro c h
    rw [pinpoint.pinpointSend_none_allowed ConsumeToBytes c origin from_ to_ dr h]
    exact ⟨bodyReads_filterLog _ _ _ _, sendEmailCalls_filterLog _ _ _ _, rfl⟩

theorem Send_none_allowed_witness :
    (ses.Send relay.ConsumeToBytes
      (ses.stubClient none (some (startingWith "blocked@")) none [] 10) "10.0.0.1:25"
      "sender@example.com" ["blocked@example.org"] [1, 2, 3]).1 =
      some GoError.ErrDeniedRecipients ∧
    bodyReads (ses.Send relay.ConsumeToBytes
      (ses.stubClient none (some (startingWith "blocked@")) none [] 10) "10.0.0.1:25"
      "sender@example.com" ["blocked@example.org"] [1, 2, 3]).2 = 0 ∧
    (pinpoint.Send relay.ConsumeToBytes (pinpoint.stubClient none none none [] 10)
      "10.0.0.1:25" "sender@example.com" [] [1, 2, 3]).1 = none :=
  have h := Send_none_allowed relay.ConsumeToBytes "10.0.0.1:25" "sender@example.com"
    ["blocked@example.org"] [1, 2, 3]
  have h2 := Send_none_allowed relay.ConsumeToBytes "10.0.0.1:25" "sender@example.com"
    [] [1, 2, 3]
  have hs := h.1 (ses.stubClient none (some (startingWith "blocked@")) none [] 10)
    (by decide)
  ⟨hs.2.2.trans (by decide), hs.1,
    (h2.2 (pinpoint.stubClient none none none [] 10) (by decide)).2.2.trans (by decide)⟩

/-! Section: The backend request -/

theorem sendEmailCalls_sent {Input : Type} (origin from_ : String)
    (allowed denied : List String) (ferr err : Option GoError) (maxSize : Nat)
    (input : Input) :
    sendEmailCalls (filterLog origin from_ denied ferr ++
      [Effect.ConsumeToBytes maxSize, Effect.SendEmail input,
       Effect.Log origin from_ allowed err]) = 1 := by
  unfold filterLog sendEmailCalls
  split_ifs <;> simp [List.countP_cons]

theorem sendEmail_not_mem_filterLog {Input : Type} (origin from_ : String)
    (denied : List String) (ferr : Option GoError) (input : Input) :
    Effect.SendEmail input ∉ (filterLog origin from_ denied ferr : List (Effect Input)) := by
  unfold filterLog
  split_ifs <;> simp

theorem sendEmail_mem_sent {Input : Type} (origin from_ : String)
    (allowed denied : List String) (ferr err : Option GoError) (maxSize : Nat)
    (input sent : Input)
    (h : Effect.SendEmail input ∈ filterLog origin from_ denied ferr ++
      [Effect.ConsumeToBytes maxSize, Effect.SendEmail sent,
       Effect.Log origin from_ allowed err]) :
    input = sent := by
  rcases List.mem_append.1 h with h1 | h1
  · exact absurd h1 (sendEmail_not_mem_filterLog _ _ _ _ _)
  · simpa using h1

/-- Claim C11: for both backends, when at least one recipient is allowed,
the body is read within the cap and the backend `SendEmail` returns an
error `e`, `Send` logs (origin, sender, allowed list, e) and returns `e`,
whatever error the filter produced, and `SendEmail` is invoked exactly
once. -/
theorem Send_backend_error {Reader : Type}
    (ConsumeToBytes : Reader → Nat → Except GoError (List UInt8))
    (origin from_ : String) (to_ : List String) (dr : Reader) (data : List UInt8)
    (e : GoError) :
    (∀ c : ses.Client, (c.filtered from_ to_).1 ≠ [] →
      ConsumeToBytes dr c.maxMessageSize = Except.ok data →
      c.SesClient.SendEmail (ses.buildInput c from_ (c.filtered from_ to_).1 data) = some e →
        (ses.Send ConsumeToBytes c origin from_ to_ dr).1 = some e ∧
        (ses.Send ConsumeToBytes c origin from_ to_ dr).2 =
          filterLog origin from_ (c.filtered from_ to_).2.1 (c.filtered from_ to_).2.2 ++
            [Effect.ConsumeToBytes c.maxMessageSize,
             Effect.SendEmail (ses.buildInput c from_ (c.filtered from_ to_).1 data),
             Effect.Log origin from_ (c.filtered from_ to_).1 (some e)] ∧
        sendEmailCalls (ses.Send ConsumeToBytes c origin from_ to_ dr).2 = 1) ∧
    (∀ c : pinpoint.Client, (c.filtered from_ to_).1 ≠ [] →
      ConsumeToBytes dr c.maxMessageSize = Except.ok data →
      c.PinpointClient.SendEmail
          (pinpoint.buildInput c from_ to_ (c.filtered from_ to_).1 data) = some e →
        (pinpoint.Send ConsumeToBytes c origin from_ to_ dr).1 = some e ∧
        (pinpoint.Send ConsumeToBytes c origin from_ to_ dr).2 =
          filterLog origin from_ (c.filtered from_ to_).2.1 (c.filtered from_ to_).2.2 ++
            [Effect.ConsumeToBytes c.maxMessageSize,
             Effect.SendEmail
              (pinpoint.buildInput c from_ to_ (c.filtered from_ to_).1 data),
             Effect.Log origin from_ (c.filtered from_ to_).1 (some e)] ∧
        sendEmailCalls (pinpoint.Send ConsumeToBytes c origin from_ to_ dr).2 = 1) := by
  constructor
  · intro c h hr hs
    rw [ses.sesSend_read_ok ConsumeToBytes c origin from_ to_ dr data h hr, hs]
    exact ⟨by simp, by simp, sendEmailCalls_sent _ _ _ _ _ _ _ _⟩
  · intro c h hr hs
    rw [pinpoint.pinpointSend_read_ok ConsumeToBytes c origin from_ to_ dr data h hr, hs]
    exact ⟨by simp, by simp, sendEmailCalls_sent _ _ _ _ _ _ _ _⟩

theorem Send_backend_error_witness :
    ses.Send relay.ConsumeToBytes
      (ses.stubClient (some (GoError.external "throttled"))
        (some (startingWith "blocked@")) none [] 10) "10.0.0.1:25"
      "sender@example.com" ["blocked@example.org", "allowed@example.org"] [1, 2, 3] =
      (some (GoError.external "throttled"),
        [Effect.Log "10.0.0.1:25" "sender@example.com" ["blocked@example.org"]
          (some GoError.ErrDeniedRecipients),
         Effect.ConsumeToBytes 10,
         Effect.SendEmail (ses.buildInput
          (ses.stubClient (some (GoError.external "throttled"))
            (some (startingWith "blocked@")) none [] 10)
          "sender@example.com" ["allowed@example.org"] [1, 2, 3]),
         Effect.Log "10.0.0.1:25" "sender@example.com" ["allowed@example.org"]
          (some (GoError.external "throttled"))]) ∧
    sendEmailCalls (pinpoint.Send relay.ConsumeToBytes
      (pinpoint.stubClient (some (GoError.external "throttled")) none none [] 10)
      "10.0.0.1:25" "sender@example.com" ["allowed@example.org"] [1, 2, 3]).2 = 1 :=
  have h := Send_backend_error relay.ConsumeToBytes "10.0.0.1:25" "sender@example.com"
    ["blocked@example.org", "allowed@example.org"] [1, 2, 3] [1, 2, 3]
    (GoError.external "throttled")
  have h2 := Send_backend_error relay.ConsumeToBytes "10.0.0.1:25" "sender@example.com"
    ["allowed@example.org"] [1, 2, 3] [1, 2, 3] (GoError.external "throttled")
  have hs := h.1 (ses.stubClient (some (GoError.external "throttled"))
    (some (startingWith "blocked@")) none [] 10) (by decide) rfl rfl
  ⟨Prod.ext hs.1 (hs.2.1.trans (by decide)),
    (h2.2 (pinpoint.stubClient (some (GoError.external "throttled")) none none [] 10)
      (by decide) rfl rfl).2.2⟩

theorem ses.buildInput_fields (c : ses.Client) (from_ : String) (allowed : List String)
    (data : List UInt8) :
    (ses.buildInput c from_ allowed data).Destination = some { ToAddresses := allowed } ∧
    (ses.buildInput c from_ allowed data).FromEmailAddress = some from_ ∧
    (ses.buildInput c from_ allowed data).Content = some { Raw := some { Data := data } } ∧
    (ses.buildInput c from_ allowed data).ConfigurationSetName = c.setName := by
  unfold ses.buildInput
  cases c.arns with
  | none => exact ⟨rfl, rfl, rfl, rfl⟩
  | some arns =>
    dsimp only
    split_ifs <;> exact ⟨rfl, rfl, rfl, rfl⟩

theorem ses.sesSend_sent {Reader : Type}
    (ConsumeToBytes : Reader → Nat → Except GoError (List UInt8))
    (c : ses.Client) (origin from_ : String) (to_ : List String) (dr : Reader)
    (input : ses.SendEmailInput)
    (h : Effect.SendEmail input ∈ (ses.Send ConsumeToBytes c origin from_ to_ dr).2) :
    ∃ data, ConsumeToBytes dr c.maxMessageSize = Except.ok data ∧
      input = ses.buildInput c from_ (c.filtered from_ to_).1 data := by
  by_cases ha : (c.filtered from_ to_).1 = []
  · rw [ses.sesSend_none_allowed ConsumeToBytes c origin from_ to_ dr ha] at h
    exact absurd h (sendEmail_not_mem_filterLog _ _ _ _ _)
  · cases hr : ConsumeToBytes dr c.maxMessageSize with
    | error e =>
      rw [ses.sesSend_read_error ConsumeToBytes c origin from_ to_ dr e ha hr] at h
      rcases List.mem_append.1 h with h1 | h1
      · exact absurd h1 (sendEmail_not_mem_filterLog _ _ _ _ _)
      · simp at h1
    | ok data =>
      rw [ses.sesSend_read_ok ConsumeToBytes c origin from_ to_ dr data ha hr] at h
      exact ⟨data, rfl, sendEmail_mem_sent _ _ _ _ _ _ _ _ _ h⟩

theorem pinpoint.pinpointSend_sent {Reader : Type}
    (ConsumeToBytes : Reader → Nat → Except GoError (List UInt8))
    (c : pinpoint.Client) (origin from_ : String) (to_ : List String) (dr : Reader)
    (input : pinpoint.SendEmailInput)
    (h : Effect.SendEmail input ∈ (pinpoint.Send ConsumeToBytes c origin from_ to_ dr).2) :
    ∃ data, ConsumeToBytes dr c.maxMessageSize = Except.ok data ∧
      input = pinpoint.buildInput c from_ to_ (c.filtered from_ to_).1 data := by
  by_cases ha : (c.filtered from_ to_).1 = []
  · rw [pinpoint.pinpointSend_none_allowed ConsumeToBytes c origin from_ to_ dr ha] at h
    exact absurd h (sendEmail_not_mem_filterLog _ _ _ _ _)
  · cases hr : ConsumeToBytes dr c.maxMessageSize with
    | error e =>
      rw [pinpoint.pinpointSend_read_error ConsumeToBytes c origin from_ to_ dr e ha hr] at h
      rcases List.mem_append.1 h with h1 | h1
      · exact absurd h1 (sendEmail_not_mem_filterLog _ _ _ _ _)
      · simp at h1
    | ok data =>
      rw [pinpoint.pinpointSend_read_ok ConsumeToBytes c origin from_ to_ dr data ha hr] at h
      exact ⟨data, rfl, sendEmail_mem_sent _ _ _ _ _ _ _ _ _ h⟩

theorem filter.denied_not_mem_allowed (from_ : String) (to_ : List String)
    (af d a : Option Regexp) (doms : List String) (r : String)
    (h : r ∈ (filter.FilterAddresses from_ to_ af d a doms).2.1) :
    r ∉ (filter.FilterAddresses from_ to_ af d a doms).1 := by
  intro h2
  rw [(filter.FilterAddresses_lists from_ to_ af d a doms).2] at h
  rw [(filter.FilterAddresses_lists from_ to_ af d a doms).1] at h2
  have h1 := (List.mem_filter.1 h).2
  have h3 := (List.mem_filter.1 h2).2
  simp [h3] at h1

/-- Claim C12: for both backends, every request passed to `SendEmail` by
`Send` has destination `ToAddresses` equal to the `allowed` list computed
by `FilterAddresses` (so no denied recipient is a destination),
`FromEmailAddress` equal to the sender, raw content equal to the bytes
returned by the body read, and `ConfigurationSetName` equal to the set
name of the client. -/
theorem Send_request_fields {Reader : Type}
    (ConsumeToBytes : Reader → Nat → Except GoError (List UInt8))
    (origin from_ : String) (to_ : List String) (dr : Reader) :
    (∀ (c : ses.Client) (input : ses.SendEmailInput),
      Effect.SendEmail input ∈ (ses.Send ConsumeToBytes c origin from_ to_ dr).2 →
        input.Destination = some { ToAddresses := (c.filtered from_ to_).1 } ∧
        (∀ r ∈ (c.filtered from_ to_).2.1, r ∉ (c.filtered from_ to_).1) ∧
        input.FromEmailAddress = some from_ ∧
        (∃ data, ConsumeToBytes dr c.maxMessageSize = Except.ok data ∧
          input.Content = some { Raw := some { Data := data } }) ∧
        input.ConfigurationSetName = c.setName) ∧
    (∀ (c : pinpoint.Client) (input : pinpoint.SendEmailInput),
      Effect.SendEmail input ∈ (pinpoint.Send ConsumeToBytes c origin from_ to_ dr).2 →
        input.Destination = some { ToAddresses := (c.filtered from_ to_).1 } ∧
        (∀ r ∈ (c.filtered from_ to_).2.1, r ∉ (c.filtered from_ to_).1) ∧
        input.FromEmailAddress = some from_ ∧
        (∃ data, ConsumeToBytes dr c.maxMessageSize = Except.ok data ∧
          input.Content = some { Raw := some { Data := data } }) ∧
        input.ConfigurationSetName = c.setName) := by
  constructor
  · intro c input h
    obtain ⟨data, hr, rfl⟩ := ses.sesSend_sent ConsumeToBytes c origin from_ to_ dr input h
    obtain ⟨h1, h2, h3, h4⟩ := ses.buildInput_fields c from_ (c.filtered from_ to_).1 data
    exact ⟨h1, fun r hr => filter.denied_not_mem_allowed _ _ _ _ _ _ r hr, h2,
      ⟨data, hr, h3⟩, h4⟩
  · intro c input h
    obtain ⟨data, hr, rfl⟩ :=
      pinpoint.pinpointSend_sent ConsumeToBytes c origin from_ to_ dr input h
    exact ⟨rfl, fun r hr => filter.denied_not_mem_allowed _ _ _ _ _ _ r hr, rfl,
      ⟨data, hr, rfl⟩, rfl⟩

theorem Send_request_fields_witness :
    (ses.buildInput (ses.stubClient none (some (startingWith "blocked@")) none [] 10)
        "sender@example.com" ["allowed@example.org"] [1, 2, 3]).Destination =
      some { ToAddresses := ["allowed@example.org"] } ∧
    (pinpoint.buildInput (pinpoint.stubClient none (some (startingWith "blocked@")) none [] 10)
        "sender@example.com" ["blocked@example.org", "allowed@example.org"]
        ["allowed@example.org"] [1, 2, 3]).ConfigurationSetName = some "set" :=
  have h := Send_request_fields relay.ConsumeToBytes "10.0.0.1:25" "sender@example.com"
    ["blocked@example.org", "allowed@example.org"] [1, 2, 3]
  ⟨((h.1 (ses.stubClient none (some (startingWith "blocked@")) none [] 10) _
      (by decide)).1).trans (by decide),
   (h.2 (pinpoint.stubClient none (some (startingWith "blocked@")) none [] 10) _
      (by decide)).2.2.2.2⟩

/-! Section: Identifier triples -/

theorem ses.buildInput_arns (c : ses.Client) (from_ : String) (allowed : List String)
    (data : List UInt8) :
    (c.arns = none →
      (ses.buildInput c from_ allowed data).FromEmailAddressIdentityArn = none ∧
      (ses.buildInput c from_ allowed data).FeedbackForwardingEmailAddressIdentityArn =
        none) ∧
    (∀ t : relay.ARNs, c.arns = some t →
      (t.FromArn ≠ none →
        (ses.buildInput c from_ allowed data).FromEmailAddressIdentityArn = t.FromArn) ∧
      (t.FromArn = none →
        (ses.buildInput c from_ allowed data).FromEmailAddressIdentityArn = t.SourceArn) ∧
      (ses.buildInput c from_ allowed data).FeedbackForwardingEmailAddressIdentityArn =
        t.ReturnPathArn) := by
  unfold ses.buildInput
  constructor
  · intro h
    rw [h]
    exact ⟨rfl, rfl⟩
  · intro t h
    rw [h]
    dsimp only
    refine ⟨?_, ?_, ?_⟩
    · intro hf
      split_ifs <;> rfl
    · intro hf
      split_ifs with h1 h2 h3 h4
      all_goals first | rfl | skip
      all_goals simp_all
    · split_ifs with h1 h2 h3 h4
      all_goals first | rfl | skip
      all_goals simp_all

theorem factory.resolveARNs_returnPath (cfg : config.Config) (t : relay.ARNs)
    (h : factory.resolveARNs cfg = some t) :
    (cfg.ReturnPathArn ≠ "" → t.ReturnPathArn = some cfg.ReturnPathArn) ∧
    (cfg.ReturnPathArn = "" → t.ReturnPathArn = t.SourceArn) := by
  unfold factory.resolveARNs factory.toStringPtr at h
  by_cases hs : cfg.SourceArn = "" <;> by_cases hf : cfg.FromArn = "" <;>
    by_cases hr : cfg.ReturnPathArn = "" <;> simp [hs, hf, hr] at h <;>
    subst h <;> simp [hr]

/-- The statement of claim C13 fails for a triple that holds only a source
identifier: the request that the SES `Send` passes to the backend has no
return-path identity, while the claim asks for the source identifier. -/
theorem Send_return_path_counterexample :
    (ses.stubClientWithArns
      { SourceArn := some "arn:aws:ses:us-east-1:123456789012:identity/example.com"
        FromArn := none
        ReturnPathArn := none }).arns =
      some { SourceArn := some "arn:aws:ses:us-east-1:123456789012:identity/example.com"
             FromArn := none
             ReturnPathArn := none } ∧
    (ses.Send relay.ConsumeToBytes
      (ses.stubClientWithArns
        { SourceArn := some "arn:aws:ses:us-east-1:123456789012:identity/example.com"
          FromArn := none
          ReturnPathArn := none })
      "10.0.0.1:25" "sender@example.com" ["user@example.org"] [1, 2, 3]).2 =
      [Effect.ConsumeToBytes 10,
       Effect.SendEmail
        { ConfigurationSetName := some "set"
          FromEmailAddress := some "sender@example.com"
          Destination := some { ToAddresses := ["user@example.org"] }
          Content := some { Raw := some { Data := [1, 2, 3] } }
          FromEmailAddressIdentityArn :=
            some "arn:aws:ses:us-east-1:123456789012:identity/example.com"
          FeedbackForwardingEmailAddressIdentityArn := none },
       Effect.Log "10.0.0.1:25" "sender@example.com" ["user@example.org"] none] := by
  constructor
  · rfl
  · decide

/-- Claim C13, amended: for every identifier triple held by an SES client,
the request built by the SES `Send` sets `FromEmailAddressIdentityArn` to
`FromArn` if present and otherwise to `SourceArn`, and sets
`FeedbackForwardingEmailAddressIdentityArn` to `ReturnPathArn` if present
and leaves it unset otherwise; for a triple produced by the factory the
return-path field is the configured `ReturnPathArn` if that is not empty
and otherwise the source identifier, the factory having filled the default.
A client without a triple leaves both fields unset. -/
theorem Send_identity_arns {Reader : Type}
    (ConsumeToBytes : Reader → Nat → Except GoError (List UInt8))
    (c : ses.Client) (origin from_ : String) (to_ : List String) (dr : Reader)
    (input : ses.SendEmailInput)
    (h : Effect.SendEmail input ∈ (ses.Send ConsumeToBytes c origin from_ to_ dr).2) :
    (c.arns = none → input.FromEmailAddressIdentityArn = none ∧
      input.FeedbackForwardingEmailAddressIdentityArn = none) ∧
    (∀ t : relay.ARNs, c.arns = some t →
      (t.FromArn ≠ none → input.FromEmailAddressIdentityArn = t.FromArn) ∧
      (t.FromArn = none → input.FromEmailAddressIdentityArn = t.SourceArn) ∧
      input.FeedbackForwardingEmailAddressIdentityArn = t.ReturnPathArn ∧
      (∀ cfg : config.Config, factory.resolveARNs cfg = some t →
        (cfg.ReturnPathArn ≠ "" →
          input.FeedbackForwardingEmailAddressIdentityArn = some cfg.ReturnPathArn) ∧
        (cfg.ReturnPathArn = "" →
          input.FeedbackForwardingEmailAddressIdentityArn = t.SourceArn))) := by
  obtain ⟨data, _, rfl⟩ := ses.sesSend_sent ConsumeToBytes c origin from_ to_ dr input h
  obtain ⟨h1, h2⟩ := ses.buildInput_arns c from_ (c.filtered from_ to_).1 data
  refine ⟨h1, ?_⟩
  intro t ht
  obtain ⟨h3, h4, h5⟩ := h2 t ht
  refine ⟨h3, h4, h5, ?_⟩
  intro cfg hcfg
  obtain ⟨h6, h7⟩ := factory.resolveARNs_returnPath cfg t hcfg
  exact ⟨fun hne => h5.trans (h6 hne), fun he => h5.trans (h7 he)⟩

theorem Send_identity_arns_witness :
    (ses.buildInput
      (ses.stubClientWithArns
        { SourceArn := some "arn:aws:ses:us-east-1:123456789012:identity/example.com"
          FromArn := none
          ReturnPathArn := some "arn:aws:ses:us-east-1:123456789012:identity/return" })
      "sender@example.com" ["user@example.org"] [1, 2, 3]).FromEmailAddressIdentityArn =
      some "arn:aws:ses:us-east-1:123456789012:identity/example.com" ∧
    (ses.buildInput
      (ses.stubClientWithArns
        { SourceArn := some "arn:aws:ses:us-east-1:123456789012:identity/example.com"
          FromArn := none
          ReturnPathArn := some "arn:aws:ses:us-east-1:123456789012:identity/return" })
      "sender@example.com" ["user@example.org"]
      [1, 2, 3]).FeedbackForwardingEmailAddressIdentityArn =
      some "arn:aws:ses:us-east-1:123456789012:identity/return" :=
  have h := (Send_identity_arns relay.ConsumeToBytes
    (ses.stubClientWithArns
      { SourceArn := some "arn:aws:ses:us-east-1:123456789012:identity/example.com"
        FromArn := none
        ReturnPathArn := some "arn:aws:ses:us-east-1:123456789012:identity/return" })
    "10.0.0.1:25" "sender@example.com" ["user@example.org"] [1, 2, 3] _ (by decide)).2
    _ rfl
  ⟨h.2.1 rfl, h.2.2.1⟩

/-- Claim C14: the identifier triple that `NewClient` resolves for the SES
backend: no triple is created when the three configured strings are empty;
otherwise `SourceArn` is present exactly when `cfg.SourceArn` is not empty
(and is that string), `FromArn` is `cfg.FromArn` when that is not empty,
else `cfg.SourceArn` when that is not empty, else absent, and
`ReturnPathArn` likewise. -/
theorem NewClient_arns (sesApi : ses.SESEmailClient)
    (pinpointApi : pinpoint.PinpointEmailClient) (cfg : config.Config)
    (h : cfg.RelayAPI = "ses") :
    ∃ c : ses.Client,
      factory.NewClient sesApi pinpointApi cfg = Except.ok (relay.Client.ses c) ∧
      (c.arns = none ↔ (cfg.SourceArn = "" ∧ cfg.FromArn = "" ∧ cfg.ReturnPathArn = "")) ∧
      (∀ t : relay.ARNs, c.arns = some t →
        (t.SourceArn = none ↔ cfg.SourceArn = "") ∧
        (cfg.SourceArn ≠ "" → t.SourceArn = some cfg.SourceArn) ∧
        (cfg.FromArn ≠ "" → t.FromArn = some cfg.FromArn) ∧
        (cfg.FromArn = "" → cfg.SourceArn ≠ "" → t.FromArn = some cfg.SourceArn) ∧
        (cfg.FromArn = "" → cfg.SourceArn = "" → t.FromArn = none) ∧
        (cfg.ReturnPathArn ≠ "" → t.ReturnPathArn = some cfg.ReturnPathArn) ∧
        (cfg.ReturnPathArn = "" → cfg.SourceArn ≠ "" →
          t.ReturnPathArn = some cfg.SourceArn) ∧
        (cfg.ReturnPathArn = "" → cfg.SourceArn = "" → t.ReturnPathArn = none)) := by
  refine ⟨ses.New sesApi (some cfg.SetName) cfg.AllowFromRegExp cfg.DenyToRegExp
    cfg.AllowToRegExp cfg.AllowToDomainsSlice cfg.MaxMessageBytes (factory.resolveARNs cfg),
    ?_, ?_, ?_⟩
  · have hp : ¬ cfg.RelayAPI = "pinpoint" := by
      rw [h]
      decide
    simp [factory.NewClient, hp, h]
  · show factory.resolveARNs cfg = none ↔ _
    unfold factory.resolveARNs factory.toStringPtr
    by_cases hs : cfg.SourceArn = "" <;> by_cases hf : cfg.FromArn = "" <;>
      by_cases hr : cfg.ReturnPathArn = "" <;> simp [hs, hf, hr]
  · intro t ht
    have ht2 : factory.resolveARNs cfg = some t := ht
    unfold factory.resolveARNs factory.toStringPtr at ht2
    by_cases hs : cfg.SourceArn = "" <;> by_cases hf : cfg.FromArn = "" <;>
      by_cases hr : cfg.ReturnPathArn = "" <;> simp [hs, hf, hr] at ht2 <;>
      subst ht2 <;> simp [hs, hf, hr]

theorem NewClient_arns_witness :
    ∃ c : ses.Client,
      factory.NewClient ⟨fun _ => none⟩ ⟨fun _ => none⟩
        { config.initCliArgs with
          SourceArn := "arn:aws:ses:us-east-1:123456789012:identity/example.com" } =
        Except.ok (relay.Client.ses c) ∧
      c.arns = some
        { SourceArn := some "arn:aws:ses:us-east-1:123456789012:identity/example.com"
          FromArn := some "arn:aws:ses:us-east-1:123456789012:identity/example.com"
          ReturnPathArn :=
            some "arn:aws:ses:us-east-1:123456789012:identity/example.com" } :=
  have h := NewClient_arns ⟨fun _ => none⟩ ⟨fun _ => none⟩
    { config.initCliArgs with
      SourceArn := "arn:aws:ses:us-east-1:123456789012:identity/example.com" } rfl
  h.elim fun c hc => ⟨c, hc.1, by
    cases hc1 : c.arns with
    | none => exact absurd ((hc.2.1.1 hc1).1) (by decide)
    | some t =>
      obtain ⟨_, h2, _, h4, _, _, h7, _⟩ := hc.2.2 t hc1
      have e1 := h2 (by decide)
      have e2 := h4 rfl (by decide)
      have e3 := h7 rfl (by decide)
      cases t
      simp_all⟩

/-! Section: Configuration merge -/

namespace config

theorem merge_step_Addr (d b : Config) :
    (if d.Addr = "" then { d with Addr := b.Addr } else d) =
      { d with Addr := if d.Addr = "" then b.Addr else d.Addr } := by
  split
  · rfl
  · cases d; rfl

theorem merge_step_Name (d b : Config) :
    (if d.Name = "" then { d with Name := b.Name } else d) =
      { d with Name := if d.Name = "" then b.Name else d.Name } := by
  split
  · rfl
  · cases d; rfl

theorem merge_step_Host (d b : Config) :
    (if d.Host = "" then { d with Host := b.Host } else d) =
      { d with Host := if d.Host = "" then b.Host else d.Host } := by
  split
  · rfl
  · cases d; rfl

theorem merge_step_CertFile (d b : Config) :
    (if d.CertFile = "" then { d with CertFile := b.CertFile } else d) =
      { d with CertFile := if d.CertFile = "" then b.CertFile else d.CertFile } := by
  split
  · rfl
  · cases d; rfl

theorem merge_step_KeyFile (d b : Config) :
    (if d.KeyFile = "" then { d with KeyFile := b.KeyFile } else d) =
      { d with KeyFile := if d.KeyFile = "" then b.KeyFile else d.KeyFile } := by
  split
  · rfl
  · cases d; rfl

theorem merge_step_RelayAPI (d b : Config) :
    (if d.RelayAPI = "" then { d with RelayAPI := b.RelayAPI } else d) =
      { d with RelayAPI := if d.RelayAPI = "" then b.RelayAPI else d.RelayAPI } := by
  split
  · rfl
  · cases d; rfl

theorem merge_step_SetName (d b : Config) :
    (if d.SetName = "" then { d with SetName := b.SetName } else d) =
      { d with SetName := if d.SetName = "" then b.SetName else d.SetName } := by
  split
  · rfl
  · cases d; rfl

theorem merge_step_Ips (d b : Config) :
    (if d.Ips = "" then { d with Ips := b.Ips } else d) =
      { d with Ips := if d.Ips = "" then b.Ips else d.Ips } := by
  split
  · rfl
  · cases d; rfl

theorem merge_step_User (d b : Config) :
    (if d.User = "" then { d with User := b.User } else d) =
      { d with User := if d.User = "" then b.User else d.User } := by
  split
  · rfl
  · cases d; rfl

theorem merge_step_AllowFrom (d b : Config) :
    (if d.AllowFrom = "" then { d with AllowFrom := b.AllowFrom } else d) =
      { d with AllowFrom := if d.AllowFrom = "" then b.AllowFrom else d.AllowFrom } := by
  split
  · rfl
  · cases d; rfl

theorem merge_step_DenyTo (d b : Config) :
    (if d.DenyTo = "" then { d with DenyTo := b.DenyTo } else d) =
      { d with DenyTo := if d.DenyTo = "" then b.DenyTo else d.DenyTo } := by
  split
  · rfl
  · cases d; rfl

theorem merge_step_AllowTo (d b : Config) :
    (if d.AllowTo = "" then { d with AllowTo := b.AllowTo } else d) =
      { d with AllowTo := if d.AllowTo = "" then b.AllowTo else d.AllowTo } := by
  split
  · rfl
  · cases d; rfl

theorem merge_step_AllowToDomains (d b : Config) :
    (if d.AllowToDomains = "" then { d with AllowToDomains := b.AllowToDomains } else d) =
      { d with AllowToDomains := if d.AllowToDomains = "" then b.AllowToDomains else d.AllowToDomains } := by
  split
  · rfl
  · cases d; rfl

theorem merge_step_ReadTimeout (d b : Config) :
    (if d.ReadTimeout = 0 then { d with ReadTimeout := b.ReadTimeout } else d) =
      { d with ReadTimeout := if d.ReadTimeout = 0 then b.ReadTimeout else d.ReadTimeout } := by
  split
  · rfl
  · cases d; rfl

theorem merge_step_WriteTimeout (d b : Config) :
    (if d.WriteTimeout = 0 then { d with WriteTimeout := b.WriteTimeout } else d) =
      { d with WriteTimeout := if d.WriteTimeout = 0 then b.WriteTimeout else d.WriteTimeout } := by
  split
  · rfl
  · cases d; rfl

theorem merge_step_MaxMessageBytes (d b : Config) :
    (if d.MaxMessageBytes = 0 then { d with MaxMessageBytes := b.MaxMessageBytes } else d) =
      { d with MaxMessageBytes := if d.MaxMessageBytes = 0 then b.MaxMessageBytes else d.MaxMessageBytes } := by
  split
  · rfl
  · cases d; rfl

theorem merge_step_Debug (d b : Config) :
    (if d.Debug = "" then { d with Debug := b.Debug } else d) =
      { d with Debug := if d.Debug = "" then b.Debug else d.Debug } := by
  split
  · rfl
  · cases d; rfl

theorem merge_step_Password (d b : Config) :
    (if d.Password.length = 0 then { d with Password := b.Password } else d) =
      { d with Password := if d.Password.length = 0 then b.Password else d.Password } := by
  split
  · rfl
  · cases d; rfl

theorem merge_step_BcryptHash (d b : Config) :
    (if d.BcryptHash.length = 0 then { d with BcryptHash := b.BcryptHash } else d) =
      { d with BcryptHash := if d.BcryptHash.length = 0 then b.BcryptHash else d.BcryptHash } := by
  split
  · rfl
  · cases d; rfl

/-- The result of `merge` field by field: nineteen fields take the value of
`defaults` when the field of `dominator` is zero or empty, every other
field is the one of `dominator`. -/
theorem merge_eq (a b : Config) : merge a b =
    { a with
      Addr := if a.Addr = "" then b.Addr else a.Addr
      Name := if a.Name = "" then b.Name else a.Name
      Host := if a.Host = "" then b.Host else a.Host
      CertFile := if a.CertFile = "" then b.CertFile else a.CertFile
      KeyFile := if a.KeyFile = "" then b.KeyFile else a.KeyFile
      RelayAPI := if a.RelayAPI = "" then b.RelayAPI else a.RelayAPI
      SetName := if a.SetName = "" then b.SetName else a.SetName
      Ips := if a.Ips = "" then b.Ips else a.Ips
      User := if a.User = "" then b.User else a.User
      AllowFrom := if a.AllowFrom = "" then b.AllowFrom else a.AllowFrom
      DenyTo := if a.DenyTo = "" then b.DenyTo else a.DenyTo
      AllowTo := if a.AllowTo = "" then b.AllowTo else a.AllowTo
      AllowToDomains := if a.AllowToDomains = "" then b.AllowToDomains else a.AllowToDomains
      ReadTimeout := if a.ReadTimeout = 0 then b.ReadTimeout else a.ReadTimeout
      WriteTimeout := if a.WriteTimeout = 0 then b.WriteTimeout else a.WriteTimeout
      MaxMessageBytes := if a.MaxMessageBytes = 0 then b.MaxMessageBytes else a.MaxMessageBytes
      Debug := if a.Debug = "" then b.Debug else a.Debug
      Password := if a.Password.length = 0 then b.Password else a.Password
      BcryptHash := if a.BcryptHash.length = 0 then b.BcryptHash else a.BcryptHash } := by
  unfold merge
  simp -zeta only [
    merge_step_Addr, merge_step_Name, merge_step_Host, merge_step_CertFile,
    merge_step_KeyFile, merge_step_RelayAPI, merge_step_SetName, merge_step_Ips,
    merge_step_User, merge_step_AllowFrom, merge_step_DenyTo, merge_step_AllowTo,
    merge_step_AllowToDomains, merge_step_ReadTimeout, merge_step_WriteTimeout,
    merge_step_MaxMessageBytes, merge_step_Debug, merge_step_Password, merge_step_BcryptHash]

end config

namespace config

theorem ite_merge_idem {α : Type} (p : α → Prop) [DecidablePred p] (x y : α) :
    (if p (if p x then y else x) then y else (if p x then y else x)) =
      if p x then y else x := by
  by_cases h : p x
  · simp [h]
  · simp [h]

/-- Claim C15, evaluated on the code: `merge` has no statement for the
fields `StartTLSStr`, `OnlyTLSStr`, `SourceArn`, `FromArn` and
`ReturnPathArn`, so the result always carries the value of `dominator`
there. For a dominator that sets only `Addr`, merged over defaults with
`StartTLSStr = "false"`, `OnlyTLSStr = "false"` and a source identifier,
the result has the empty string in these fields, not the defaults. -/
theorem merge_unlisted_fields :
    (∀ dominator defaults : Config,
      (merge dominator defaults).StartTLSStr = dominator.StartTLSStr ∧
      (merge dominator defaults).OnlyTLSStr = dominator.OnlyTLSStr ∧
      (merge dominator defaults).SourceArn = dominator.SourceArn ∧
      (merge dominator defaults).FromArn = dominator.FromArn ∧
      (merge dominator defaults).ReturnPathArn = dominator.ReturnPathArn) ∧
    (merge { emptyConfig with Addr := ":2525" }
      { initCliArgs with
        SourceArn := "arn:aws:ses:us-east-1:123456789012:identity/example.com" }).StartTLSStr
      = "" ∧
    (merge { emptyConfig with Addr := ":2525" }
      { initCliArgs with
        SourceArn := "arn:aws:ses:us-east-1:123456789012:identity/example.com" }).OnlyTLSStr
      = "" ∧
    (merge { emptyConfig with Addr := ":2525" }
      { initCliArgs with
        SourceArn := "arn:aws:ses:us-east-1:123456789012:identity/example.com" }).SourceArn
      = "" ∧
    (merge { emptyConfig with Addr := ":2525" }
      { initCliArgs with
        SourceArn := "arn:aws:ses:us-east-1:123456789012:identity/example.com" }).Name
      = "AWS SMTP Relay" := by
  refine ⟨?_, ?_, ?_, ?_, ?_⟩
  · intro a b
    rw [merge_eq]
    exact ⟨rfl, rfl, rfl, rfl, rfl⟩
  all_goals rw [merge_eq]; rfl

/-- Claim C16: `merge` is idempotent in its defaults argument: for all
configurations `a` and `b`, `merge (merge a b) b = merge a b`. -/
theorem merge_idempotent (a b : Config) : merge (merge a b) b = merge a b := by
  rw [merge_eq (merge a b) b, merge_eq a b]
  simp only [ite_merge_idem (fun s : String => s = ""), ite_merge_idem (fun s : Int => s = 0),
    ite_merge_idem (fun s : Nat => s = 0), ite_merge_idem (fun s : List UInt8 => s.length = 0)]

/-- Claim C17: the override wins: for every field of `Config`, if the field
of `dominator` is not the zero or empty value then the merged configuration
has the value of `dominator` in that field, whatever `defaults` holds; the
numeric fields follow the rule with 0 as the value that is not set. -/
theorem merge_override_wins (dominator defaults : Config) :
    (dominator.Addr ≠ "" → (merge dominator defaults).Addr = dominator.Addr) ∧
    (dominator.Name ≠ "" → (merge dominator defaults).Name = dominator.Name) ∧
    (dominator.Host ≠ "" → (merge dominator defaults).Host = dominator.Host) ∧
    (dominator.ReadTimeout ≠ 0 → (merge dominator defaults).ReadTimeout = dominator.ReadTimeout) ∧
    (dominator.WriteTimeout ≠ 0 → (merge dominator defaults).WriteTimeout = dominator.WriteTimeout) ∧
    (dominator.MaxMessageBytes ≠ 0 → (merge dominator defaults).MaxMessageBytes = dominator.MaxMessageBytes) ∧
    (dominator.CertFile ≠ "" → (merge dominator defaults).CertFile = dominator.CertFile) ∧
    (dominator.KeyFile ≠ "" → (merge dominator defaults).KeyFile = dominator.KeyFile) ∧
    (dominator.StartTLSStr ≠ "" → (merge dominator defaults).StartTLSStr = dominator.StartTLSStr) ∧
    (dominator.OnlyTLSStr ≠ "" → (merge dominator defaults).OnlyTLSStr = dominator.OnlyTLSStr) ∧
    (dominator.RelayAPI ≠ "" → (merge dominator defaults).RelayAPI = dominator.RelayAPI) ∧
    (dominator.SetName ≠ "" → (merge dominator defaults).SetName = dominator.SetName) ∧
    (dominator.Ips ≠ "" → (merge dominator defaults).Ips = dominator.Ips) ∧
    (dominator.User ≠ "" → (merge dominator defaults).User = dominator.User) ∧
    (dominator.Debug ≠ "" → (merge dominator defaults).Debug = dominator.Debug) ∧
    (dominator.IpMap ≠ none → (merge dominator defaults).IpMap = dominator.IpMap) ∧
    (dominator.BcryptHash ≠ [] → (merge dominator defaults).BcryptHash = dominator.BcryptHash) ∧
    (dominator.Password ≠ [] → (merge dominator defaults).Password = dominator.Password) ∧
    (dominator.AllowFrom ≠ "" → (merge dominator defaults).AllowFrom = dominator.AllowFrom) ∧
    (dominator.AllowFromRegExp ≠ none → (merge dominator defaults).AllowFromRegExp = dominator.AllowFromRegExp) ∧
    (dominator.DenyTo ≠ "" → (merge dominator defaults).DenyTo = dominator.DenyTo) ∧
    (dominator.DenyToRegExp ≠ none → (merge dominator defaults).DenyToRegExp = dominator.DenyToRegExp) ∧
    (dominator.AllowTo ≠ "" → (merge dominator defaults).AllowTo = dominator.AllowTo) ∧
    (dominator.AllowToRegExp ≠ none → (merge dominator defaults).AllowToRegExp = dominator.AllowToRegExp) ∧
    (dominator.AllowToDomains ≠ "" → (merge dominator defaults).AllowToDomains = dominator.AllowToDomains) ∧
    (dominator.AllowToDomainsSlice ≠ [] → (merge dominator defaults).AllowToDomainsSlice = dominator.AllowToDomainsSlice) ∧
    (dominator.SourceArn ≠ "" → (merge dominator defaults).SourceArn = dominator.SourceArn) ∧
    (dominator.FromArn ≠ "" → (merge dominator defaults).FromArn = dominator.FromArn) ∧
    (dominator.ReturnPathArn ≠ "" → (merge dominator defaults).ReturnPathArn = dominator.ReturnPathArn) := by
  rw [merge_eq]
  refine ⟨?_, ?_, ?_, ?_, ?_, ?_, ?_, ?_, ?_, ?_, ?_, ?_, ?_, ?_, ?_, ?_, ?_, ?_, ?_, ?_, ?_, ?_, ?_, ?_, ?_, ?_, ?_, ?_, ?_⟩
  all_goals intro h
  all_goals first | rfl | simp [h]

theorem merge_override_wins_witness :
    (merge { emptyConfig with Addr := ":2525", User := "customuser" }
      { emptyConfig with Addr := ":1025", Name := "Default Name", User := "defaultuser",
                         AllowTo := "default", RelayAPI := "ses" }).Addr = ":2525" ∧
    (merge { emptyConfig with Addr := ":2525", User := "customuser" }
      { emptyConfig with Addr := ":1025", Name := "Default Name", User := "defaultuser",
                         AllowTo := "default", RelayAPI := "ses" }).User = "customuser" :=
  have h := merge_override_wins { emptyConfig with Addr := ":2525", User := "customuser" }
    { emptyConfig with Addr := ":1025", Name := "Default Name", User := "defaultuser",
                       AllowTo := "default", RelayAPI := "ses" }
  ⟨h.1 (by decide), h.2.2.2.2.2.2.2.2.2.2.2.2.2.1 (by decide)⟩

end config

/-! Section: Configuration resolution -/

namespace config

theorem compilePattern_error_iff (Compile : String → Except String Regexp) (tag p : String)
    (m : Option Regexp) :
    (∃ e, compilePattern Compile tag p m = Except.error e) ↔ fails Compile p := by
  unfold compilePattern fails
  by_cases hp : p = ""
  · simp [hp]
  · cases hc : Compile p <;> simp [hp]

theorem compilePattern_ok (Compile : String → Except String Regexp) (tag p : String)
    (m r : Option Regexp) (h : compilePattern Compile tag p m = Except.ok r) :
    (p ≠ "" → ∃ re, Compile p = Except.ok re ∧ r = some re) ∧ (p = "" → r = m) := by
  unfold compilePattern at h
  by_cases hp : p = ""
  · simp [hp] at h
    simp [hp, h]
  · cases hc : Compile p with
    | error msg => simp [hp, hc] at h
    | ok re =>
      simp [hp, hc] at h
      simp [hp, h]

theorem envAllowTo_error_iff (Compile : String → Except String Regexp)
    (LookupEnv : String → Option String) (cli : Config) :
    (∃ e, envAllowTo Compile LookupEnv cli = Except.error e) ↔
      ∃ v, LookupEnv "ALLOW_TO" = some v ∧ fails Compile v := by
  unfold envAllowTo fails
  cases hl : LookupEnv "ALLOW_TO" with
  | none => simp
  | some v =>
    by_cases hv : v = ""
    · simp [hv]
    · cases hc : Compile v <;> simp [hv, hc]

theorem Configure_eq_afterMerge (FlagCliArgs : Config)
    (Compile : String → Except String Regexp) (LookupEnv : String → Option String)
    (clis : List Config) :
    Configure FlagCliArgs Compile LookupEnv clis =
      afterMerge Compile LookupEnv (merged FlagCliArgs clis) := by
  unfold Configure merged
  dsimp only
  generalize merge _ FlagCliArgs = m
  rfl

/-- What `Configure` returns on success, stage by stage. -/
theorem Configure_ok_iff (FlagCliArgs : Config) (Compile : String → Except String Regexp)
    (LookupEnv : String → Option String) (clis : List Config) (cfg : Config) :
    Configure FlagCliArgs Compile LookupEnv clis = Except.ok cfg ↔
      ∃ r1 r2 r3 c4,
        compilePattern Compile "Allowed sender emails: " (merged FlagCliArgs clis).AllowFrom
          (merged FlagCliArgs clis).AllowFromRegExp = Except.ok r1 ∧
        compilePattern Compile "Denied recipient emails: " (merged FlagCliArgs clis).DenyTo
          (merged FlagCliArgs clis).DenyToRegExp = Except.ok r2 ∧
        compilePattern Compile "Allowed recipient emails: " (merged FlagCliArgs clis).AllowTo
          (merged FlagCliArgs clis).AllowToRegExp = Except.ok r3 ∧
        envAllowTo Compile LookupEnv (envCredentials LookupEnv (deriveLists
          { merged FlagCliArgs clis with
            AllowFromRegExp := r1, DenyToRegExp := r2, AllowToRegExp := r3 })) =
          Except.ok c4 ∧
        cfg = envAllowToDomains LookupEnv c4 := by
  rw [Configure_eq_afterMerge]
  generalize merged FlagCliArgs clis = m
  unfold afterMerge
  cases h1 : compilePattern Compile "Allowed sender emails: " m.AllowFrom m.AllowFromRegExp with
  | error e => simp
  | ok r1 =>
    cases h2 : compilePattern Compile "Denied recipient emails: " m.DenyTo m.DenyToRegExp with
    | error e => simp
    | ok r2 =>
      cases h3 : compilePattern Compile "Allowed recipient emails: " m.AllowTo
          m.AllowToRegExp with
      | error e => simp
      | ok r3 =>
        dsimp only
        cases h4 : envAllowTo Compile LookupEnv (envCredentials LookupEnv (deriveLists
          { m with AllowFromRegExp := r1, DenyToRegExp := r2, AllowToRegExp := r3 })) with
        | error e =>
          constructor
          · intro h
            cases h
          · rintro ⟨r1', r2', r3', c4', e1, e2, e3, e4, _⟩
            cases e1
            cases e2
            cases e3
            rw [h4] at e4
            cases e4
        | ok c4 =>
          constructor
          · intro h
            injection h with h
            exact ⟨r1, r2, r3, c4, rfl, rfl, rfl, h4, h.symm⟩
          · rintro ⟨r1', r2', r3', c4', e1, e2, e3, e4, e5⟩
            cases e1
            cases e2
            cases e3
            rw [h4] at e4
            cases e4
            rw [e5]

theorem Configure_error_iff (FlagCliArgs : Config) (Compile : String → Except String Regexp)
    (LookupEnv : String → Option String) (clis : List Config) :
    (∃ e, Configure FlagCliArgs Compile LookupEnv clis = Except.error e) ↔
      (fails Compile (merged FlagCliArgs clis).AllowFrom ∨
       fails Compile (merged FlagCliArgs clis).DenyTo ∨
       fails Compile (merged FlagCliArgs clis).AllowTo ∨
       ∃ v, LookupEnv "ALLOW_TO" = some v ∧ fails Compile v) := by
  rw [Configure_eq_afterMerge]
  generalize merged FlagCliArgs clis = m
  rw [← compilePattern_error_iff Compile "Allowed sender emails: " m.AllowFrom
      m.AllowFromRegExp,
    ← compilePattern_error_iff Compile "Denied recipient emails: " m.DenyTo m.DenyToRegExp,
    ← compilePattern_error_iff Compile "Allowed recipient emails: " m.AllowTo
      m.AllowToRegExp]
  unfold afterMerge
  cases h1 : compilePattern Compile "Allowed sender emails: " m.AllowFrom m.AllowFromRegExp with
  | error e => simp
  | ok r1 =>
    cases h2 : compilePattern Compile "Denied recipient emails: " m.DenyTo m.DenyToRegExp with
    | error e => simp
    | ok r2 =>
      cases h3 : compilePattern Compile "Allowed recipient emails: " m.AllowTo
          m.AllowToRegExp with
      | error e => simp
      | ok r3 =>
        dsimp only
        rw [← envAllowTo_error_iff Compile LookupEnv (envCredentials LookupEnv (deriveLists
          { m with AllowFromRegExp := r1, DenyToRegExp := r2, AllowToRegExp := r3 }))]
        cases h4 : envAllowTo Compile LookupEnv (envCredentials LookupEnv (deriveLists
          { m with AllowFromRegExp := r1, DenyToRegExp := r2, AllowToRegExp := r3 })) with
        | error e => simp
        | ok c4 => simp

end config

namespace config

theorem merged_matchers (FlagCliArgs : Config) (clis : List Config) :
    (merged FlagCliArgs clis).AllowFromRegExp = (clis.headD FlagCliArgs).AllowFromRegExp ∧
    (merged FlagCliArgs clis).DenyToRegExp = (clis.headD FlagCliArgs).DenyToRegExp ∧
    (merged FlagCliArgs clis).AllowToRegExp = (clis.headD FlagCliArgs).AllowToRegExp := by
  unfold merged
  rw [merge_eq]
  cases clis <;> exact ⟨rfl, rfl, rfl⟩

theorem deriveLists_eq (c : Config) :
    deriveLists c =
      { c with
        AllowToDomainsSlice :=
          if c.AllowToDomains ≠ "" then domainsLoop c.AllowToDomains
          else c.AllowToDomainsSlice
        IpMap :=
          if c.Ips ≠ "" then
            some ((strings.Split c.Ips ',').foldl (fun m ip => mapSet m ip true) [])
          else some [] } := by
  unfold deriveLists
  by_cases h1 : c.AllowToDomains = "" <;> by_cases h2 : c.Ips = "" <;> simp [h1, h2]

theorem envCredentials_eq (LookupEnv : String → Option String) (c : Config) :
    envCredentials LookupEnv c =
      { c with
        BcryptHash := match LookupEnv "BCRYPT_HASH" with
          | some bh => bytes bh
          | none => c.BcryptHash
        Password := match LookupEnv "PASSWORD" with
          | some pw => bytes pw
          | none => c.Password } := by
  unfold envCredentials
  cases LookupEnv "BCRYPT_HASH" <;> cases LookupEnv "PASSWORD" <;> rfl

theorem envAllowToDomains_eq (LookupEnv : String → Option String) (c : Config) :
    envAllowToDomains LookupEnv c =
      { c with
        AllowToDomains := match LookupEnv "ALLOW_TO_DOMAINS" with
          | some v => if v ≠ "" then v else c.AllowToDomains
          | none => c.AllowToDomains
        AllowToDomainsSlice := match LookupEnv "ALLOW_TO_DOMAINS" with
          | some v => if v ≠ "" then domainsLoop v else c.AllowToDomainsSlice
          | none => c.AllowToDomainsSlice } := by
  unfold envAllowToDomains
  cases LookupEnv "ALLOW_TO_DOMAINS" with
  | none => rfl
  | some v => by_cases hv : v = "" <;> simp [hv]

/-- The two outcomes of a successful `ALLOW_TO` block: the variable is set
to a non-empty pattern that compiles, and the two fields are replaced; or
it is unset or empty, and the configuration is unchanged. -/
theorem envAllowTo_ok (Compile : String → Except String Regexp)
    (LookupEnv : String → Option String) (c c4 : Config)
    (h : envAllowTo Compile LookupEnv c = Except.ok c4) :
    (∃ v re, LookupEnv "ALLOW_TO" = some v ∧ v ≠ "" ∧ Compile v = Except.ok re ∧
      c4 = { c with AllowTo := v, AllowToRegExp := some re }) ∨
    ((∀ v, LookupEnv "ALLOW_TO" = some v → v = "") ∧ c4 = c) := by
  unfold envAllowTo at h
  cases hl : LookupEnv "ALLOW_TO" with
  | none =>
    rw [hl] at h
    injection h with h
    exact Or.inr ⟨by simp, h.symm⟩
  | some v =>
    rw [hl] at h
    by_cases hv : v = ""
    · simp [hv] at h
      exact Or.inr ⟨by simp [hv], h.symm⟩
    · cases hc : Compile v with
      | error msg => simp [hv, hc] at h
      | ok re =>
        simp [hv, hc] at h
        exact Or.inl ⟨v, re, rfl, hv, hc, h.symm⟩

/-- The statement of claim C18 fails for an override that carries a
precompiled matcher next to an empty pattern: `Configure` returns a
snapshot whose `AllowFrom` is empty and whose `AllowFromRegExp` is not
nil. -/
theorem Configure_matcher_counterexample :
    ∃ cfg, Configure initCliArgs sampleCompile (fun _ => none)
        [{ emptyConfig with AllowFromRegExp := some (exactly "admin@example.org") }] =
        Except.ok cfg ∧
      cfg.AllowFrom = "" ∧ cfg.AllowFromRegExp.isSome = true :=
  ⟨_, rfl, rfl, rfl⟩

end config

/-! Section: The allow-domain list -/

namespace strings

theorem splitChars_ne_nil (sep : Char) (s : List Char) : splitChars sep s ≠ [] := by
  cases s with
  | nil => simp [splitChars]
  | cons c cs =>
    unfold splitChars
    split_ifs
    · simp
    · split <;> simp

theorem splitChars_no_sep (sep : Char) (s piece : List Char)
    (h : piece ∈ splitChars sep s) : sep ∉ piece := by
  induction s generalizing piece with
  | nil =>
    simp [splitChars] at h
    simp [h]
  | cons c cs ih =>
    unfold splitChars at h
    by_cases hc : c = sep
    · rw [if_pos hc] at h
      rcases List.mem_cons.1 h with h1 | h1
      · simp [h1]
      · exact ih piece h1
    · rw [if_neg hc] at h
      cases hs : splitChars sep cs with
      | nil => exact absurd hs (splitChars_ne_nil sep cs)
      | cons p ps =>
        rw [hs] at h
        rcases List.mem_cons.1 h with h1 | h1
        · rw [h1]
          intro hm
          rcases List.mem_cons.1 hm with h2 | h2
          · exact hc h2.symm
          · exact ih p (hs ▸ List.mem_cons_self _ _) h2
        · exact ih piece (hs ▸ List.mem_cons_of_mem _ h1)

theorem TrimSpace_data (s : String) :
    (TrimSpace s).data = (s.data.dropWhile isSpace).rdropWhile isSpace := rfl

theorem TrimSpace_mem (s : String) (c : Char) (h : c ∈ (TrimSpace s).data) : c ∈ s.data := by
  rw [TrimSpace_data] at h
  exact (List.dropWhile_sublist isSpace).subset
    ((List.rdropWhile_prefix isSpace _).sublist.subset h)

theorem TrimSpace_head (s : String) (c : Char) (h : (TrimSpace s).data.head? = some c) :
    isSpace c = false := by
  rw [TrimSpace_data] at h
  obtain ⟨r, hr⟩ := List.rdropWhile_prefix isSpace (s.data.dropWhile isSpace)
  have hh := List.head?_dropWhile_not isSpace s.data
  rw [← hr] at hh
  cases ht : List.rdropWhile isSpace (List.dropWhile isSpace s.data) with
  | nil => simp [ht] at h
  | cons x xs =>
    rw [ht] at h hh
    simp at h hh
    rw [← h]
    exact hh

theorem TrimSpace_last (s : String) (c : Char) (h : (TrimSpace s).data.getLast? = some c) :
    isSpace c = false := by
  rw [TrimSpace_data] at h
  have hne : List.rdropWhile isSpace (List.dropWhile isSpace s.data) ≠ [] := by
    intro he
    simp [he] at h
  have hl := List.rdropWhile_last_not isSpace (List.dropWhile isSpace s.data) hne
  rw [List.getLast?_eq_getLast _ hne] at h
  injection h with h
  rw [← h]
  simpa using hl

end strings

namespace config

theorem foldl_append_filter {α β : Type} (f : α → β) (p : β → Bool) (l : List α)
    (init : List β) :
    l.foldl (fun acc x => if p (f x) then acc ++ [f x] else acc) init =
      init ++ (l.map f).filter p := by
  induction l generalizing init with
  | nil => simp
  | cons x xs ih =>
    rw [List.foldl_cons, ih]
    by_cases hp : p (f x) = true
    · simp [hp, List.filter_cons]
    · simp [hp, List.filter_cons]

theorem domainsLoop_eq_domainList (s : String) : domainsLoop s = domainList s := by
  unfold domainsLoop domainList
  have h := foldl_append_filter strings.TrimSpace (fun d => decide (d ≠ ""))
    (strings.Split s ',') []
  simp only [List.nil_append, decide_eq_true_eq] at h
  exact h

theorem domainList_entry (s e : String) (h : e ∈ domainList s) :
    e ≠ "" ∧ (∀ c, e.data.head? = some c → strings.isSpace c = false) ∧
    (∀ c, e.data.getLast? = some c → strings.isSpace c = false) ∧ ',' ∉ e.data := by
  unfold domainList at h
  obtain ⟨hm, hne⟩ := List.mem_filter.1 h
  obtain ⟨piece, hp, rfl⟩ := List.mem_map.1 hm
  refine ⟨by simpa using hne, strings.TrimSpace_head piece, strings.TrimSpace_last piece, ?_⟩
  intro hc
  have hc2 := strings.TrimSpace_mem piece ',' hc
  unfold strings.Split at hp
  obtain ⟨chars, hchars, rfl⟩ := List.mem_map.1 hp
  exact strings.splitChars_no_sep ',' s.data chars hchars hc2

theorem Configure_ok_domains (FlagCliArgs : Config)
    (Compile : String → Except String Regexp) (LookupEnv : String → Option String)
    (clis : List Config) (cfg : Config)
    (h : Configure FlagCliArgs Compile LookupEnv clis = Except.ok cfg) :
    ((∃ v, LookupEnv "ALLOW_TO_DOMAINS" = some v ∧ v ≠ "" ∧ cfg.AllowToDomains = v ∧
        cfg.AllowToDomainsSlice = domainsLoop v) ∨
     ((∀ v, LookupEnv "ALLOW_TO_DOMAINS" = some v → v = "") ∧
        cfg.AllowToDomains = (merged FlagCliArgs clis).AllowToDomains ∧
        ((merged FlagCliArgs clis).AllowToDomains ≠ "" →
          cfg.AllowToDomainsSlice = domainsLoop (merged FlagCliArgs clis).AllowToDomains) ∧
        ((merged FlagCliArgs clis).AllowToDomains = "" →
          cfg.AllowToDomainsSlice = (merged FlagCliArgs clis).AllowToDomainsSlice))) ∧
    (∀ v, LookupEnv "BCRYPT_HASH" = some v → cfg.BcryptHash = bytes v) ∧
    (∀ v, LookupEnv "PASSWORD" = some v → cfg.Password = bytes v) := by
  obtain ⟨r1, r2, r3, c4, h1, h2, h3, h4, h5⟩ :=
    (Configure_ok_iff FlagCliArgs Compile LookupEnv clis cfg).1 h
  generalize merged FlagCliArgs clis = m at *
  rw [envAllowToDomains_eq] at h5
  have hc4 : c4.AllowToDomains = m.AllowToDomains ∧
      c4.AllowToDomainsSlice =
        (if m.AllowToDomains ≠ "" then domainsLoop m.AllowToDomains
          else m.AllowToDomainsSlice) ∧
      (∀ v, LookupEnv "BCRYPT_HASH" = some v → c4.BcryptHash = bytes v) ∧
      (∀ v, LookupEnv "PASSWORD" = some v → c4.Password = bytes v) := by
    rcases envAllowTo_ok _ _ _ _ h4 with ⟨v, re, _, _, _, e4⟩ | ⟨_, e4⟩
    · subst e4
      rw [envCredentials_eq, deriveLists_eq]
      refine ⟨rfl, rfl, ?_, ?_⟩ <;> intro v hv <;> simp [hv]
    · subst e4
      rw [envCredentials_eq, deriveLists_eq]
      refine ⟨rfl, rfl, ?_, ?_⟩ <;> intro v hv <;> simp [hv]
  obtain ⟨k1, k2, k3, k4⟩ := hc4
  subst h5
  refine ⟨?_, k3, k4⟩
  cases hl : LookupEnv "ALLOW_TO_DOMAINS" with
  | none =>
    refine Or.inr ⟨by simp, k1, ?_, ?_⟩
    · intro hne
      show c4.AllowToDomainsSlice = _
      rw [k2, if_pos hne]
    · intro he
      show c4.AllowToDomainsSlice = _
      rw [k2, if_neg (by simpa using he)]
  | some v =>
    by_cases hv : v = ""
    · refine Or.inr ⟨by simp [hv], ?_, ?_, ?_⟩
      · show (if v ≠ "" then v else c4.AllowToDomains) = _
        rw [if_neg (by simpa using hv), k1]
      · intro hne
        show (if v ≠ "" then domainsLoop v else c4.AllowToDomainsSlice) = _
        rw [if_neg (by simpa using hv), k2, if_pos hne]
      · intro he
        show (if v ≠ "" then domainsLoop v else c4.AllowToDomainsSlice) = _
        rw [if_neg (by simpa using hv), k2, if_neg (by simpa using he)]
    · refine Or.inl ⟨v, rfl, hv, ?_, ?_⟩
      · show (if v ≠ "" then v else c4.AllowToDomains) = _
        rw [if_pos hv]
      · show (if v ≠ "" then domainsLoop v else c4.AllowToDomainsSlice) = _
        rw [if_pos hv]

end config

namespace config

/-- The pattern and matcher fields of the snapshot that `Configure`
returns, in terms of the merged configuration. -/
theorem Configure_ok_patterns (FlagCliArgs : Config)
    (Compile : String → Except String Regexp) (LookupEnv : String → Option String)
    (clis : List Config) (cfg : Config)
    (h : Configure FlagCliArgs Compile LookupEnv clis = Except.ok cfg) :
    cfg.AllowFrom = (merged FlagCliArgs clis).AllowFrom ∧
    cfg.DenyTo = (merged FlagCliArgs clis).DenyTo ∧
    ((merged FlagCliArgs clis).AllowFrom ≠ "" →
      ∃ re, Compile (merged FlagCliArgs clis).AllowFrom = Except.ok re ∧
        cfg.AllowFromRegExp = some re) ∧
    ((merged FlagCliArgs clis).AllowFrom = "" →
      cfg.AllowFromRegExp = (merged FlagCliArgs clis).AllowFromRegExp) ∧
    ((merged FlagCliArgs clis).DenyTo ≠ "" →
      ∃ re, Compile (merged FlagCliArgs clis).DenyTo = Except.ok re ∧
        cfg.DenyToRegExp = some re) ∧
    ((merged FlagCliArgs clis).DenyTo = "" →
      cfg.DenyToRegExp = (merged FlagCliArgs clis).DenyToRegExp) ∧
    ((∃ v re, LookupEnv "ALLOW_TO" = some v ∧ v ≠ "" ∧ Compile v = Except.ok re ∧
        cfg.AllowTo = v ∧ cfg.AllowToRegExp = some re) ∨
     ((∀ v, LookupEnv "ALLOW_TO" = some v → v = "") ∧
        cfg.AllowTo = (merged FlagCliArgs clis).AllowTo ∧
        ((merged FlagCliArgs clis).AllowTo ≠ "" →
          ∃ re, Compile (merged FlagCliArgs clis).AllowTo = Except.ok re ∧
            cfg.AllowToRegExp = some re) ∧
        ((merged FlagCliArgs clis).AllowTo = "" →
          cfg.AllowToRegExp = (merged FlagCliArgs clis).AllowToRegExp))) := by
  obtain ⟨r1, r2, r3, c4, h1, h2, h3, h4, h5⟩ :=
    (Configure_ok_iff FlagCliArgs Compile LookupEnv clis cfg).1 h
  generalize merged FlagCliArgs clis = m at *
  have p1 := compilePattern_ok _ _ _ _ _ h1
  have p2 := compilePattern_ok _ _ _ _ _ h2
  have p3 := compilePattern_ok _ _ _ _ _ h3
  rw [envAllowToDomains_eq] at h5
  rcases envAllowTo_ok _ _ _ _ h4 with ⟨v, re, hl, hv, hc, e4⟩ | ⟨hl, e4⟩
  · subst e4
    subst h5
    rw [envCredentials_eq, deriveLists_eq]
    exact ⟨rfl, rfl, p1.1, p1.2, p2.1, p2.2, Or.inl ⟨v, re, hl, hv, hc, rfl, rfl⟩⟩
  · subst e4
    subst h5
    rw [envCredentials_eq, deriveLists_eq]
    exact ⟨rfl, rfl, p1.1, p1.2, p2.1, p2.2, Or.inr ⟨hl, rfl, p3.1, p3.2⟩⟩

theorem Configure_ok_of_not_fails (FlagCliArgs : Config)
    (Compile : String → Except String Regexp) (LookupEnv : String → Option String)
    (clis : List Config)
    (hn : ¬ (fails Compile (merged FlagCliArgs clis).AllowFrom ∨
        fails Compile (merged FlagCliArgs clis).DenyTo ∨
        fails Compile (merged FlagCliArgs clis).AllowTo ∨
        ∃ v, LookupEnv "ALLOW_TO" = some v ∧ fails Compile v)) :
    ∃ cfg, Configure FlagCliArgs Compile LookupEnv clis = Except.ok cfg := by
  cases hc : Configure FlagCliArgs Compile LookupEnv clis with
  | error e =>
    exact absurd ((Configure_error_iff FlagCliArgs Compile LookupEnv clis).1 ⟨e, hc⟩) hn
  | ok cfg => exact ⟨cfg, rfl⟩

/-- Claim C18, amended: with `regexp.Compile` as a fallible function,
`Configure` returns an error and no snapshot if and only if the merged
`AllowFrom`, `DenyTo` or `AllowTo` is not empty and fails to compile, or the
`ALLOW_TO` environment variable is set to a non-empty value that fails to
compile; in every other case it returns a snapshot and no error. In the
snapshot each non-empty pattern field has a non-nil matcher, and each empty
pattern field keeps the matcher of the configuration that was passed in
(the first argument, or `FlagCliArgs` when there is none), which is nil
when that configuration carries no precompiled matcher. -/
theorem Configure_patterns (FlagCliArgs : Config)
    (Compile : String → Except String Regexp) (LookupEnv : String → Option String)
    (clis : List Config) :
    ((∃ e, Configure FlagCliArgs Compile LookupEnv clis = Except.error e) ↔
      (fails Compile (merged FlagCliArgs clis).AllowFrom ∨
       fails Compile (merged FlagCliArgs clis).DenyTo ∨
       fails Compile (merged FlagCliArgs clis).AllowTo ∨
       ∃ v, LookupEnv "ALLOW_TO" = some v ∧ fails Compile v)) ∧
    (¬ (fails Compile (merged FlagCliArgs clis).AllowFrom ∨
        fails Compile (merged FlagCliArgs clis).DenyTo ∨
        fails Compile (merged FlagCliArgs clis).AllowTo ∨
        ∃ v, LookupEnv "ALLOW_TO" = some v ∧ fails Compile v) →
      ∃ cfg, Configure FlagCliArgs Compile LookupEnv clis = Except.ok cfg) ∧
    (∀ cfg, Configure FlagCliArgs Compile LookupEnv clis = Except.ok cfg →
      (cfg.AllowFrom ≠ "" → cfg.AllowFromRegExp ≠ none) ∧
      (cfg.DenyTo ≠ "" → cfg.DenyToRegExp ≠ none) ∧
      (cfg.AllowTo ≠ "" → cfg.AllowToRegExp ≠ none) ∧
      (cfg.AllowFrom = "" →
        cfg.AllowFromRegExp = (clis.headD FlagCliArgs).AllowFromRegExp) ∧
      (cfg.DenyTo = "" → cfg.DenyToRegExp = (clis.headD FlagCliArgs).DenyToRegExp) ∧
      (cfg.AllowTo = "" → cfg.AllowToRegExp = (clis.headD FlagCliArgs).AllowToRegExp) ∧
      ((clis.headD FlagCliArgs).AllowFromRegExp = none → cfg.AllowFrom = "" →
        cfg.AllowFromRegExp = none) ∧
      ((clis.headD FlagCliArgs).DenyToRegExp = none → cfg.DenyTo = "" →
        cfg.DenyToRegExp = none) ∧
      ((clis.headD FlagCliArgs).AllowToRegExp = none → cfg.AllowTo = "" →
        cfg.AllowToRegExp = none)) := by
  have herr := Configure_error_iff FlagCliArgs Compile LookupEnv clis
  refine ⟨herr, Configure_ok_of_not_fails FlagCliArgs Compile LookupEnv clis, ?_⟩
  · intro cfg h
    obtain ⟨m1, m2, m3⟩ := merged_matchers FlagCliArgs clis
    obtain ⟨e1, e2, a1, a2, d1, d2, t⟩ :=
      Configure_ok_patterns FlagCliArgs Compile LookupEnv clis cfg h
    have hAF : cfg.AllowFrom = "" →
        cfg.AllowFromRegExp = (clis.headD FlagCliArgs).AllowFromRegExp := by
      intro he
      rw [← m1]
      exact a2 (e1 ▸ he)
    have hDT : cfg.DenyTo = "" →
        cfg.DenyToRegExp = (clis.headD FlagCliArgs).DenyToRegExp := by
      intro he
      rw [← m2]
      exact d2 (e2 ▸ he)
    have hAT : cfg.AllowTo = "" →
        cfg.AllowToRegExp = (clis.headD FlagCliArgs).AllowToRegExp := by
      intro he
      rcases t with ⟨v, re, _, hv, _, hv2, _⟩ | ⟨_, e3, _, t2⟩
      · exact absurd (hv2 ▸ he) hv
      · rw [← m3]
        exact t2 (e3 ▸ he)
    refine ⟨?_, ?_, ?_, hAF, hDT, hAT, fun h0 he => (hAF he).trans h0,
      fun h0 he => (hDT he).trans h0, fun h0 he => (hAT he).trans h0⟩
    · intro hne
      obtain ⟨re, _, hre⟩ := a1 (e1 ▸ hne)
      simp [hre]
    · intro hne
      obtain ⟨re, _, hre⟩ := d1 (e2 ▸ hne)
      simp [hre]
    · intro hne
      rcases t with ⟨v, re, _, _, _, _, hre⟩ | ⟨_, e3, t1, _⟩
      · simp [hre]
      · obtain ⟨re, _, hre⟩ := t1 (e3 ▸ hne)
        simp [hre]

theorem Configure_patterns_witness :
    (∃ e, Configure initCliArgs sampleCompile (fun _ => none)
      [{ emptyConfig with AllowFrom := "(" }] = Except.error e) ∧
    (∃ cfg, Configure initCliArgs sampleCompile (envWith "ALLOW_TO" "example")
      [{ emptyConfig with DenyTo := "bob" }] = Except.ok cfg) :=
  have h1 := Configure_patterns initCliArgs sampleCompile (fun _ => none)
    [{ emptyConfig with AllowFrom := "(" }]
  have h2 := Configure_patterns initCliArgs sampleCompile (envWith "ALLOW_TO" "example")
    [{ emptyConfig with DenyTo := "bob" }]
  ⟨h1.1.2 (Or.inl ⟨by decide, _, rfl⟩),
   h2.2.1 (by
    have e1 : (merged initCliArgs [{ emptyConfig with DenyTo := "bob" }]).AllowFrom = "" := by
      unfold merged; rw [merge_eq]; rfl
    have e2 : (merged initCliArgs [{ emptyConfig with DenyTo := "bob" }]).DenyTo = "bob" := by
      unfold merged; rw [merge_eq]; rfl
    have e3 : (merged initCliArgs [{ emptyConfig with DenyTo := "bob" }]).AllowTo = "" := by
      unfold merged; rw [merge_eq]; rfl
    rw [e1, e2, e3]
    unfold fails
    rintro (⟨h, _⟩ | ⟨_, msg, h⟩ | ⟨h, _⟩ | ⟨v, hv, _, msg, h⟩)
    · exact h rfl
    · simp [sampleCompile] at h
    · exact h rfl
    · have hv2 : v = "example" := by
        simp [envWith] at hv
        exact hv.symm
      subst hv2
      simp [sampleCompile] at h)⟩

end config

namespace config

/-- Claim C19: `Configure` returns a snapshot unless a pattern fails to
compile, and whenever the snapshot has a non-empty `AllowToDomains` string
(the configured one, unless `ALLOW_TO_DOMAINS` replaces it), its
`AllowToDomainsSlice` is the list obtained by splitting the string on
commas, trimming the white space around each piece and dropping the pieces
that are empty after trimming, in input order; so every entry is non-empty,
has no leading or trailing white space and contains no comma. The string
` example.org , example.com , ` yields the two domains. -/
theorem Configure_domain_slice (FlagCliArgs : Config)
    (Compile : String → Except String Regexp) (LookupEnv : String → Option String)
    (clis : List Config) :
    (¬ (fails Compile (merged FlagCliArgs clis).AllowFrom ∨
        fails Compile (merged FlagCliArgs clis).DenyTo ∨
        fails Compile (merged FlagCliArgs clis).AllowTo ∨
        ∃ v, LookupEnv "ALLOW_TO" = some v ∧ fails Compile v) →
      ∃ cfg, Configure FlagCliArgs Compile LookupEnv clis = Except.ok cfg) ∧
    (∀ cfg, Configure FlagCliArgs Compile LookupEnv clis = Except.ok cfg →
      ((∀ v, LookupEnv "ALLOW_TO_DOMAINS" = some v → v = "") →
        cfg.AllowToDomains = (merged FlagCliArgs clis).AllowToDomains) ∧
      (cfg.AllowToDomains ≠ "" →
        cfg.AllowToDomainsSlice = domainList cfg.AllowToDomains ∧
        (∀ e ∈ cfg.AllowToDomainsSlice,
          e ≠ "" ∧ (∀ c, e.data.head? = some c → strings.isSpace c = false) ∧
          (∀ c, e.data.getLast? = some c → strings.isSpace c = false) ∧
          ',' ∉ e.data))) ∧
    domainList " example.org , example.com , " = ["example.org", "example.com"] := by
  refine ⟨Configure_ok_of_not_fails FlagCliArgs Compile LookupEnv clis, ?_, by decide⟩
  intro cfg h
  have hd := (Configure_ok_domains FlagCliArgs Compile LookupEnv clis cfg h).1
  constructor
  · intro hl
    rcases hd with ⟨v, hv, hne, _, _⟩ | ⟨_, h1, _, _⟩
    · exact absurd (hl v hv) hne
    · exact h1
  · intro hne
    have hs : cfg.AllowToDomainsSlice = domainList cfg.AllowToDomains := by
      rcases hd with ⟨v, _, _, h1, h2⟩ | ⟨_, h1, h2, _⟩
      · rw [h2, h1, domainsLoop_eq_domainList]
      · rw [h2 (h1 ▸ hne), h1, domainsLoop_eq_domainList]
    refine ⟨hs, ?_⟩
    intro e he
    rw [hs] at he
    exact domainList_entry _ e he

theorem Configure_domain_slice_witness :
    ∃ cfg, Configure initCliArgs sampleCompile (fun _ => none)
        [{ emptyConfig with AllowToDomains := " example.org , example.com , " }] =
        Except.ok cfg ∧
      cfg.AllowToDomains ≠ "" ∧
      cfg.AllowToDomainsSlice = ["example.org", "example.com"] :=
  ⟨_, rfl, by decide,
    ((Configure_domain_slice initCliArgs sampleCompile (fun _ => none)
      [{ emptyConfig with AllowToDomains := " example.org , example.com , " }]).2.1 _ rfl).2
      (by decide) |>.1.trans (by decide)⟩

theorem not_fails_empty (Compile : String → Except String Regexp) : ¬ fails Compile "" :=
  fun h => h.1 rfl

theorem not_fails_sampleCompile (p : String) (h : p ≠ "(") : ¬ fails sampleCompile p := by
  rintro ⟨_, msg, hm⟩
  simp [sampleCompile, h] at hm

/-- The statement of claim C20 fails when a configured pattern does not
compile: with the configured `AllowTo` equal to `(` and `ALLOW_TO` set to a
pattern that compiles, `Configure` returns an error and no snapshot. -/
theorem Configure_env_counterexample :
    sampleEnv "ALLOW_TO" = some "example" ∧
    (∃ re, sampleCompile "example" = Except.ok re) ∧
    (∃ e, Configure initCliArgs sampleCompile sampleEnv
      [{ emptyConfig with AllowTo := "(" }] = Except.error e) :=
  ⟨rfl, ⟨_, rfl⟩, ⟨_, rfl⟩⟩

/-- Claim C20, amended: environment values take precedence over both base
and override whenever `Configure` returns a snapshot, which it does when
the merged `AllowFrom`, `DenyTo` and `AllowTo` are each empty or compile and
`ALLOW_TO` is unset, empty or compiles. Then, if `ALLOW_TO` is set to a
non-empty pattern, `AllowTo` is the environment value and `AllowToRegExp` is
compiled from it; if `ALLOW_TO_DOMAINS` is set to a non-empty value,
`AllowToDomains` is the environment value and `AllowToDomainsSlice` is the
parsed environment list alone; and a set `BCRYPT_HASH` or `PASSWORD`
replaces the configured `BcryptHash` or `Password`. -/
theorem Configure_env_precedence (FlagCliArgs : Config)
    (Compile : String → Except String Regexp) (LookupEnv : String → Option String)
    (clis : List Config)
    (h1 : ¬ fails Compile (merged FlagCliArgs clis).AllowFrom)
    (h2 : ¬ fails Compile (merged FlagCliArgs clis).DenyTo)
    (h3 : ¬ fails Compile (merged FlagCliArgs clis).AllowTo)
    (h4 : ∀ v, LookupEnv "ALLOW_TO" = some v → ¬ fails Compile v) :
    ∃ cfg, Configure FlagCliArgs Compile LookupEnv clis = Except.ok cfg ∧
      (∀ v, LookupEnv "ALLOW_TO" = some v → v ≠ "" →
        cfg.AllowTo = v ∧ ∃ re, Compile v = Except.ok re ∧ cfg.AllowToRegExp = some re) ∧
      (∀ v, LookupEnv "ALLOW_TO_DOMAINS" = some v → v ≠ "" →
        cfg.AllowToDomains = v ∧ cfg.AllowToDomainsSlice = domainList v) ∧
      (∀ v, LookupEnv "BCRYPT_HASH" = some v → cfg.BcryptHash = bytes v) ∧
      (∀ v, LookupEnv "PASSWORD" = some v → cfg.Password = bytes v) := by
  cases hc : Configure FlagCliArgs Compile LookupEnv clis with
  | error e =>
    rcases (Configure_error_iff FlagCliArgs Compile LookupEnv clis).1 ⟨e, hc⟩ with
      h | h | h | ⟨v, hv, h⟩
    · exact absurd h h1
    · exact absurd h h2
    · exact absurd h h3
    · exact absurd h (h4 v hv)
  | ok cfg =>
    obtain ⟨d1, d2, d3⟩ := Configure_ok_domains FlagCliArgs Compile LookupEnv clis cfg hc
    obtain ⟨_, _, _, _, _, _, t⟩ :=
      Configure_ok_patterns FlagCliArgs Compile LookupEnv clis cfg hc
    refine ⟨cfg, rfl, ?_, ?_, d2, d3⟩
    · intro v hv hne
      rcases t with ⟨v', re, hv', _, hre, e1, e2⟩ | ⟨hl, _⟩
      · have hvv : v' = v := by
          rw [hv'] at hv
          exact Option.some.inj hv
        subst hvv
        exact ⟨e1, re, hre, e2⟩
      · exact absurd (hl v hv) hne
    · intro v hv hne
      rcases d1 with ⟨v', hv', _, e1, e2⟩ | ⟨hl, _⟩
      · have hvv : v' = v := by
          rw [hv'] at hv
          exact Option.some.inj hv
        subst hvv
        exact ⟨e1, by rw [e2, domainsLoop_eq_domainList]⟩
      · exact absurd (hl v hv) hne

theorem Configure_env_precedence_witness :
    ∃ cfg, Configure initCliArgs sampleCompile sampleEnv
        [{ emptyConfig with AllowTo := "bob", AllowToDomains := "other.org" }] =
        Except.ok cfg ∧
      cfg.AllowTo = "example" ∧
      cfg.AllowToDomainsSlice = ["example.org", "example.com"] :=
  have e1 : (merged initCliArgs
      [{ emptyConfig with AllowTo := "bob", AllowToDomains := "other.org" }]).AllowFrom =
      "" := by
    unfold merged; rw [merge_eq]; rfl
  have e2 : (merged initCliArgs
      [{ emptyConfig with AllowTo := "bob", AllowToDomains := "other.org" }]).DenyTo =
      "" := by
    unfold merged; rw [merge_eq]; rfl
  have e3 : (merged initCliArgs
      [{ emptyConfig with AllowTo := "bob", AllowToDomains := "other.org" }]).AllowTo =
      "bob" := by
    unfold merged; rw [merge_eq]; rfl
  have h := Configure_env_precedence initCliArgs sampleCompile sampleEnv
    [{ emptyConfig with AllowTo := "bob", AllowToDomains := "other.org" }]
    (e1 ▸ not_fails_empty _) (e2 ▸ not_fails_empty _)
    (e3 ▸ not_fails_sampleCompile "bob" (by decide))
    (fun v hv => by
      have hv2 : v = "example" := by
        simp [sampleEnv] at hv
        exact hv.symm
      subst hv2
      exact not_fails_sampleCompile "example" (by decide))
  h.elim fun cfg hc =>
    ⟨cfg, hc.1, (hc.2.1 "example" rfl (by decide)).1,
      (hc.2.2.1 "example.org,example.com" rfl (by decide)).2.trans (by decide)⟩

end config

/-! Section: The IP allow-set and the backend selector -/

namespace config

theorem mapKeys_mapSet (m : List (String × Bool)) (k : String) (v : Bool) :
    mapKeys (mapSet m k v) = if k ∈ mapKeys m then mapKeys m else mapKeys m ++ [k] := by
  induction m with
  | nil => simp [mapSet, mapKeys]
  | cons p rest ih =>
    obtain ⟨k', v'⟩ := p
    unfold mapKeys at ih ⊢
    by_cases hk : k' = k
    · simp [mapSet, hk]
    · have hk2 : ¬ k = k' := fun e => hk e.symm
      by_cases hm : k ∈ List.map Prod.fst rest
      · simp [mapSet, hk, hk2, hm, ih]
      · simp [mapSet, hk, hk2, hm, ih]

theorem mapSet_values (m : List (String × Bool)) (k : String)
    (h : ∀ p ∈ m, p.2 = true) : ∀ p ∈ mapSet m k true, p.2 = true := by
  induction m with
  | nil => simp [mapSet]
  | cons q rest ih =>
    obtain ⟨k', v'⟩ := q
    have hrest : ∀ p ∈ rest, p.2 = true := fun p hp => h p (List.mem_cons_of_mem _ hp)
    by_cases hk : k' = k
    · intro p hp
      simp [mapSet, hk] at hp
      rcases hp with rfl | hp
      · rfl
      · exact hrest p hp
    · intro p hp
      simp [mapSet, hk] at hp
      rcases hp with rfl | hp
      · exact h _ (List.mem_cons_self _ _)
      · exact ih hrest p hp

/-- The map built by the loop `IpMap[ip] = true` over `pieces`, from a map
`init` with distinct keys and values true. -/
theorem foldl_mapSet (pieces : List String) (init : List (String × Bool))
    (hn : (mapKeys init).Nodup) (hv : ∀ p ∈ init, p.2 = true) :
    (∀ k, k ∈ mapKeys (pieces.foldl (fun m ip => mapSet m ip true) init) ↔
      k ∈ mapKeys init ∨ k ∈ pieces) ∧
    (mapKeys (pieces.foldl (fun m ip => mapSet m ip true) init)).Nodup ∧
    (∀ p ∈ pieces.foldl (fun m ip => mapSet m ip true) init, p.2 = true) := by
  induction pieces generalizing init with
  | nil => exact ⟨fun k => by simp, hn, hv⟩
  | cons ip rest ih =>
    have hn2 : (mapKeys (mapSet init ip true)).Nodup := by
      rw [mapKeys_mapSet]
      split_ifs with hm
      · exact hn
      · exact List.Nodup.append hn (List.nodup_singleton ip) (by simpa using hm)
    obtain ⟨h1, h2, h3⟩ := ih (mapSet init ip true) hn2 (mapSet_values init ip hv)
    refine ⟨?_, h2, h3⟩
    intro k
    rw [List.foldl_cons, h1, mapKeys_mapSet]
    split_ifs with hm
    · constructor
      · rintro (h | h)
        · exact Or.inl h
        · exact Or.inr (List.mem_cons_of_mem _ h)
      · rintro (h | h)
        · exact Or.inl h
        · rcases List.mem_cons.1 h with rfl | h
          · exact Or.inl hm
          · exact Or.inr h
    · simp only [List.mem_append, List.mem_singleton, List.mem_cons]
      tauto

theorem ipMap_of_pieces (pieces : List String) :
    (∀ k, k ∈ mapKeys (pieces.foldl (fun m ip => mapSet m ip true) []) ↔ k ∈ pieces) ∧
    (mapKeys (pieces.foldl (fun m ip => mapSet m ip true) [])).Nodup ∧
    (∀ p ∈ pieces.foldl (fun m ip => mapSet m ip true) [], p.2 = true) ∧
    (pieces.foldl (fun m ip => mapSet m ip true) []).length = pieces.dedup.length := by
  obtain ⟨h1, h2, h3⟩ := foldl_mapSet pieces [] (by simp [mapKeys]) (by simp)
  have h1' : ∀ k, k ∈ mapKeys (pieces.foldl (fun m ip => mapSet m ip true) []) ↔
      k ∈ pieces := by
    intro k
    rw [h1]
    simp [mapKeys]
  refine ⟨h1', h2, h3, ?_⟩
  have hp : List.Perm (mapKeys (pieces.foldl (fun m ip => mapSet m ip true) []))
      pieces.dedup := by
    rw [List.perm_ext_iff_of_nodup h2 (List.nodup_dedup pieces)]
    intro k
    rw [h1', List.mem_dedup]
  have hl := hp.length_eq
  unfold mapKeys at hl
  rw [List.length_map] at hl
  exact hl

/-- The fields `Ips`, `IpMap` and `RelayAPI` of the snapshot that
`Configure` returns. -/
theorem Configure_ok_ips (FlagCliArgs : Config)
    (Compile : String → Except String Regexp) (LookupEnv : String → Option String)
    (clis : List Config) (cfg : Config)
    (h : Configure FlagCliArgs Compile LookupEnv clis = Except.ok cfg) :
    cfg.Ips = (merged FlagCliArgs clis).Ips ∧
    cfg.RelayAPI = (merged FlagCliArgs clis).RelayAPI ∧
    cfg.IpMap =
      (if (merged FlagCliArgs clis).Ips ≠ "" then
        some ((strings.Split (merged FlagCliArgs clis).Ips ',').foldl
          (fun m ip => mapSet m ip true) [])
      else some []) := by
  obtain ⟨r1, r2, r3, c4, h1, h2, h3, h4, h5⟩ :=
    (Configure_ok_iff FlagCliArgs Compile LookupEnv clis cfg).1 h
  generalize merged FlagCliArgs clis = m at *
  rw [envAllowToDomains_eq] at h5
  rcases envAllowTo_ok _ _ _ _ h4 with ⟨v, re, _, _, _, e4⟩ | ⟨_, e4⟩
  · subst e4
    subst h5
    rw [envCredentials_eq, deriveLists_eq]
    exact ⟨rfl, rfl, rfl⟩
  · subst e4
    subst h5
    rw [envCredentials_eq, deriveLists_eq]
    exact ⟨rfl, rfl, rfl⟩

/-- Claim C21: `Configure` returns a snapshot unless a pattern fails to
compile, and in the snapshot `IpMap` is a membership set of the pieces of
the merged `Ips` string between commas: for a non-empty `Ips` it is a
non-nil map whose keys are exactly the pieces (compared without trimming),
each once and with value true, so its size is the number of distinct
pieces; for an empty `Ips` it is the empty map, not nil. -/
theorem Configure_ip_map (FlagCliArgs : Config)
    (Compile : String → Except String Regexp) (LookupEnv : String → Option String)
    (clis : List Config) :
    (¬ (fails Compile (merged FlagCliArgs clis).AllowFrom ∨
        fails Compile (merged FlagCliArgs clis).DenyTo ∨
        fails Compile (merged FlagCliArgs clis).AllowTo ∨
        ∃ v, LookupEnv "ALLOW_TO" = some v ∧ fails Compile v) →
      ∃ cfg, Configure FlagCliArgs Compile LookupEnv clis = Except.ok cfg) ∧
    (∀ cfg, Configure FlagCliArgs Compile LookupEnv clis = Except.ok cfg →
      cfg.Ips = (merged FlagCliArgs clis).Ips ∧
      (cfg.Ips = "" → cfg.IpMap = some []) ∧
      (cfg.Ips ≠ "" → ∃ m, cfg.IpMap = some m ∧
        (∀ k, k ∈ mapKeys m ↔ k ∈ strings.Split cfg.Ips ',') ∧
        (mapKeys m).Nodup ∧
        (∀ p ∈ m, p.2 = true) ∧
        m.length = (strings.Split cfg.Ips ',').dedup.length)) := by
  refine ⟨Configure_ok_of_not_fails FlagCliArgs Compile LookupEnv clis, ?_⟩
  intro cfg h
  obtain ⟨h1, _, h3⟩ := Configure_ok_ips FlagCliArgs Compile LookupEnv clis cfg h
  rw [← h1] at h3
  refine ⟨h1, ?_, ?_⟩
  · intro he
    rw [h3, if_neg (by simpa using he)]
  · intro hne
    rw [h3, if_pos hne]
    exact ⟨_, rfl, ipMap_of_pieces _⟩

theorem Configure_ip_map_witness :
    ∃ cfg, Configure initCliArgs sampleCompile (fun _ => none)
        [{ emptyConfig with Ips := "127.0.0.1,2001:4860:0:2001::68,127.0.0.1, 127.0.0.1" }] =
        Except.ok cfg ∧
      cfg.IpMap = some [("127.0.0.1", true), ("2001:4860:0:2001::68", true),
        (" 127.0.0.1", true)] ∧
      ∃ m, cfg.IpMap = some m ∧ m.length =
        (strings.Split "127.0.0.1,2001:4860:0:2001::68,127.0.0.1, 127.0.0.1" ',').dedup.length :=
  ⟨_, rfl, by decide,
    (((Configure_ip_map initCliArgs sampleCompile (fun _ => none)
      [{ emptyConfig with
          Ips := "127.0.0.1,2001:4860:0:2001::68,127.0.0.1, 127.0.0.1" }]).2 _ rfl).2.2
      (by decide)).elim fun m hm => ⟨m, hm.1, hm.2.2.2.2⟩⟩

end config

namespace config

end config

/-! Section: Log calls and the shared dispatch contract -/

theorem logCalls_append {Input : Type} (l1 l2 : List (Effect Input)) :
    logCalls (l1 ++ l2) = logCalls l1 ++ logCalls l2 := by
  induction l1 with
  | nil => rfl
  | cons e rest ih =>
    cases e <;> simp [logCalls, ih]

theorem logCalls_filterLog {Input : Type} (origin from_ : String) (denied : List String)
    (ferr : Option GoError) :
    logCalls (filterLog origin from_ denied ferr : List (Effect Input)) =
      if ferr ≠ none then [(origin, from_, denied, ferr)] else [] := by
  unfold filterLog
  split_ifs <;> rfl

theorem sentRequests_append {Input : Type} (l1 l2 : List (Effect Input)) :
    sentRequests (l1 ++ l2) = sentRequests l1 ++ sentRequests l2 := by
  induction l1 with
  | nil => rfl
  | cons e rest ih =>
    cases e <;> simp [sentRequests, ih]

theorem sentRequests_filterLog {Input : Type} (origin from_ : String) (denied : List String)
    (ferr : Option GoError) :
    sentRequests (filterLog origin from_ denied ferr : List (Effect Input)) = [] := by
  unfold filterLog
  split_ifs <;> rfl

theorem logCalls_filterLog_length {Input : Type} (origin from_ : String)
    (denied : List String) (ferr : Option GoError) :
    (logCalls (filterLog origin from_ denied ferr : List (Effect Input))).length ≤ 1 := by
  rw [logCalls_filterLog]
  split_ifs <;> simp

/-- Claim C23: for both backends, every `Send` call invokes the logging
collaborator at most twice: once with the denied list and the filter error
exactly when `FilterAddresses` returned an error, followed by once with the
allowed list (and the error that `Send` returns) exactly when the allowed
list is non-empty and the body was read without error; there are no other
log calls. -/
theorem Send_log_calls {Reader : Type}
    (ConsumeToBytes : Reader → Nat → Except GoError (List UInt8))
    (origin from_ : String) (to_ : List String) (dr : Reader) :
    (∀ c : ses.Client,
      (logCalls (ses.Send ConsumeToBytes c origin from_ to_ dr).2).length ≤ 2 ∧
      ((c.filtered from_ to_).1 = [] →
        logCalls (ses.Send ConsumeToBytes c origin from_ to_ dr).2 =
          if (c.filtered from_ to_).2.2 ≠ none then
            [(origin, from_, (c.filtered from_ to_).2.1, (c.filtered from_ to_).2.2)]
          else []) ∧
      (∀ e, ConsumeToBytes dr c.maxMessageSize = Except.error e →
        logCalls (ses.Send ConsumeToBytes c origin from_ to_ dr).2 =
          if (c.filtered from_ to_).2.2 ≠ none then
            [(origin, from_, (c.filtered from_ to_).2.1, (c.filtered from_ to_).2.2)]
          else []) ∧
      ((c.filtered from_ to_).1 ≠ [] →
        ∀ data, ConsumeToBytes dr c.maxMessageSize = Except.ok data →
          logCalls (ses.Send ConsumeToBytes c origin from_ to_ dr).2 =
            (if (c.filtered from_ to_).2.2 ≠ none then
              [(origin, from_, (c.filtered from_ to_).2.1, (c.filtered from_ to_).2.2)]
            else []) ++
            [(origin, from_, (c.filtered from_ to_).1,
              (ses.Send ConsumeToBytes c origin from_ to_ dr).1)])) ∧
    (∀ c : pinpoint.Client,
      (logCalls (pinpoint.Send ConsumeToBytes c origin from_ to_ dr).2).length ≤ 2 ∧
      ((c.filtered from_ to_).1 = [] →
        logCalls (pinpoint.Send ConsumeToBytes c origin from_ to_ dr).2 =
          if (c.filtered from_ to_).2.2 ≠ none then
            [(origin, from_, (c.filtered from_ to_).2.1, (c.filtered from_ to_).2.2)]
          else []) ∧
      (∀ e, ConsumeToBytes dr c.maxMessageSize = Except.error e →
        logCalls (pinpoint.Send ConsumeToBytes c origin from_ to_ dr).2 =
          if (c.filtered from_ to_).2.2 ≠ none then
            [(origin, from_, (c.filtered from_ to_).2.1, (c.filtered from_ to_).2.2)]
          else []) ∧
      ((c.filtered from_ to_).1 ≠ [] →
        ∀ data, ConsumeToBytes dr c.maxMessageSize = Except.ok data →
          logCalls (pinpoint.Send ConsumeToBytes c origin from_ to_ dr).2 =
            (if (c.filtered from_ to_).2.2 ≠ none then
              [(origin, from_, (c.filtered from_ to_).2.1, (c.filtered from_ to_).2.2)]
            else []) ++
            [(origin, from_, (c.filtered from_ to_).1,
              (pinpoint.Send ConsumeToBytes c origin from_ to_ dr).1)])) := by
  constructor
  · intro c
    have hnone : (c.filtered from_ to_).1 = [] →
        logCalls (ses.Send ConsumeToBytes c origin from_ to_ dr).2 =
          if (c.filtered from_ to_).2.2 ≠ none then
            [(origin, from_, (c.filtered from_ to_).2.1, (c.filtered from_ to_).2.2)]
          else [] := by
      intro ha
      rw [ses.sesSend_none_allowed ConsumeToBytes c origin from_ to_ dr ha, logCalls_filterLog]
    have herr : ∀ e, ConsumeToBytes dr c.maxMessageSize = Except.error e →
        logCalls (ses.Send ConsumeToBytes c origin from_ to_ dr).2 =
          if (c.filtered from_ to_).2.2 ≠ none then
            [(origin, from_, (c.filtered from_ to_).2.1, (c.filtered from_ to_).2.2)]
          else [] := by
      intro e he
      by_cases ha : (c.filtered from_ to_).1 = []
      · exact hnone ha
      · rw [ses.sesSend_read_error ConsumeToBytes c origin from_ to_ dr e ha he,
          logCalls_append, logCalls_filterLog]
        simp [logCalls]
    have hok : (c.filtered from_ to_).1 ≠ [] →
        ∀ data, ConsumeToBytes dr c.maxMessageSize = Except.ok data →
          logCalls (ses.Send ConsumeToBytes c origin from_ to_ dr).2 =
            (if (c.filtered from_ to_).2.2 ≠ none then
              [(origin, from_, (c.filtered from_ to_).2.1, (c.filtered from_ to_).2.2)]
            else []) ++
            [(origin, from_, (c.filtered from_ to_).1,
              (ses.Send ConsumeToBytes c origin from_ to_ dr).1)] := by
      intro ha data hd
      rw [ses.sesSend_read_ok ConsumeToBytes c origin from_ to_ dr data ha hd,
        logCalls_append, logCalls_filterLog]
      simp [logCalls]
    refine ⟨?_, hnone, herr, hok⟩
    by_cases ha : (c.filtered from_ to_).1 = []
    · rw [hnone ha]
      split_ifs <;> simp
    · cases hr : ConsumeToBytes dr c.maxMessageSize with
      | error e =>
        rw [herr e hr]
        split_ifs <;> simp
      | ok data =>
        rw [hok ha data hr]
        split_ifs <;> simp
  · intro c
    have hnone : (c.filtered from_ to_).1 = [] →
        logCalls (pinpoint.Send ConsumeToBytes c origin from_ to_ dr).2 =
          if (c.filtered from_ to_).2.2 ≠ none then
            [(origin, from_, (c.filtered from_ to_).2.1, (c.filtered from_ to_).2.2)]
          else [] := by
      intro ha
      rw [pinpoint.pinpointSend_none_allowed ConsumeToBytes c origin from_ to_ dr ha,
        logCalls_filterLog]
    have herr : ∀ e, ConsumeToBytes dr c.maxMessageSize = Except.error e →
        logCalls (pinpoint.Send ConsumeToBytes c origin from_ to_ dr).2 =
          if (c.filtered from_ to_).2.2 ≠ none then
            [(origin, from_, (c.filtered from_ to_).2.1, (c.filtered from_ to_).2.2)]
          else [] := by
      intro e he
      by_cases ha : (c.filtered from_ to_).1 = []
      · exact hnone ha
      · rw [pinpoint.pinpointSend_read_error ConsumeToBytes c origin from_ to_ dr e ha he,
          logCalls_append, logCalls_filterLog]
        simp [logCalls]
    have hok : (c.filtered from_ to_).1 ≠ [] →
        ∀ data, ConsumeToBytes dr c.maxMessageSize = Except.ok data →
          logCalls (pinpoint.Send ConsumeToBytes c origin from_ to_ dr).2 =
            (if (c.filtered from_ to_).2.2 ≠ none then
              [(origin, from_, (c.filtered from_ to_).2.1, (c.filtered from_ to_).2.2)]
            else []) ++
            [(origin, from_, (c.filtered from_ to_).1,
              (pinpoint.Send ConsumeToBytes c origin from_ to_ dr).1)] := by
      intro ha data hd
      rw [pinpoint.pinpointSend_read_ok ConsumeToBytes c origin from_ to_ dr data ha hd,
        logCalls_append, logCalls_filterLog]
      simp [logCalls]
    refine ⟨?_, hnone, herr, hok⟩
    by_cases ha : (c.filtered from_ to_).1 = []
    · rw [hnone ha]
      split_ifs <;> simp
    · cases hr : ConsumeToBytes dr c.maxMessageSize with
      | error e =>
        rw [herr e hr]
        split_ifs <;> simp
      | ok data =>
        rw [hok ha data hr]
        split_ifs <;> simp

theorem Send_log_calls_witness :
    logCalls (ses.Send relay.ConsumeToBytes
      (ses.stubClient none (some (startingWith "blocked@")) none [] 10) "10.0.0.1:25"
      "sender@example.com" ["blocked@example.org", "allowed@example.org"] [1, 2, 3]).2 =
      [("10.0.0.1:25", "sender@example.com", ["blocked@example.org"],
          some GoError.ErrDeniedRecipients),
       ("10.0.0.1:25", "sender@example.com", ["allowed@example.org"],
          some GoError.ErrDeniedRecipients)] ∧
    logCalls (pinpoint.Send relay.ConsumeToBytes
      (pinpoint.stubClient none none none [] 2) "10.0.0.1:25"
      "sender@example.com" ["allowed@example.org"] [1, 2, 3]).2 = [] :=
  have h := Send_log_calls relay.ConsumeToBytes "10.0.0.1:25" "sender@example.com"
    ["blocked@example.org", "allowed@example.org"] [1, 2, 3]
  have h2 := Send_log_calls relay.ConsumeToBytes "10.0.0.1:25" "sender@example.com"
    ["allowed@example.org"] [1, 2, 3]
  ⟨((h.1 (ses.stubClient none (some (startingWith "blocked@")) none [] 10)).2.2.2
      (by decide) [1, 2, 3] rfl).trans (by decide),
   ((h2.2 (pinpoint.stubClient none none none [] 2)).2.2.1
      (GoError.external "message too large") rfl).trans (by decide)⟩

theorem sendEmailCalls_filterLog_append {Input : Type} (origin from_ : String)
    (denied : List String) (ferr : Option GoError) (rest : List (Effect Input)) :
    sendEmailCalls (filterLog origin from_ denied ferr ++ rest) = sendEmailCalls rest := by
  unfold filterLog sendEmailCalls
  split_ifs <;> simp [List.countP_cons]

/-- Claim C24: the two backend variants satisfy the same dispatch contract:
for clients with the same predicates and size cap, the same origin, sender,
recipients and body, and backends that answer the request of this call
with the same result, the SES `Send` and the Pinpoint `Send` return the
same error, emit the same sequence of log tuples, make the same number of
backend calls (0 or 1), and pass the same destination list, sender and raw
bytes to the backend. -/
theorem Send_same_contract {Reader : Type}
    (ConsumeToBytes : Reader → Nat → Except GoError (List UInt8))
    (cs : ses.Client) (cp : pinpoint.Client) (origin from_ : String) (to_ : List String)
    (dr : Reader)
    (hAllowFrom : cs.allowFromRegExp = cp.allowFromRegExp)
    (hDenyTo : cs.denyToRegExp = cp.denyToRegExp)
    (hAllowTo : cs.allowToRegExp = cp.allowToRegExp)
    (hDomains : cs.allowedDomains = cp.allowedDomains)
    (hSize : cs.maxMessageSize = cp.maxMessageSize)
    (hBackend : ∀ data,
      cs.SesClient.SendEmail (ses.buildInput cs from_ (cs.filtered from_ to_).1 data) =
      cp.PinpointClient.SendEmail
        (pinpoint.buildInput cp from_ to_ (cp.filtered from_ to_).1 data)) :
    (ses.Send ConsumeToBytes cs origin from_ to_ dr).1 =
      (pinpoint.Send ConsumeToBytes cp origin from_ to_ dr).1 ∧
    logCalls (ses.Send ConsumeToBytes cs origin from_ to_ dr).2 =
      logCalls (pinpoint.Send ConsumeToBytes cp origin from_ to_ dr).2 ∧
    sendEmailCalls (ses.Send ConsumeToBytes cs origin from_ to_ dr).2 =
      sendEmailCalls (pinpoint.Send ConsumeToBytes cp origin from_ to_ dr).2 ∧
    sendEmailCalls (ses.Send ConsumeToBytes cs origin from_ to_ dr).2 ≤ 1 ∧
    (sentRequests (ses.Send ConsumeToBytes cs origin from_ to_ dr).2).map ses.requestCore =
      (sentRequests (pinpoint.Send ConsumeToBytes cp origin from_ to_ dr).2).map
        pinpoint.requestCore := by
  have hf : cs.filtered from_ to_ = cp.filtered from_ to_ := by
    unfold ses.Client.filtered pinpoint.Client.filtered
    rw [hAllowFrom, hDenyTo, hAllowTo, hDomains]
  by_cases ha : (cs.filtered from_ to_).1 = []
  · have ha2 : (cp.filtered from_ to_).1 = [] := hf ▸ ha
    rw [ses.sesSend_none_allowed ConsumeToBytes cs origin from_ to_ dr ha,
      pinpoint.pinpointSend_none_allowed ConsumeToBytes cp origin from_ to_ dr ha2, hf]
    refine ⟨rfl, ?_, ?_, ?_, ?_⟩
    · simp [logCalls_filterLog]
    · simp [sendEmailCalls_filterLog]
    · simp [sendEmailCalls_filterLog]
    · simp [sentRequests_filterLog]
  · have ha2 : (cp.filtered from_ to_).1 ≠ [] := hf ▸ ha
    cases hr : ConsumeToBytes dr cs.maxMessageSize with
    | error e =>
      have hr2 : ConsumeToBytes dr cp.maxMessageSize = Except.error e := hSize ▸ hr
      rw [ses.sesSend_read_error ConsumeToBytes cs origin from_ to_ dr e ha hr,
        pinpoint.pinpointSend_read_error ConsumeToBytes cp origin from_ to_ dr e ha2 hr2,
        hf, hSize]
      refine ⟨rfl, ?_, ?_, ?_, ?_⟩
      · simp [logCalls_append, logCalls_filterLog, logCalls]
      · rw [sendEmailCalls_filterLog_append, sendEmailCalls_filterLog_append]
        simp [sendEmailCalls]
      · rw [sendEmailCalls_filterLog_append]
        simp [sendEmailCalls]
      · simp [sentRequests_append, sentRequests_filterLog, sentRequests]
    | ok data =>
      have hr2 : ConsumeToBytes dr cp.maxMessageSize = Except.ok data := hSize ▸ hr
      rw [ses.sesSend_read_ok ConsumeToBytes cs origin from_ to_ dr data ha hr,
        pinpoint.pinpointSend_read_ok ConsumeToBytes cp origin from_ to_ dr data ha2 hr2,
        hBackend data, hSize]
      have hcore : ses.requestCore (ses.buildInput cs from_ (cs.filtered from_ to_).1 data) =
          pinpoint.requestCore
            (pinpoint.buildInput cp from_ to_ (cp.filtered from_ to_).1 data) := by
        obtain ⟨h1, h2, h3, _⟩ :=
          ses.buildInput_fields cs from_ (cs.filtered from_ to_).1 data
        unfold ses.requestCore
        rw [h1, h2, h3, hf]
        rfl
      refine ⟨by rw [hf], ?_, ?_, ?_, ?_⟩
      · simp [logCalls_append, logCalls_filterLog, logCalls, hf]
      · rw [sendEmailCalls_filterLog_append, sendEmailCalls_filterLog_append]
        simp [sendEmailCalls, List.countP_cons]
      · rw [sendEmailCalls_filterLog_append]
        simp [sendEmailCalls, List.countP_cons]
      · simp [sentRequests_append, sentRequests_filterLog, sentRequests, hcore]

theorem Send_same_contract_witness :
    ses.requestCore (ses.buildInput
        (ses.stubClient (some (GoError.external "throttled"))
          (some (startingWith "blocked@")) none [] 10)
        "sender@example.com" ["allowed@example.org"] [1, 2, 3]) =
      (some ["allowed@example.org"], some "sender@example.com", some [1, 2, 3]) ∧
    (ses.Send relay.ConsumeToBytes
        (ses.stubClient (some (GoError.external "throttled"))
          (some (startingWith "blocked@")) none [] 10)
        "10.0.0.1:25" "sender@example.com" ["blocked@example.org", "allowed@example.org"]
        [1, 2, 3]).1 =
      (pinpoint.Send relay.ConsumeToBytes
        (pinpoint.stubClient (some (GoError.external "throttled"))
          (some (startingWith "blocked@")) none [] 10)
        "10.0.0.1:25" "sender@example.com" ["blocked@example.org", "allowed@example.org"]
        [1, 2, 3]).1 :=
  ⟨by decide,
   (Send_same_contract relay.ConsumeToBytes
    (ses.stubClient (some (GoError.external "throttled"))
      (some (startingWith "blocked@")) none [] 10)
    (pinpoint.stubClient (some (GoError.external "throttled"))
      (some (startingWith "blocked@")) none [] 10)
    "10.0.0.1:25" "sender@example.com" ["blocked@example.org", "allowed@example.org"]
    [1, 2, 3] rfl rfl rfl rfl rfl (fun _ => rfl)).1⟩

/-! Section: Further properties of the filter and of the domain list -/

namespace filter

theorem FilterAddresses_err_eq (from_ : String) (to_ : List String)
    (af d a : Option Regexp) (doms : List String) :
    (FilterAddresses from_ to_ af d a doms).2.2 =
      if senderCheck from_ af = none ∧ (FilterAddresses from_ to_ af d a doms).2.1 ≠ [] then
        (if a.isSome ∨ doms.length > 0 then some GoError.ErrDeniedRecipientsNotAllowed
          else some GoError.ErrDeniedRecipients)
      else senderCheck from_ af := by
  show (if _ ∧ _ then _ else _) = _
  have hlen : ∀ l : List String, l.length > 0 ↔ l ≠ [] := fun l => List.length_pos
  simp only [hlen]
  rfl

theorem FilterAddresses_allowed_eq_of_denied_nil (from_ : String) (to_ : List String)
    (af d a : Option Regexp) (doms : List String)
    (h : (FilterAddresses from_ to_ af d a doms).2.1 = []) :
    (FilterAddresses from_ to_ af d a doms).1 = to_ := by
  obtain ⟨h1, h2⟩ := FilterAddresses_lists from_ to_ af d a doms
  rw [h2] at h
  rw [h1, List.filter_eq_self]
  intro r hr
  by_contra hk
  have : r ∈ to_.filter (fun r => !keeps (senderCheck from_ af) d a doms r) :=
    List.mem_filter.2 ⟨hr, by simpa using hk⟩
  rw [h] at this
  exact List.not_mem_nil _ this

theorem FilterAddresses_no_predicates (from_ : String) (to_ : List String) :
    FilterAddresses from_ to_ none none none [] = (to_, [], none) := by
  have hk : keeps none none none [] = fun _ => true := by
    funext r
    simp [keeps, matchesOpt, isAllowedDomain]
  simp [FilterAddresses, foldl_filterStep, senderCheck, hk]

/-- Claim C25: `FilterAddresses` returns a nil error if and only if the
sender is allowed and the denied list is empty, in which case `allowed` is
`to`. So a non-empty denied list always comes with an error; and with no
recipient and a sender that fails the sender pattern the result is
`allowed = []`, `denied = []` and `ErrDeniedSender`. -/
theorem FilterAddresses_nil_error_iff (from_ : String) (to_ : List String)
    (allowFromRegExp denyToRegExp allowToRegExp : Option Regexp)
    (allowedDomains : List String) :
    ((FilterAddresses from_ to_ allowFromRegExp denyToRegExp allowToRegExp
        allowedDomains).2.2 = none ↔
      ((∀ re, allowFromRegExp = some re → re.MatchString from_ = true) ∧
       (FilterAddresses from_ to_ allowFromRegExp denyToRegExp allowToRegExp
        allowedDomains).2.1 = [])) ∧
    ((FilterAddresses from_ to_ allowFromRegExp denyToRegExp allowToRegExp
        allowedDomains).2.2 = none →
      (FilterAddresses from_ to_ allowFromRegExp denyToRegExp allowToRegExp
        allowedDomains).1 = to_) ∧
    ((FilterAddresses from_ to_ allowFromRegExp denyToRegExp allowToRegExp
        allowedDomains).2.1 ≠ [] →
      (FilterAddresses from_ to_ allowFromRegExp denyToRegExp allowToRegExp
        allowedDomains).2.2 ≠ none) ∧
    (∀ re : Regexp, re.MatchString from_ = false →
      FilterAddresses from_ [] (some re) denyToRegExp allowToRegExp allowedDomains =
        ([], [], some GoError.ErrDeniedSender)) := by
  have hiff : (FilterAddresses from_ to_ allowFromRegExp denyToRegExp allowToRegExp
        allowedDomains).2.2 = none ↔
      ((∀ re, allowFromRegExp = some re → re.MatchString from_ = true) ∧
       (FilterAddresses from_ to_ allowFromRegExp denyToRegExp allowToRegExp
        allowedDomains).2.1 = []) := by
    rw [FilterAddresses_err_eq, ← senderCheck_eq_none_iff]
    by_cases hs : senderCheck from_ allowFromRegExp = none
    · by_cases hd : (FilterAddresses from_ to_ allowFromRegExp denyToRegExp allowToRegExp
          allowedDomains).2.1 = []
      · simp [hs, hd]
      · simp only [hs, hd, ne_eq, not_false_eq_true, and_self, if_true, and_false, iff_false]
        split_ifs <;> simp
    · simp [hs]
  refine ⟨hiff, ?_, ?_, ?_⟩
  · intro h
    exact FilterAddresses_allowed_eq_of_denied_nil _ _ _ _ _ _ (hiff.1 h).2
  · intro hd h
    exact hd (hiff.1 h).2
  · intro re h
    simp [FilterAddresses, senderCheck, h]

theorem FilterAddresses_nil_error_iff_witness :
    (FilterAddresses "sender@example.com" ["blocked@example.org", "allowed@example.org"]
      none (some (startingWith "blocked@")) none []).2.2 ≠ none ∧
    FilterAddresses "notallowed@sender.com" [] (some (exactly "allowed@sender.com"))
      none none [] = ([], [], some GoError.ErrDeniedSender) :=
  have h := FilterAddresses_nil_error_iff "sender@example.com"
    ["blocked@example.org", "allowed@example.org"] none (some (startingWith "blocked@"))
    none []
  have h2 := FilterAddresses_nil_error_iff "notallowed@sender.com" []
    none none none []
  ⟨h.2.2.1 (by decide), h2.2.2.2 (exactly "allowed@sender.com") (by decide)⟩

end filter

namespace strings

theorem splitChars_mem (sep : Char) (s piece : List Char) (c : Char)
    (h : piece ∈ splitChars sep s) (hc : c ∈ piece) : c ∈ s := by
  induction s generalizing piece with
  | nil =>
    simp [splitChars] at h
    rw [h] at hc
    exact absurd hc (List.not_mem_nil _)
  | cons x xs ih =>
    unfold splitChars at h
    by_cases hx : x = sep
    · rw [if_pos hx] at h
      rcases List.mem_cons.1 h with h1 | h1
      · rw [h1] at hc
        exact absurd hc (List.not_mem_nil _)
      · exact List.mem_cons_of_mem _ (ih piece h1 hc)
    · rw [if_neg hx] at h
      cases hs : splitChars sep xs with
      | nil => exact absurd hs (splitChars_ne_nil sep xs)
      | cons p ps =>
        rw [hs] at h
        rcases List.mem_cons.1 h with h1 | h1
        · rw [h1] at hc
          rcases List.mem_cons.1 hc with h2 | h2
          · rw [h2]
            exact List.mem_cons_self _ _
          · exact List.mem_cons_of_mem _ (ih p (hs ▸ List.mem_cons_self _ _) h2)
        · exact List.mem_cons_of_mem _ (ih piece (hs ▸ List.mem_cons_of_mem _ h1) hc)

theorem TrimSpace_eq_empty (s : String) (h : ∀ c ∈ s.data, isSpace c = true) :
    TrimSpace s = "" := by
  apply String.ext
  rw [TrimSpace_data]
  have hd : List.dropWhile isSpace s.data = [] := by
    rw [List.dropWhile_eq_nil_iff]
    exact h
  rw [hd]
  rfl

end strings

namespace config

theorem domainList_eq_nil (s : String)
    (h : ∀ c ∈ s.data, c = ',' ∨ strings.isSpace c = true) : domainList s = [] := by
  unfold domainList
  rw [List.filter_eq_nil_iff]
  intro e he
  obtain ⟨piece, hp, rfl⟩ := List.mem_map.1 he
  unfold strings.Split at hp
  obtain ⟨chars, hchars, rfl⟩ := List.mem_map.1 hp
  have hsp : ∀ c ∈ chars, strings.isSpace c = true := by
    intro c hc
    rcases h c (strings.splitChars_mem ',' s.data chars c hchars hc) with h1 | h1
    · rw [h1] at hc
      exact absurd hc (strings.splitChars_no_sep ',' s.data chars hchars)
    · exact h1
  simp [strings.TrimSpace_eq_empty (String.mk chars) hsp]

theorem Configure_ok_slice (FlagCliArgs : Config)
    (Compile : String → Except String Regexp) (LookupEnv : String → Option String)
    (clis : List Config) (cfg : Config)
    (h : Configure FlagCliArgs Compile LookupEnv clis = Except.ok cfg)
    (hne : cfg.AllowToDomains ≠ "") :
    cfg.AllowToDomainsSlice = domainList cfg.AllowToDomains := by
  rcases (Configure_ok_domains FlagCliArgs Compile LookupEnv clis cfg h).1 with
    ⟨v, _, _, h1, h2⟩ | ⟨_, h1, h2, _⟩
  · rw [h2, h1, domainsLoop_eq_domainList]
  · rw [h2 (h1 ▸ hne), h1, domainsLoop_eq_domainList]

theorem isAllowedDomain_empty_domain (email : String) (l : List String)
    (hl : l ≠ []) (he : "" ∉ l) (hd : filter.extractDomain email = "") :
    filter.isAllowedDomain email l = false := by
  rw [← Bool.not_eq_true, filter.isAllowedDomain_eq_true_iff, hd]
  rintro (h | h)
  · exact hl h
  · exact he h

/-- Claim C26: the domain list that `Configure` parses from a
comma-separated string never contains the empty string; so whenever the
parsed list is non-empty, every recipient whose extracted domain is empty
(no `@`, or nothing after the first `@`) is rejected by `isAllowedDomain`
against that list. -/
theorem parsed_domains_reject_empty_domain :
    (∀ s : String, "" ∉ domainsLoop s) ∧
    (∀ (s email : String), domainsLoop s ≠ [] → filter.extractDomain email = "" →
      filter.isAllowedDomain email (domainsLoop s) = false) ∧
    (∀ email : String, '@' ∉ email.data → filter.extractDomain email = "") ∧
    (∀ a : String, '@' ∉ a.data → filter.extractDomain (a ++ "@") = "") ∧
    (∀ (FlagCliArgs : Config) (Compile : String → Except String Regexp)
        (LookupEnv : String → Option String) (clis : List Config) (cfg : Config),
      Configure FlagCliArgs Compile LookupEnv clis = Except.ok cfg →
      cfg.AllowToDomains ≠ "" →
        "" ∉ cfg.AllowToDomainsSlice ∧
        (cfg.AllowToDomainsSlice ≠ [] →
          ∀ email : String, filter.extractDomain email = "" →
            filter.isAllowedDomain email cfg.AllowToDomainsSlice = false)) := by
  have hempty : ∀ s : String, "" ∉ domainsLoop s := by
    intro s hm
    rw [domainsLoop_eq_domainList] at hm
    exact (domainList_entry s "" hm).1 rfl
  refine ⟨hempty, ?_, filter.extractDomain_no_at, ?_, ?_⟩
  · intro s email hne hd
    exact isAllowedDomain_empty_domain email _ hne (hempty s) hd
  · intro a ha
    have h := filter.extractDomain_split a "" ha
    simpa using h
  · intro FlagCliArgs Compile LookupEnv clis cfg hok hne
    have hs := Configure_ok_slice FlagCliArgs Compile LookupEnv clis cfg hok hne
    rw [hs, ← domainsLoop_eq_domainList]
    exact ⟨hempty _, fun hl email hd =>
      isAllowedDomain_empty_domain email _ hl (hempty _) hd⟩

theorem parsed_domains_reject_empty_domain_witness :
    filter.isAllowedDomain "invalid-email" (domainsLoop " example.org , , example.com") =
      false ∧
    filter.extractDomain ("user" ++ "@") = "" :=
  ⟨parsed_domains_reject_empty_domain.2.1 " example.org , , example.com" "invalid-email"
      (by decide) (by decide),
   parsed_domains_reject_empty_domain.2.2.2.1 "user" (by decide)⟩

/-- Claim C27: a non-empty `AllowToDomains` string that consists only of
commas and white space, such as `,` or ` , `, is parsed by `Configure` to
an empty domain list, and `FilterAddresses` treats that list as no domain
restriction: with no other predicate configured every recipient is allowed
and the error is nil. -/
theorem blank_domains_allow_all :
    (∀ s : String, (∀ c ∈ s.data, c = ',' ∨ strings.isSpace c = true) →
      domainsLoop s = []) ∧
    domainsLoop "," = [] ∧ domainsLoop " , " = [] ∧
    (∀ (FlagCliArgs : Config) (Compile : String → Except String Regexp)
        (LookupEnv : String → Option String) (clis : List Config) (cfg : Config),
      Configure FlagCliArgs Compile LookupEnv clis = Except.ok cfg →
      cfg.AllowToDomains ≠ "" →
      (∀ c ∈ cfg.AllowToDomains.data, c = ',' ∨ strings.isSpace c = true) →
        cfg.AllowToDomainsSlice = [] ∧
        ∀ (from_ : String) (to_ : List String),
          filter.FilterAddresses from_ to_ none none none cfg.AllowToDomainsSlice =
            (to_, [], none)) := by
  refine ⟨?_, by decide, by decide, ?_⟩
  · intro s h
    rw [domainsLoop_eq_domainList]
    exact domainList_eq_nil s h
  · intro FlagCliArgs Compile LookupEnv clis cfg hok hne hc
    have hs : cfg.AllowToDomainsSlice = [] := by
      rw [Configure_ok_slice FlagCliArgs Compile LookupEnv clis cfg hok hne]
      exact domainList_eq_nil _ hc
    refine ⟨hs, ?_⟩
    intro from_ to_
    rw [hs]
    exact filter.FilterAddresses_no_predicates from_ to_

theorem blank_domains_allow_all_witness :
    ∃ cfg, Configure initCliArgs sampleCompile (fun _ => none)
        [{ emptyConfig with AllowToDomains := " , " }] = Except.ok cfg ∧
      cfg.AllowToDomains = " , " ∧
      filter.FilterAddresses "sender@example.com" ["user@example.org", "admin@other.org"]
        none none none cfg.AllowToDomainsSlice =
        (["user@example.org", "admin@other.org"], [], none) :=
  ⟨_, rfl, rfl,
    (blank_domains_allow_all.2.2.2 initCliArgs sampleCompile (fun _ => none)
      [{ emptyConfig with AllowToDomains := " , " }] _ rfl (by decide) (by decide)).2
      "sender@example.com" ["user@example.org", "admin@other.org"]⟩

end config

/-! Section: Reply-to addresses -/

theorem ses.buildInput_recipientFields (c : ses.Client) (from_ : String)
    (allowed : List String) (data : List UInt8) :
    ses.recipientFields (ses.buildInput c from_ allowed data) = allowed ∧
    (ses.buildInput c from_ allowed data).FeedbackForwardingEmailAddress = none := by
  unfold ses.buildInput ses.recipientFields
  cases c.arns with
  | none => simp
  | some arns =>
    dsimp only
    split_ifs <;> simp

theorem filter.denied_subset (from_ : String) (to_ : List String)
    (af d a : Option Regexp) (doms : List String) (r : String)
    (h : r ∈ (filter.FilterAddresses from_ to_ af d a doms).2.1) : r ∈ to_ := by
  rw [(filter.FilterAddresses_lists from_ to_ af d a doms).2] at h
  exact (List.mem_filter.1 h).1

/-- The statement of claim C28 fails when the sender is itself a denied
recipient: the message is partially denied, `blocked@example.org` is in the
denied list, and the request that the SES `Send` passes to the backend
carries that address in the field `FromEmailAddress`. -/
theorem Send_sender_denied_counterexample :
    (ses.stubClient none (some (startingWith "blocked@")) none [] 10).filtered
      "blocked@example.org" ["blocked@example.org", "allowed@example.org"] =
      (["allowed@example.org"], ["blocked@example.org"],
        some GoError.ErrDeniedRecipients) ∧
    sentRequests (ses.Send relay.ConsumeToBytes
      (ses.stubClient none (some (startingWith "blocked@")) none [] 10) "10.0.0.1:25"
      "blocked@example.org" ["blocked@example.org", "allowed@example.org"] [1, 2, 3]).2 =
      [{ ConfigurationSetName := some "set"
         FromEmailAddress := some "blocked@example.org"
         Destination := some { ToAddresses := ["allowed@example.org"] }
         Content := some { Raw := some { Data := [1, 2, 3] } }
         FromEmailAddressIdentityArn := none
         FeedbackForwardingEmailAddressIdentityArn := none }] ∧
    ¬ (∀ input ∈ sentRequests (ses.Send relay.ConsumeToBytes
        (ses.stubClient none (some (startingWith "blocked@")) none [] 10) "10.0.0.1:25"
        "blocked@example.org" ["blocked@example.org", "allowed@example.org"] [1, 2, 3]).2,
      ∀ r ∈ ((ses.stubClient none (some (startingWith "blocked@")) none [] 10).filtered
          "blocked@example.org" ["blocked@example.org", "allowed@example.org"]).2.1,
        input.FromEmailAddress ≠ some r) := by
  refine ⟨by decide, by decide, ?_⟩
  intro h
  exact h (ses.buildInput (ses.stubClient none (some (startingWith "blocked@")) none [] 10)
    "blocked@example.org" ["allowed@example.org"] [1, 2, 3]) (by decide)
    "blocked@example.org" (by decide) (by decide)

/-- Claim C28, amended: in every request that the Pinpoint `Send` passes to
the backend, `ReplyToAddresses` is the full input recipient list `to`, so
it holds every denied recipient; in every request that the SES `Send`
passes to the backend, the recipient fields (the destination lists and the
reply-to list) hold exactly the allowed recipients and no denied one. The
only other address fields of the SES request are `FromEmailAddress`, which
is the sender whether or not the sender is also a denied recipient, and
`FeedbackForwardingEmailAddress`, which is unset. -/
theorem Send_reply_to {Reader : Type}
    (ConsumeToBytes : Reader → Nat → Except GoError (List UInt8))
    (origin from_ : String) (to_ : List String) (dr : Reader) :
    (∀ (c : pinpoint.Client) (input : pinpoint.SendEmailInput),
      Effect.SendEmail input ∈ (pinpoint.Send ConsumeToBytes c origin from_ to_ dr).2 →
        input.ReplyToAddresses = to_ ∧
        (∀ r ∈ (c.filtered from_ to_).2.1, r ∈ input.ReplyToAddresses)) ∧
    (∀ (c : ses.Client) (input : ses.SendEmailInput),
      Effect.SendEmail input ∈ (ses.Send ConsumeToBytes c origin from_ to_ dr).2 →
        ses.recipientFields input = (c.filtered from_ to_).1 ∧
        (∀ r ∈ (c.filtered from_ to_).2.1, r ∉ ses.recipientFields input) ∧
        input.FromEmailAddress = some from_ ∧
        input.FeedbackForwardingEmailAddress = none) := by
  constructor
  · intro c input h
    obtain ⟨data, _, rfl⟩ :=
      pinpoint.pinpointSend_sent ConsumeToBytes c origin from_ to_ dr input h
    exact ⟨rfl, fun r hr => filter.denied_subset _ _ _ _ _ _ r hr⟩
  · intro c input h
    obtain ⟨data, _, rfl⟩ := ses.sesSend_sent ConsumeToBytes c origin from_ to_ dr input h
    obtain ⟨h1, h2⟩ := ses.buildInput_recipientFields c from_ (c.filtered from_ to_).1 data
    rw [h1]
    exact ⟨rfl, fun r hr => filter.denied_not_mem_allowed _ _ _ _ _ _ r hr,
      (ses.buildInput_fields c from_ (c.filtered from_ to_).1 data).2.1, h2⟩

theorem Send_reply_to_witness :
    (pinpoint.Send relay.ConsumeToBytes
      (pinpoint.stubClient none (some (startingWith "blocked@")) none [] 10) "10.0.0.1:25"
      "sender@example.com" ["blocked@example.org", "allowed@example.org"] [1, 2, 3]).2 =
      [Effect.Log "10.0.0.1:25" "sender@example.com" ["blocked@example.org"]
        (some GoError.ErrDeniedRecipients),
       Effect.ConsumeToBytes 10,
       Effect.SendEmail
        { Content := some { Raw := some { Data := [1, 2, 3] } }
          Destination := some { ToAddresses := ["allowed@example.org"] }
          ConfigurationSetName := some "set"
          EmailTags := []
          FeedbackForwardingEmailAddress := some ""
          FromEmailAddress := some "sender@example.com"
          ReplyToAddresses := ["blocked@example.org", "allowed@example.org"] },
       Effect.Log "10.0.0.1:25" "sender@example.com" ["allowed@example.org"]
        (some GoError.ErrDeniedRecipients)] ∧
    "blocked@example.org" ∈ (pinpoint.buildInput
      (pinpoint.stubClient none (some (startingWith "blocked@")) none [] 10)
      "sender@example.com" ["blocked@example.org", "allowed@example.org"]
      ["allowed@example.org"] [1, 2, 3]).ReplyToAddresses :=
  ⟨by decide,
   ((Send_reply_to relay.ConsumeToBytes "10.0.0.1:25" "sender@example.com"
      ["blocked@example.org", "allowed@example.org"] [1, 2, 3]).1
      (pinpoint.stubClient none (some (startingWith "blocked@")) none [] 10) _
      (by decide)).2 "blocked@example.org" (by decide)⟩
